import Mathlib

/-!
Shallow embedding of the storage core of the `bambang` embedded database
engine (slotted pages, CRC-32 page checksums, row/value codec, B+-tree
insert with leaf splits, sequential scanner, storage manager), together
with proofs and refutations of the specification claims about it.

Conventions of the embedding:
* machine integers are `Nat` (or `Int` for signed values); wrapping
  arithmetic is made explicit (`% 2 ^ w`, `u16_sub`) exactly at the spots
  where the Rust source performs a cast or could wrap in release mode;
* `Vec<u8>` buffers of the fixed page size 4096 are modelled as total
  functions `Nat → Nat` (a byte per index; indices ≥ 4096 are irrelevant
  and kept at whatever the function yields); short, variable-length byte
  strings (serialized rows, cells) are `List Nat`;
* fallible Rust functions return `Except DatabaseError α`; functions that
  mutate `&mut self` and can fail return the (possibly unchanged) receiver
  next to the `Except` so that "the state is unchanged on error" is a
  provable statement;
* a Rust panic (not an `Err` return) is modelled by `Option`: `none`
  means the call panicked;
* loops whose termination depends on on-disk data (tree descent, the
  scanner) take an explicit fuel argument; theorems quantify over fuel and
  only conclude from non-fuel-exhausted results.
-/

set_option maxRecDepth 40000
set_option maxHeartbeats 1000000

/-- Continuation-passing forcing of a `Nat`: `seqNat n k` equals `k n` but
kernel reduction first brings `n` to a numeral before continuing, which keeps
call-by-name evaluation of accumulator loops (CRC, parsers) from re-evaluating
deep thunks.  Semantically it is the identity, see `seqNat_eq`. -/
def seqNat {α : Sort u} (n : Nat) (k : Nat → α) : α :=
  Nat.rec (motive := fun _ => α) (k 0) (fun m _ih => k (m + 1)) n

theorem seqNat_eq {α : Sort u} (n : Nat) (k : Nat → α) : seqNat n k = k n := by
  cases n with
  | zero => rfl
  | succ m => rfl

/-- Wrapping `u16` subtraction (`a - b` in release-mode Rust on `u16`),
for `a, b < 2 ^ 16`. -/
def u16_sub (a b : Nat) : Nat :=
  (a + 65536 - b) % 65536

theorem u16_sub_eq (a b : Nat) (hb : b ≤ a) (ha : a < 65536) :
    u16_sub a b = a - b := by
  unfold u16_sub
  omega

/-- Little-endian byte string of width `w` for the value `n`
(`n.to_le_bytes()` truncated/zero-extended to `w` bytes). -/
def leBytes (w n : Nat) : List Nat :=
  (List.range w).map (fun i => n / 256 ^ i % 256)

/-- Value of a little-endian byte string. -/
def leValue : List Nat → Nat
  | [] => 0
  | b :: bs => b % 256 + 256 * leValue bs

theorem leBytes_length (w n : Nat) : (leBytes w n).length = w := by
  simp [leBytes]

theorem leBytes_succ (w n : Nat) :
    leBytes (w + 1) n = n % 256 :: leBytes w (n / 256) := by
  unfold leBytes
  rw [List.range_succ_eq_map]
  simp only [List.map_cons, List.map_map, pow_zero, Nat.div_one, List.cons.injEq]
  refine ⟨trivial, ?_⟩
  apply List.map_congr_left
  intro i _
  simp only [Function.comp_apply]
  rw [Nat.div_div_eq_div_mul, pow_succ, mul_comm (256 ^ i) 256]

theorem leValue_leBytes (w n : Nat) (h : n < 256 ^ w) :
    leValue (leBytes w n) = n := by
  induction w generalizing n with
  | zero =>
    simp [leBytes, leValue]
    omega
  | succ w ih =>
    rw [leBytes_succ]
    unfold leValue
    rw [ih (n / 256) (by
      have : 256 ^ (w + 1) = 256 ^ w * 256 := by ring
      omega)]
    omega

/-- A fixed 4096-byte buffer (`Vec<u8>` of the page size), as a function from
index to byte value. -/
def Buf : Type := Nat → Nat

/-- Read the `len` bytes starting at `start` out of a buffer
(`&buf[start..start+len]`, materialized). -/
def readSlice (b : Buf) (start len : Nat) : List Nat :=
  (List.range len).map (fun k => b (start + k))

/-- Overwrite `xs.length` bytes of `b` starting at `start`
(`buf[start..start + xs.len()].copy_from_slice(&xs)`). -/
def writeBytes (b : Buf) (start : Nat) (xs : List Nat) : Buf :=
  fun k => if start ≤ k ∧ k < start + xs.length then xs.getD (k - start) 0 else b k

/-- Set every byte from `start` on (up to the page size) to zero
(`buf[start..].fill(0)`). -/
def fillZeroFrom (b : Buf) (start : Nat) : Buf :=
  fun k => if start ≤ k ∧ k < 4096 then 0 else b k

/-- The all-zero buffer (`vec![0u8; PAGE_SIZE]`). -/
def zeroBuf : Buf := fun _ => 0

theorem readSlice_length (b : Buf) (start len : Nat) :
    (readSlice b start len).length = len := by
  simp [readSlice]

theorem writeBytes_apply_in (b : Buf) (start : Nat) (xs : List Nat) (k : Nat)
    (h1 : start ≤ k) (h2 : k < start + xs.length) :
    writeBytes b start xs k = xs.getD (k - start) 0 := by
  simp [writeBytes, h1, h2]

theorem writeBytes_apply_out (b : Buf) (start : Nat) (xs : List Nat) (k : Nat)
    (h : k < start ∨ start + xs.length ≤ k) :
    writeBytes b start xs k = b k := by
  unfold writeBytes
  rcases h with h | h
  · rw [if_neg]; omega
  · rw [if_neg]; omega

theorem readSlice_writeBytes_self (b : Buf) (start : Nat) (xs : List Nat) :
    readSlice (writeBytes b start xs) start xs.length = xs := by
  apply List.ext_getElem
  · simp [readSlice_length]
  · intro k hk1 hk2
    simp only [readSlice, List.getElem_map, List.getElem_range]
    rw [writeBytes_apply_in b start xs (start + k) (by omega) (by
      rw [readSlice_length] at hk1; omega)]
    rw [readSlice_length] at hk1
    simp only [Nat.add_sub_cancel_left]
    exact List.getD_eq_getElem xs 0 hk1

theorem readSlice_congr (b b' : Buf) (start len : Nat)
    (h : ∀ k, start ≤ k → k < start + len → b k = b' k) :
    readSlice b start len = readSlice b' start len := by
  apply List.ext_getElem
  · simp [readSlice_length]
  · intro k hk1 hk2
    simp only [readSlice, List.getElem_map, List.getElem_range]
    rw [readSlice_length] at hk1
    exact h (start + k) (by omega) (by omega)

/-- One bit step of CRC-32 (polynomial `0xEDB88320`, reflected). -/
def crcBit (c : Nat) : Nat :=
  if c % 2 == 1 then (c / 2) ^^^ 0xEDB88320 else c / 2

/-- One byte step of CRC-32 (`crc32fast` processes the byte then 8 bit steps);
written with `seqNat` so that kernel evaluation is call-by-value. -/
def crcByteStep (c b : Nat) : Nat :=
  seqNat (c ^^^ b) fun c0 =>
  seqNat (crcBit c0) fun c1 =>
  seqNat (crcBit c1) fun c2 =>
  seqNat (crcBit c2) fun c3 =>
  seqNat (crcBit c3) fun c4 =>
  seqNat (crcBit c4) fun c5 =>
  seqNat (crcBit c5) fun c6 =>
  seqNat (crcBit c6) fun c7 =>
  crcBit c7

/-- Running CRC-32 state over a byte list. -/
def crc32Aux : Nat → List Nat → Nat
  | c, [] => c
  | c, b :: bs => seqNat (crcByteStep c b) fun c2 => crc32Aux c2 bs

/-- CRC-32 of a byte list (init `0xFFFFFFFF`, final complement), as computed
by the `crc32fast::Hasher` used in `utils/hash.rs`; a sequence of
`hasher.update(chunk)` calls equals one pass over the concatenation. -/
def crc32 (data : List Nat) : Nat :=
  crc32Aux 0xFFFFFFFF data ^^^ 0xFFFFFFFF

theorem crc32Aux_eq_foldl (c : Nat) (l : List Nat) :
    crc32Aux c l = l.foldl crcByteStep c := by
  induction l generalizing c with
  | nil => rfl
  | cons b bs ih =>
    rw [crc32Aux, seqNat_eq, List.foldl_cons, ih]

theorem crc32Aux_append (c : Nat) (xs ys : List Nat) :
    crc32Aux c (xs ++ ys) = crc32Aux (crc32Aux c xs) ys := by
  simp [crc32Aux_eq_foldl]

/-! ## Error type (`types/error.rs`)

Only the constructors the storage core actually produces are modelled.
Interpolated values inside Rust `format!` message strings are not
reproduced; each modelled message keeps the static template text. -/

inductive DatabaseError where
  | Io (details : String)
  | PageFull (page_id : Nat)
  | InvalidSlotIndex (index max : Nat)
  | ColumnIndexOutOfBounds (index : Nat)
  | SerializationError (details : String)
  | TableNotFound (name : List Nat)
  | ExecutionError (details : String)
  | InvalidPageSize (expected actual : Nat)
  | CorruptedPage (page_id : Nat) (reason : String)
  | InvalidPageType (value : Nat)
  | CorruptedDatabase (reason : String)
  | OverflowPageRequired
  | UnsupportedFileFormat (version : Nat)
deriving DecidableEq, Repr

/-! ## Page types and slots (`types/page.rs`) -/

inductive PageType where
  | InteriorIndex
  | InteriorTable
  | LeafIndex
  | LeafTable
  | OverflowPage
deriving DecidableEq, Repr

def PageType.from_u8 (value : Nat) : Except DatabaseError PageType :=
  match value with
  | 2 => .ok .InteriorIndex
  | 5 => .ok .InteriorTable
  | 10 => .ok .LeafIndex
  | 13 => .ok .LeafTable
  | 15 => .ok .OverflowPage
  | _ => .error (.InvalidPageType value)

def PageType.as_u8 : PageType → Nat
  | .InteriorIndex => 2
  | .InteriorTable => 5
  | .LeafIndex => 10
  | .LeafTable => 13
  | .OverflowPage => 15

structure OverflowPointer where
  page_id : Nat
  total_size : Nat
deriving DecidableEq, Repr

/-- `OverflowPointer::SERIALIZED_SIZE` -/
def OverflowPointer.SERIALIZED_SIZE : Nat := 12

/-- `OverflowPointer::serialize_to_vec` (the Rust function wraps the buffer in
`Ok`; it cannot fail, so the model returns the bytes directly). -/
def OverflowPointer.serialize_to_vec (p : OverflowPointer) : List Nat :=
  leBytes 8 p.page_id ++ leBytes 4 p.total_size

structure SlotEntry where
  offset : Nat
  length : Nat
  row_id : Option Nat
  is_overflow : Bool
  overflow_pointer : Option OverflowPointer
deriving DecidableEq, Repr

def SlotEntry.new_regular (offset length : Nat) (row_id : Option Nat) : SlotEntry :=
  ⟨offset, length, row_id, false, none⟩

def SlotEntry.new_overflow (offset length : Nat) (row_id : Option Nat)
    (pointer : OverflowPointer) : SlotEntry :=
  ⟨offset, length, row_id, true, some pointer⟩

/-- `SlotEntry::is_deleted`: zero length and no row id. -/
def SlotEntry.is_deleted (s : SlotEntry) : Bool :=
  s.length == 0 && s.row_id.isNone

/-- The in-memory page (`Page`); `data = none` is metadata-only mode.  The
slot directory is the plain list of slots. -/
structure Page where
  page_id : Nat
  page_type : PageType
  parent_page_id : Option Nat
  next_leaf_page_id : Option Nat
  is_dirty : Bool
  slots : List SlotEntry
  free_space_offset : Nat
  cell_count : Nat
  data : Option Buf
  checksum : Nat
  overflow_pages : List Nat

/-- `PAGE_SIZE` -/
def PAGE_SIZE : Nat := 4096
/-- `PAGE_HEADER_SIZE` -/
def PAGE_HEADER_SIZE : Nat := 36
/-- `SLOT_DIRECTORY_ENTRY_SIZE` -/
def SLOT_DIRECTORY_ENTRY_SIZE : Nat := 4
/-- `u64::MAX`, the "none" sentinel for parent / next-leaf page ids. -/
def U64_MAX : Nat := 2 ^ 64 - 1

/-- CRC input bytes contributed by one slot directory entry in
`calculate_page_checksum`: offset, length, and the `is_overflow` flag byte. -/
def slotCrcBytes (s : SlotEntry) : List Nat :=
  leBytes 2 s.offset ++ leBytes 2 s.length ++ [if s.is_overflow then 1 else 0]

/-- `utils/hash.rs::calculate_page_checksum`: CRC-32 over the header fields
(in serialized little-endian order, without the checksum field and without
the reserved bytes), each slot's offset, length and `is_overflow` flag, and
`data[data_start_offset..]` when the data is loaded.  A sequence of
`hasher.update` calls is the CRC of the concatenated chunks
(`crc32Aux_append`). -/
def calculate_page_checksum (page_id : Nat) (page_type : PageType)
    (parent_page_id next_leaf_page_id : Option Nat) (cell_count free_space_offset : Nat)
    (slots : List SlotEntry) (data : Option Buf) (data_start_offset : Nat) : Nat :=
  crc32 (leBytes 8 page_id ++ [page_type.as_u8]
    ++ leBytes 8 (parent_page_id.getD U64_MAX)
    ++ leBytes 8 (next_leaf_page_id.getD U64_MAX)
    ++ leBytes 2 cell_count ++ leBytes 2 free_space_offset
    ++ slots.flatMap slotCrcBytes
    ++ (match data with
        | none => []
        | some b => readSlice b data_start_offset (PAGE_SIZE - data_start_offset)))

/-- `utils/hash.rs::verify_page_checksum` -/
def verify_page_checksum (page_id : Nat) (page_type : PageType)
    (parent_page_id next_leaf_page_id : Option Nat) (cell_count free_space_offset : Nat)
    (slots : List SlotEntry) (data : Option Buf) (data_start_offset : Nat)
    (expected_checksum : Nat) : Bool :=
  calculate_page_checksum page_id page_type parent_page_id next_leaf_page_id
    cell_count free_space_offset slots data data_start_offset == expected_checksum

/-- `Page::update_checksum` -/
def Page.update_checksum (p : Page) : Page :=
  { p with checksum := (calculate_page_checksum p.page_id p.page_type
      p.parent_page_id p.next_leaf_page_id p.cell_count p.free_space_offset
      p.slots p.data p.free_space_offset) }

/-- `Page::verify_checksum` -/
def Page.verify_checksum (p : Page) : Bool :=
  verify_page_checksum p.page_id p.page_type p.parent_page_id p.next_leaf_page_id
    p.cell_count p.free_space_offset p.slots p.data p.free_space_offset p.checksum

/-- `Page::new`: zeroed full frame, empty slot directory,
`free_space_offset = 4096`, checksum of the empty page. -/
def Page.new (page_id : Nat) (page_type : PageType) : Page :=
  Page.update_checksum
    { page_id := page_id
      page_type := page_type
      parent_page_id := none
      next_leaf_page_id := none
      is_dirty := false
      slots := []
      free_space_offset := PAGE_SIZE
      cell_count := 0
      data := some zeroBuf
      checksum := 0
      overflow_pages := [] }

/-- `Page::is_metadata_only` -/
def Page.is_metadata_only (p : Page) : Bool :=
  p.data.isNone

/-- `Page::needs_overflow` -/
def Page.needs_overflow (_p : Page) (data_size : Nat) : Bool :=
  data_size > PAGE_SIZE / 4

/-- `Page::available_space`: `PAGE_SIZE.saturating_sub` of header size, slot
directory size, and used data space; the used data space
`(PAGE_SIZE as u16 - free_space_offset) as usize` wraps on `u16` when
`free_space_offset > 4096`. -/
def Page.available_space (p : Page) : Nat :=
  PAGE_SIZE - (PAGE_HEADER_SIZE + p.slots.length * SLOT_DIRECTORY_ENTRY_SIZE
    + u16_sub PAGE_SIZE p.free_space_offset)

/-- `Page::can_fit` -/
def Page.can_fit (p : Page) (data_size : Nat) : Bool :=
  p.available_space ≥ data_size + SLOT_DIRECTORY_ENTRY_SIZE

/-- `Page::get_cell`: `none` in metadata-only mode, for a missing slot, for a
deleted slot (zero length and no row id), and when the cell range leaves the
4096-byte data buffer. -/
def Page.get_cell (p : Page) (slot_index : Nat) : Option (List Nat) :=
  match p.data with
  | none => none
  | some buf =>
    match p.slots.get? slot_index with
    | none => none
    | some slot =>
      if slot.length = 0 ∧ slot.row_id = none then none
      else if slot.offset + slot.length ≤ PAGE_SIZE then
        some (readSlice buf slot.offset slot.length)
      else none

/-- `Page::insert_cell`.  The pair returns the `Result` together with the
page, which is unchanged on every error path (all checks precede the first
mutation in the source).  `data.len() as u16` casts are kept as `% 65536`. -/
def Page.insert_cell (p : Page) (data : List Nat) (row_id : Option Nat) :
    Except DatabaseError Nat × Page :=
  match p.data with
  | none => (.error (.SerializationError "Insertion requires full page"), p)
  | some buf =>
    if ¬ p.can_fit data.length then (.error (.PageFull p.page_id), p)
    else
      let new_offset := u16_sub p.free_space_offset (data.length % 65536)
      let buf' := writeBytes buf new_offset data
      let slot_index := p.slots.length
      let slots' := p.slots ++ [SlotEntry.new_regular new_offset (data.length % 65536) row_id]
      (.ok slot_index, Page.update_checksum
        { p with slots := slots', free_space_offset := new_offset,
                 cell_count := slots'.length % 65536, data := some buf', is_dirty := true })

/-- `Page::create_overflow_pointer` (pushes the overflow page id). -/
def Page.create_overflow_pointer (p : Page) (data : List Nat) (overflow_page_id : Nat) :
    OverflowPointer × Page :=
  (⟨overflow_page_id, data.length % 2 ^ 32⟩,
    { p with overflow_pages := p.overflow_pages ++ [overflow_page_id] })

/-- `Page::insert_cell_with_overflow`.  Note the source pushes the overflow
page id (`create_overflow_pointer`) before the `can_fit` check, so the
`PageFull` error path returns a page whose `overflow_pages` list already
grew. -/
def Page.insert_cell_with_overflow (p : Page) (data : List Nat) (row_id : Option Nat)
    (overflow_page_id : Option Nat) : Except DatabaseError Nat × Page :=
  match p.data with
  | none => (.error (.SerializationError "Insertion requires full page"), p)
  | some buf =>
    if overflow_page_id.isSome || p.needs_overflow data.length then
      match overflow_page_id with
      | some overflow_id =>
        let ptrPage := p.create_overflow_pointer data overflow_id
        let overflow_ptr := ptrPage.1
        let p1 := ptrPage.2
        let overflow_data := overflow_ptr.serialize_to_vec
        if ¬ p1.can_fit overflow_data.length then (.error (.PageFull p1.page_id), p1)
        else
          let new_offset := u16_sub p1.free_space_offset (overflow_data.length % 65536)
          let buf' := writeBytes buf new_offset overflow_data
          let slot_index := p1.slots.length
          let slots' := p1.slots
            ++ [SlotEntry.new_overflow new_offset (overflow_data.length % 65536) row_id overflow_ptr]
          (.ok slot_index, Page.update_checksum
            { p1 with slots := slots', free_space_offset := new_offset,
                      cell_count := slots'.length % 65536, data := some buf', is_dirty := true })
      | none => (.error .OverflowPageRequired, p)
    else
      p.insert_cell data row_id

/-- `Page::delete_cell`: tombstone the slot; the data bytes are not touched
and no compaction happens. -/
def Page.delete_cell (p : Page) (slot_index : Nat) : Except DatabaseError Unit × Page :=
  match p.data with
  | none => (.error (.SerializationError "Deletion requires full page"), p)
  | some _ =>
    match p.slots.get? slot_index with
    | none => (.error (.InvalidSlotIndex slot_index p.slots.length), p)
    | some slot =>
      if slot.is_deleted then (.error (.InvalidSlotIndex slot_index p.slots.length), p)
      else
        let cleared : SlotEntry := { slot with length := 0, offset := 0, row_id := none }
        let p1 := { p with overflow_pages :=
          if slot.is_overflow then
            match slot.overflow_pointer with
            | some ptr => p.overflow_pages.filter (fun page_id => page_id ≠ ptr.page_id)
            | none => p.overflow_pages
          else p.overflow_pages }
        let final : SlotEntry := { cleared with is_overflow := false, overflow_pointer := none }
        (.ok (), Page.update_checksum
          { p1 with slots := p1.slots.set slot_index final, is_dirty := true })

/-- `Page::is_slot_deleted` (`true` for out-of-bounds indices). -/
def Page.is_slot_deleted (p : Page) (slot_index : Nat) : Bool :=
  match p.slots.get? slot_index with
  | none => true
  | some slot => slot.is_deleted

/-- `Page::active_cell_count` -/
def Page.active_cell_count (p : Page) : Nat :=
  (p.slots.filter (fun slot => ¬ slot.is_deleted)).length

/-- Zero out the byte range `[start, e)` of a buffer (`buf[start..e].fill(0)`). -/
def zeroRange (b : Buf) (start e : Nat) : Buf :=
  fun k => if start ≤ k ∧ k < e then 0 else b k

/-- The one use the source makes of `Page::get_fragmentation_ratio` is the
test `> 0.5` inside `update_cell`.  The ratio is computed in `f32` as
`wasted / used` with `wasted = used - active` and `used = 4096 - fso`; since
`used ≤ 4096 < 2 ^ 24` both operands are exact in `f32` and the rounded
quotient compares to `0.5` exactly as the rational does, the test is
equivalent to `2 * wasted > used` (the early returns yield `0.0`, never
`> 0.5`). -/
def Page.fragmentation_ratio_gt_half (p : Page) : Bool :=
  if p.slots.isEmpty then false
  else
    let active_data_size := (p.slots.filter (fun s => ¬ s.is_deleted)).foldr
      (fun s acc => s.length + acc) 0
    let used_space := PAGE_SIZE - p.free_space_offset
    if used_space = 0 ∨ active_data_size = 0 then false
    else 2 * (used_space - active_data_size) > used_space

/-- The collection loop at the top of `Page::compact`
(`for (slot_index, slot) in self.slot_directory.slots.iter().enumerate()`),
with the running slot index explicit: all non-deleted slots whose range fits
the 4096-byte buffer, with their index, cell bytes, and slot entry. -/
def collectActiveCells (i : Nat) (slots : List SlotEntry) (buf : Buf) :
    List (Nat × List Nat × SlotEntry) :=
  match slots with
  | [] => []
  | s :: rest =>
    if ¬ s.is_deleted ∧ s.offset + s.length ≤ PAGE_SIZE then
      (i, readSlice buf s.offset s.length, s) :: collectActiveCells (i + 1) rest buf
    else collectActiveCells (i + 1) rest buf

/-- One iteration of the rewrite loop of `Page::compact`: decrement the free
space offset (wrapping `u16`), copy the cell when it fits, update the slot's
offset in place. -/
def compactStep (acc : Nat × Buf × List SlotEntry) (item : Nat × List Nat × SlotEntry) :
    Nat × Buf × List SlotEntry :=
  let cell_size := item.2.1.length
  let new_fso := u16_sub acc.1 (cell_size % 65536)
  let buf' := if new_fso + cell_size ≤ PAGE_SIZE then writeBytes acc.2.1 new_fso item.2.1
    else acc.2.1
  let slots' := acc.2.2.set item.1 { item.2.2 with offset := new_fso }
  (new_fso, buf', slots')

/-- `Page::compact`: collect the surviving cells, zero the data area from the
current free space offset, rewrite the cells from the page end going through
the surviving cells in reverse slot order, keep tombstones in place. -/
def Page.compact (p : Page) : Except DatabaseError Unit × Page :=
  match p.data with
  | none => (.error (.SerializationError "Compaction requires full page"), p)
  | some buf =>
    let active_cells := collectActiveCells 0 p.slots buf
    let buf1 := if p.free_space_offset < PAGE_SIZE then fillZeroFrom buf p.free_space_offset
      else buf
    let res := active_cells.reverse.foldl compactStep (PAGE_SIZE, buf1, p.slots)
    (.ok (), Page.update_checksum
      { p with slots := res.2.2, free_space_offset := res.1, data := some res.2.1,
               is_dirty := true })

/-- `Page::update_cell`: equal length overwrites in place; shorter data
overwrites, zeroes the tail and may compact on high fragmentation; longer
data tombstones the old cell, compacts, and re-inserts at the freed region. -/
def Page.update_cell (p : Page) (slot_index : Nat) (new_data : List Nat)
    (row_id : Option Nat) : Except DatabaseError Unit × Page :=
  match p.data with
  | none => (.error (.SerializationError "Update requires full page"), p)
  | some buf =>
    match p.slots.get? slot_index with
    | none => (.error (.InvalidSlotIndex slot_index p.slots.length), p)
    | some slot =>
      if slot.is_deleted then (.error (.InvalidSlotIndex slot_index p.slots.length), p)
      else
        let old_length := slot.length
        let new_length := new_data.length
        if new_length = old_length then
          if slot.offset + new_length ≤ PAGE_SIZE then
            (.ok (), Page.update_checksum
              { p with data := some (writeBytes buf slot.offset new_data),
                       slots := p.slots.set slot_index { slot with row_id := row_id },
                       is_dirty := true })
          else (.error (.CorruptedPage p.page_id "Invalid slot offset/length"), p)
        else if new_length < old_length then
          if slot.offset + old_length ≤ PAGE_SIZE then
            let buf' := zeroRange (writeBytes buf slot.offset new_data)
              (slot.offset + new_length) (slot.offset + old_length)
            let p1 := Page.update_checksum
              { p with data := some buf',
                       slots := p.slots.set slot_index
                         { slot with length := new_length % 65536, row_id := row_id },
                       is_dirty := true }
            if p1.fragmentation_ratio_gt_half then
              match p1.compact with
              | (.ok _, p2) => (.ok (), p2)
              | (.error e, p2) => (.error e, p2)
            else (.ok (), p1)
          else (.error (.CorruptedPage p.page_id "Invalid slot offset/length"), p)
        else
          let current_free_space := p.available_space
          let space_gained_from_deletion := old_length
          if current_free_space + space_gained_from_deletion < new_length then
            (.error (.PageFull p.page_id), p)
          else
            let pDel := { p with slots := (p.slots.set slot_index
              { slot with length := 0, offset := 0 }) }
            match pDel.compact with
            | (.error e, p2) => (.error e, p2)
            | (.ok _, p2) =>
              let new_offset := u16_sub p2.free_space_offset (new_data.length % 65536)
              let data' := match p2.data with
                | some b => some (writeBytes b new_offset new_data)
                | none => none
              (.ok (), Page.update_checksum
                { p2 with data := data',
                          slots := p2.slots.set slot_index
                            (SlotEntry.new_regular new_offset (new_data.length % 65536) row_id),
                          free_space_offset := new_offset, is_dirty := true })

/-- `Page::read_header`: parse the 36-byte page header out of a page buffer
(little-endian fields; `u64::MAX` decodes the absent parent / next leaf). -/
def read_header (b : Buf) :
    Except DatabaseError (Nat × PageType × Option Nat × Option Nat × Nat × Nat × Nat) := do
  let page_id := leValue (readSlice b 0 8)
  let page_type ← PageType.from_u8 (b 8 % 256)
  let parent_raw := leValue (readSlice b 9 8)
  let parent := if parent_raw = U64_MAX then none else some parent_raw
  let next_raw := leValue (readSlice b 17 8)
  let next := if next_raw = U64_MAX then none else some next_raw
  let cell_count := leValue (readSlice b 25 2)
  let free_space_offset := leValue (readSlice b 27 2)
  let checksum := leValue (readSlice b 29 4)
  return (page_id, page_type, parent, next, cell_count, free_space_offset, checksum)

/-- `Page::read_slot_directory` over the slice `b[base .. base + bytesLen)`:
reads `count` entries of (offset, length), rejects a non-deleted slot whose
range leaves the page, flags a slot as overflow when its length is exactly
the serialized overflow pointer size; `row_id` and `overflow_pointer` are not
stored on disk and decode as `none`. -/
def read_slot_directory (b : Buf) (base bytesLen page_id : Nat) :
    Nat → Nat → Except DatabaseError (List SlotEntry)
  | 0, _ => .ok []
  | count + 1, off =>
    if off + SLOT_DIRECTORY_ENTRY_SIZE > bytesLen then
      .error (.CorruptedPage page_id "Slot directory extends beyond buffer")
    else
      seqNat (leValue (readSlice b (base + off) 2)) fun slot_offset =>
      seqNat (leValue (readSlice b (base + off + 2) 2)) fun length =>
      if length > 0 ∧ slot_offset + length > PAGE_SIZE then
        .error (.CorruptedPage page_id "Slot exceeds page boundary")
      else do
        let rest ← read_slot_directory b base bytesLen page_id count (off + 4)
        return (⟨slot_offset, length, none,
          length == OverflowPointer.SERIALIZED_SIZE, none⟩ : SlotEntry) :: rest

/-- `Page::from_bytes` on a full 4096-byte buffer (the `bytes.len() == 4096`
precondition of the source is carried by the `Buf` type).  Parses the header,
rejects `free_space_offset > 4096`, parses the slot directory against the
4060 bytes that follow the header, loads the full buffer as data and verifies
the checksum. -/
def Page.from_bytes (b : Buf) : Except DatabaseError Page := do
  let (page_id, page_type, parent, next, cell_count, free_space_offset, stored) ← read_header b
  if free_space_offset > PAGE_SIZE then
    throw (.CorruptedPage page_id "Invalid free_space_offset")
  let slots ← read_slot_directory b PAGE_HEADER_SIZE (PAGE_SIZE - PAGE_HEADER_SIZE)
    page_id cell_count 0
  let page : Page :=
    { page_id := page_id, page_type := page_type, parent_page_id := parent,
      next_leaf_page_id := next, is_dirty := false, slots := slots,
      free_space_offset := free_space_offset, cell_count := cell_count,
      data := some b, checksum := stored, overflow_pages := [] }
  if ¬ page.verify_checksum then
    throw (.CorruptedPage page_id "Checksum verification failed")
  return page

/-- `Page::from_header_bytes` on a metadata buffer of exactly
`36 + 4·cell_count` bytes read from the start of a page frame (the scanner
reads precisely that many bytes, so the length guards of the source always
pass); yields a metadata-only page (`data = none`). -/
def Page.from_header_bytes (b : Buf) : Except DatabaseError Page := do
  let (page_id, page_type, parent, next, cell_count, free_space_offset, checksum) ← read_header b
  let slots ← read_slot_directory b PAGE_HEADER_SIZE
    (cell_count * SLOT_DIRECTORY_ENTRY_SIZE) page_id cell_count 0
  return { page_id := page_id, page_type := page_type, parent_page_id := parent,
           next_leaf_page_id := next, is_dirty := false, slots := slots,
           free_space_offset := free_space_offset, cell_count := cell_count,
           data := none, checksum := checksum, overflow_pages := [] }

/-- `Page::calculate_metadata_size`: header plus slot directory, from the
`cell_count` field at byte offset 25. -/
def Page.calculate_metadata_size (b : Buf) : Nat :=
  PAGE_HEADER_SIZE + leValue (readSlice b 25 2) * SLOT_DIRECTORY_ENTRY_SIZE

/-- The 33 header bytes `Page::write_header` emits (the 3 reserved bytes
that complete the 36-byte header stay zero in the output buffer). -/
def Page.headerBytes (p : Page) : List Nat :=
  leBytes 8 p.page_id ++ [p.page_type.as_u8]
    ++ leBytes 8 (p.parent_page_id.getD U64_MAX)
    ++ leBytes 8 (p.next_leaf_page_id.getD U64_MAX)
    ++ leBytes 2 p.cell_count ++ leBytes 2 p.free_space_offset
    ++ leBytes 4 p.checksum

/-- `Page::to_bytes`: a zeroed 4096-byte buffer receiving the header, the
slot directory (consecutive 4-byte entries from offset 36, i.e. one
contiguous write of the concatenated entries), and the cell data region
`data[free_space_offset..4096)` copied at its own position. -/
def Page.to_bytes (p : Page) : Except DatabaseError Buf :=
  match p.data with
  | none => .error (.SerializationError "Serialization requires full page")
  | some buf =>
    let b1 := writeBytes zeroBuf 0 p.headerBytes
    let slotBytes := p.slots.flatMap (fun s => leBytes 2 s.offset ++ leBytes 2 s.length)
    let b2 := writeBytes b1 PAGE_HEADER_SIZE slotBytes
    let data_start := p.free_space_offset
    let b3 := if data_start < PAGE_SIZE then
        writeBytes b2 data_start (readSlice buf data_start (PAGE_SIZE - data_start))
      else b2
    .ok b3

/-- The checksum input bytes exactly as the specification words them (a
spec-side definition, kept for comparison against the source's
`calculate_page_checksum`): the 36-byte little-endian page header minus the
4-byte checksum field — which includes the 3 reserved zero bytes — then the
slot directory as offset and length of each slot, then the data bytes in
`[free_space_offset, 4096)`. -/
def specChecksumBytes (p : Page) (buf : Buf) : List Nat :=
  leBytes 8 p.page_id ++ [p.page_type.as_u8]
    ++ leBytes 8 (p.parent_page_id.getD U64_MAX)
    ++ leBytes 8 (p.next_leaf_page_id.getD U64_MAX)
    ++ leBytes 2 p.cell_count ++ leBytes 2 p.free_space_offset
    ++ [0, 0, 0]
    ++ p.slots.flatMap (fun s => leBytes 2 s.offset ++ leBytes 2 s.length)
    ++ readSlice buf p.free_space_offset (PAGE_SIZE - p.free_space_offset)

/-- In-memory pages reachable from `Page::new` through successful mutating
page operations (each constructor requires the operation's `Ok`). -/
inductive Reached : Page → Prop where
  | new (page_id : Nat) (page_type : PageType) :
      Reached (Page.new page_id page_type)
  | insert (p : Page) (data : List Nat) (rid : Option Nat) (r : Nat)
      (hp : Reached p) (h : (p.insert_cell data rid).1 = .ok r) :
      Reached (p.insert_cell data rid).2
  | insert_overflow (p : Page) (data : List Nat) (rid : Option Nat)
      (oid : Option Nat) (r : Nat) (hp : Reached p)
      (h : (p.insert_cell_with_overflow data rid oid).1 = .ok r) :
      Reached (p.insert_cell_with_overflow data rid oid).2
  | delete (p : Page) (i : Nat) (hp : Reached p)
      (h : (p.delete_cell i).1 = .ok ()) : Reached (p.delete_cell i).2
  | update (p : Page) (i : Nat) (data : List Nat) (rid : Option Nat)
      (hp : Reached p) (h : (p.update_cell i data rid).1 = .ok ()) :
      Reached (p.update_cell i data rid).2
  | compact (p : Page) (hp : Reached p) (h : p.compact.1 = .ok ()) :
      Reached p.compact.2

/-! ## Values (`types/value.rs`)

`f64` is represented by its IEEE-754 bit pattern (a `Nat < 2 ^ 64`), `i64`
by a mathematical `Int` (well-formedness bounds it to the `i64` range), and
a Rust `String` by its UTF-8 byte list. -/

inductive Value where
  | Null
  | Integer (i : Int)
  | Real (bits : Nat)
  | Text (bytes : List Nat)
  | Blob (bytes : List Nat)
  | Boolean (b : Bool)
  | Timestamp (t : Int)
deriving DecidableEq, Repr

/-- `i64::to_le_bytes` (two's complement). -/
def i64_to_le_bytes (i : Int) : List Nat :=
  leBytes 8 (i.emod (2 ^ 64)).toNat

/-- Reinterpret a `Nat < 2 ^ 64` as the `i64` with that bit pattern
(`i64::from_le_bytes`). -/
def i64_from_le (n : Nat) : Int :=
  if n < 2 ^ 63 then (n : Int) else (n : Int) - 2 ^ 64

theorem i64_roundtrip (i : Int) (h1 : -(2 ^ 63) ≤ i) (h2 : i < 2 ^ 63) :
    i64_from_le (leValue (i64_to_le_bytes i)) = i := by
  unfold i64_to_le_bytes i64_from_le
  have h3 : (0 : Int) ≤ i.emod (2 ^ 64) := Int.emod_nonneg i (by positivity)
  have h4 : i.emod (2 ^ 64) < 2 ^ 64 := Int.emod_lt_of_pos i (by positivity)
  have h5 : i.emod (2 ^ 64) = i ∨ i.emod (2 ^ 64) = i + 2 ^ 64 := by
    rcases le_or_lt 0 i with hi | hi
    · exact Or.inl (Int.emod_eq_of_lt hi (h2.trans (by norm_num)))
    · refine Or.inr ?_
      have hrw : (i + 2 ^ 64 * 1).emod (2 ^ 64) = i.emod (2 ^ 64) :=
        Int.add_mul_emod_self_left i (2 ^ 64) 1
      rw [mul_one] at hrw
      rw [← hrw]
      exact Int.emod_eq_of_lt (by simp only [show ((2 : Int)) ^ 64 =
        18446744073709551616 from by norm_num] at *; omega)
        (by simp only [show ((2 : Int)) ^ 64 = 18446744073709551616 from by norm_num] at *
            omega)
  rw [leValue_leBytes 8 (i.emod (2 ^ 64)).toNat (by
    have h6 : ((i.emod (2 ^ 64)).toNat : Int) = i.emod (2 ^ 64) := Int.toNat_of_nonneg h3
    simp only [show (256 : Nat) ^ 8 = 18446744073709551616 from by norm_num,
      show ((2 : Int)) ^ 64 = 18446744073709551616 from by norm_num] at *
    omega)]
  rcases h5 with h5 | h5 <;> rw [h5] <;>
    simp only [show (2 : Nat) ^ 63 = 9223372036854775808 from by norm_num,
      show ((2 : Int)) ^ 63 = 9223372036854775808 from by norm_num,
      show ((2 : Int)) ^ 64 = 18446744073709551616 from by norm_num] at * <;>
    omega

/-- UTF-8 validity of a byte sequence, as enforced by `String::from_utf8`
(the standard UTF-8 ranges: no overlong encodings, no surrogates, max
`U+10FFFF`). -/
def isValidUtf8 : List Nat → Bool
  | [] => true
  | b :: rest =>
    if b < 0x80 then isValidUtf8 rest
    else if b < 0xC2 then false
    else if b < 0xE0 then
      match rest with
      | b1 :: r => (0x80 ≤ b1 && b1 ≤ 0xBF) && isValidUtf8 r
      | [] => false
    else if b < 0xF0 then
      match rest with
      | b1 :: b2 :: r =>
        (if b = 0xE0 then 0xA0 ≤ b1 && b1 ≤ 0xBF
         else if b = 0xED then 0x80 ≤ b1 && b1 ≤ 0x9F
         else 0x80 ≤ b1 && b1 ≤ 0xBF)
          && (0x80 ≤ b2 && b2 ≤ 0xBF) && isValidUtf8 r
      | _ => false
    else if b < 0xF5 then
      match rest with
      | b1 :: b2 :: b3 :: r =>
        (if b = 0xF0 then 0x90 ≤ b1 && b1 ≤ 0xBF
         else if b = 0xF4 then 0x80 ≤ b1 && b1 ≤ 0x8F
         else 0x80 ≤ b1 && b1 ≤ 0xBF)
          && (0x80 ≤ b2 && b2 ≤ 0xBF) && (0x80 ≤ b3 && b3 ≤ 0xBF) && isValidUtf8 r
      | _ => false
    else false

/-- NaN test on an `f64` bit pattern: exponent all ones, nonzero fraction. -/
def f64_is_nan (bits : Nat) : Bool :=
  (bits / 2 ^ 52) % 2 ^ 11 == 0x7FF && bits % 2 ^ 52 != 0

/-- Order key of a non-NaN `f64` bit pattern: sign-magnitude read as an
integer.  For non-NaN IEEE-754 doubles the numeric order coincides with this
integer order, and `+0`/`-0` (keys `0` and `-0`) compare equal. -/
def f64_order_key (bits : Nat) : Int :=
  if bits / 2 ^ 63 % 2 = 1 then -((bits % 2 ^ 63 : Nat) : Int) else ((bits % 2 ^ 63 : Nat) : Int)

/-- `f64::partial_cmp` on bit patterns: `none` iff either side is NaN,
otherwise the numeric order. -/
def f64_partial_cmp (a b : Nat) : Option Ordering :=
  if f64_is_nan a || f64_is_nan b then none
  else some (compare (f64_order_key a) (f64_order_key b))

/-- Compare `n / d` with `2 ^ e` (for `n, d > 0`). -/
def pow2cmpGe (n d : Nat) (e : Int) : Bool :=
  if e ≥ 0 then n ≥ d * 2 ^ e.toNat else n * 2 ^ (-e).toNat ≥ d

/-- Round the nonnegative rational `n / d` (with `sign`) to the nearest
`f64`, ties to even, returning the bit pattern — the rounding performed both
by Rust's `as f64` integer casts and by its correctly-rounded `str::parse`.
Handles zero, subnormals, and overflow to infinity. -/
def ratToF64bits (neg : Bool) (n d : Nat) : Nat :=
  if n = 0 ∨ d = 0 then (if neg then 2 ^ 63 else 0)
  else
    let e0 : Int := (Nat.log2 n : Int) - (Nat.log2 d : Int)
    let e : Int := if pow2cmpGe n d e0 then e0 else e0 - 1
    let eClamped : Int := if e < -1022 then -1022 else e
    let s : Int := 52 - eClamped
    let num := if s ≥ 0 then n * 2 ^ s.toNat else n
    let den := if s ≥ 0 then d else d * 2 ^ (-s).toNat
    let q := num / den
    let r := num % den
    let m := q + (if 2 * r > den ∨ (2 * r = den ∧ q % 2 = 1) then 1 else 0)
    let e2 : Int := if m = 2 ^ 53 then eClamped + 1 else eClamped
    let m2 : Nat := if m = 2 ^ 53 then 2 ^ 52 else m
    if e2 > 1023 then (if neg then 0xFFF0000000000000 else 0x7FF0000000000000)
    else
      let mag := if m2 < 2 ^ 52 then m2 else (e2 + 1023).toNat * 2 ^ 52 + (m2 - 2 ^ 52)
      (if neg then 2 ^ 63 else 0) + mag

/-- Rust `i as f64` on an `i64` (round to nearest, ties to even). -/
def i64_as_f64 (i : Int) : Nat :=
  ratToF64bits (i < 0) i.natAbs 1

/-- ASCII lowercase of a byte. -/
def asciiLower (b : Nat) : Nat :=
  if 0x41 ≤ b ∧ b ≤ 0x5A then b + 32 else b

/-- Consume a run of ASCII digits: value, digit count, rest. -/
def parseDigits : List Nat → Nat × Nat × List Nat
  | [] => (0, 0, [])
  | b :: rest =>
    if 0x30 ≤ b ∧ b ≤ 0x39 then
      let r := parseDigits rest
      (r.1 + (b - 0x30) * 10 ^ r.2.1, r.2.1 + 1, r.2.2)
    else (0, 0, b :: rest)

/-- Rust `str::parse::<f64>()` on the UTF-8 bytes of the string: optional
sign, then `inf`/`infinity`/`nan` (ASCII case-insensitive) or a decimal
number `Digits '.'? Digits? Exp?` / `'.' Digits Exp?` with
`Exp ::= (e|E) Sign? Digits`; the whole input must be consumed.  The numeric
result is correctly rounded (`ratToF64bits`); `nan` yields the canonical
quiet NaN produced by `f64::NAN`. -/
def parse_f64 (s : List Nat) : Option Nat :=
  match s with
  | [] => none
  | _ =>
    let negRest : Bool × List Nat :=
      match s with
      | 0x2B :: r => (false, r)
      | 0x2D :: r => (true, r)
      | r => (false, r)
    let neg := negRest.1
    let rest := negRest.2
    let lower := rest.map asciiLower
    if lower = [0x69, 0x6E, 0x66] ∨
        lower = [0x69, 0x6E, 0x66, 0x69, 0x6E, 0x69, 0x74, 0x79] then
      some (if neg then 0xFFF0000000000000 else 0x7FF0000000000000)
    else if lower = [0x6E, 0x61, 0x6E] then
      some 0x7FF8000000000000
    else
      let ip := parseDigits rest
      let intVal := ip.1
      let intCount := ip.2.1
      let afterInt := ip.2.2
      let fp : Nat × Nat × List Nat :=
        match afterInt with
        | 0x2E :: r => parseDigits r
        | r => (0, 0, r)
      let hadDot : Bool := match afterInt with | 0x2E :: _ => true | _ => false
      let fracVal := fp.1
      let fracCount := fp.2.1
      let afterFrac := fp.2.2
      if intCount = 0 ∧ (¬ hadDot ∨ fracCount = 0) then none
      else if intCount = 0 ∧ hadDot ∧ fracCount = 0 then none
      else
        let mantissa := intVal * 10 ^ fracCount + fracVal
        let expPart : Option (Int × List Nat) :=
          match afterFrac with
          | 0x65 :: r | 0x45 :: r =>
            let er : Bool × List Nat :=
              match r with
              | 0x2B :: r2 => (false, r2)
              | 0x2D :: r2 => (true, r2)
              | r2 => (false, r2)
            let ed := parseDigits er.2
            if ed.2.1 = 0 then none
            else some ((if er.1 then -(ed.1 : Int) else (ed.1 : Int)), ed.2.2)
          | r => some (0, r)
        match expPart with
        | none => none
        | some (expVal, remaining) =>
          if remaining ≠ [] then none
          else
            let p : Int := expVal - (fracCount : Int)
            if p ≥ 0 then some (ratToF64bits neg (mantissa * 10 ^ p.toNat) 1)
            else some (ratToF64bits neg mantissa (10 ^ (-p).toNat))

/-- `Value::coerce_to_number`: numeric view as an `f64` bit pattern. -/
def Value.coerce_to_number : Value → Option Nat
  | .Integer i => some (i64_as_f64 i)
  | .Real r => some r
  | .Text s => parse_f64 s
  | .Boolean b => some (if b then 0x3FF0000000000000 else 0)
  | .Timestamp ts => some (i64_as_f64 ts)
  | .Null => none
  | .Blob _ => none

/-- Lexicographic comparison of byte lists: both Rust `str` and `Vec<u8>`
order (UTF-8 byte order equals code point order). -/
def lexCmp : List Nat → List Nat → Ordering
  | [], [] => .eq
  | [], _ :: _ => .lt
  | _ :: _, [] => .gt
  | a :: as', b :: bs' =>
    match compare a b with
    | .eq => lexCmp as' bs'
    | o => o

/-- `impl PartialOrd for Value::partial_cmp`: Null is least; same-type
comparisons are the component orders; Integer↔Real promote through `as f64`;
every other mixed pair coerces both sides to a number or is unordered. -/
def Value.partial_cmp : Value → Value → Option Ordering
  | .Null, .Null => some .eq
  | .Null, _ => some .lt
  | _, .Null => some .gt
  | .Integer a, .Integer b => some (compare a b)
  | .Integer a, .Real b => f64_partial_cmp (i64_as_f64 a) b
  | .Real a, .Integer b => f64_partial_cmp a (i64_as_f64 b)
  | .Real a, .Real b => f64_partial_cmp a b
  | .Text a, .Text b => some (lexCmp a b)
  | .Blob a, .Blob b => some (lexCmp a b)
  | .Boolean a, .Boolean b => some (compare a b)
  | .Timestamp a, .Timestamp b => some (compare a b)
  | a, b =>
    match a.coerce_to_number, b.coerce_to_number with
    | some x, some y => f64_partial_cmp x y
    | _, _ => none

/-- `Value::to_bytes` (`types/value.rs`): one tag byte then the payload;
Text/Blob lengths are `len as u32`. -/
def Value.to_bytes : Value → List Nat
  | .Null => [0]
  | .Integer i => 1 :: i64_to_le_bytes i
  | .Real r => 2 :: leBytes 8 r
  | .Text s => 3 :: (leBytes 4 (s.length % 2 ^ 32) ++ s)
  | .Blob b => 4 :: (leBytes 4 (b.length % 2 ^ 32) ++ b)
  | .Boolean b => [5, if b then 1 else 0]
  | .Timestamp t => 6 :: i64_to_le_bytes t

/-- `Value::from_bytes` (`types/value.rs`): the consumer must pass exactly
the serialized bytes (length-exact checks). -/
def Value.from_bytes (bytes : List Nat) : Except DatabaseError Value :=
  match bytes with
  | [] => .error (.SerializationError "Empty byte array")
  | t :: data =>
    match t with
    | 0 => .ok .Null
    | 1 =>
      if data.length ≠ 8 then .error (.SerializationError "Invalid integer data length")
      else .ok (.Integer (i64_from_le (leValue data)))
    | 2 =>
      if data.length ≠ 8 then .error (.SerializationError "Invalid real data length")
      else .ok (.Real (leValue data))
    | 3 =>
      if data.length < 4 then .error (.SerializationError "Invalid text data: missing length")
      else
        let text_len := leValue (data.take 4)
        if data.length ≠ 4 + text_len then
          .error (.SerializationError "Invalid text data: length mismatch")
        else
          let text_bytes := (data.drop 4).take text_len
          if isValidUtf8 text_bytes then .ok (.Text text_bytes)
          else .error (.SerializationError "Invalid UTF-8 in text data")
    | 4 =>
      if data.length < 4 then .error (.SerializationError "Invalid blob data: missing length")
      else
        let blob_len := leValue (data.take 4)
        if data.length ≠ 4 + blob_len then
          .error (.SerializationError "Invalid blob data: length mismatch")
        else .ok (.Blob ((data.drop 4).take blob_len))
    | 5 =>
      if data.length ≠ 1 then .error (.SerializationError "Invalid boolean data length")
      else .ok (.Boolean (data.getD 0 0 ≠ 0))
    | 6 =>
      if data.length ≠ 8 then .error (.SerializationError "Invalid timestamp data length")
      else .ok (.Timestamp (i64_from_le (leValue data)))
    | _ => .error (.SerializationError "Unknown type discriminant")

/-! ## Rows (`types/row.rs`) -/

structure Row where
  row_id : Option Nat
  values : List Value
deriving DecidableEq, Repr

def Row.new (values : List Value) : Row := ⟨none, values⟩

def Row.with_row_id (row_id : Nat) (values : List Value) : Row := ⟨some row_id, values⟩

/-- `Row::serialize_value_compact` (`types/row.rs`): same tagged format as
`Value::to_bytes`. -/
def Row.serialize_value_compact : Value → List Nat
  | .Null => [0]
  | .Integer i => 1 :: i64_to_le_bytes i
  | .Real r => 2 :: leBytes 8 r
  | .Text s => 3 :: (leBytes 4 (s.length % 2 ^ 32) ++ s)
  | .Blob b => 4 :: (leBytes 4 (b.length % 2 ^ 32) ++ b)
  | .Boolean b => [5, if b then 1 else 0]
  | .Timestamp t => 6 :: i64_to_le_bytes t

/-- `Row::to_bytes`: row-id presence flag (with optional 8-byte LE row id),
`u32` value count, then the values in order. -/
def Row.to_bytes (r : Row) : List Nat :=
  (match r.row_id with
   | some id => 1 :: leBytes 8 id
   | none => [0])
  ++ leBytes 4 (r.values.length % 2 ^ 32)
  ++ r.values.flatMap Row.serialize_value_compact

/-- `Row::deserialize_value_compact`: parse one value from the front of
`bytes`, returning it with the number of consumed bytes.  The source's
cursor-against-length guards are phrased on the tail `data` after the tag
byte. -/
def Row.deserialize_value_compact (bytes : List Nat) :
    Except DatabaseError (Value × Nat) :=
  match bytes with
  | [] => .error (.SerializationError "Empty value bytes")
  | t :: data =>
    match t with
    | 0 => .ok (.Null, 1)
    | 1 =>
      if data.length < 8 then .error (.SerializationError "Incomplete integer")
      else .ok (.Integer (i64_from_le (leValue (data.take 8))), 9)
    | 2 =>
      if data.length < 8 then .error (.SerializationError "Incomplete real")
      else .ok (.Real (leValue (data.take 8)), 9)
    | 3 =>
      if data.length < 4 then .error (.SerializationError "Incomplete text length")
      else
        let length := leValue (data.take 4)
        if 4 + length > data.length then
          .error (.SerializationError "Incomplete text data")
        else
          let text_bytes := (data.drop 4).take length
          if isValidUtf8 text_bytes then .ok (.Text text_bytes, 5 + length)
          else .error (.SerializationError "Invalid UTF-8 in text")
    | 4 =>
      if data.length < 4 then .error (.SerializationError "Incomplete blob length")
      else
        let length := leValue (data.take 4)
        if 4 + length > data.length then
          .error (.SerializationError "Incomplete blob data")
        else .ok (.Blob ((data.drop 4).take length), 5 + length)
    | 5 =>
      match data with
      | [] => .error (.SerializationError "Incomplete boolean")
      | x :: _ => .ok (.Boolean (x ≠ 0), 2)
    | 6 =>
      if data.length < 8 then .error (.SerializationError "Incomplete timestamp")
      else .ok (.Timestamp (i64_from_le (leValue (data.take 8))), 9)
    | _ => .error (.SerializationError "Unknown type discriminant")

/-- The value-parsing loop of `Row::from_bytes`: `count` iterations of
`deserialize_value_compact` on `bytes[cursor..]`, advancing the cursor by
the consumed size. -/
def Row.parseValues (bytes : List Nat) : Nat → Nat → Except DatabaseError (List Value)
  | 0, _ => .ok []
  | count + 1, cursor =>
    match Row.deserialize_value_compact (bytes.drop cursor) with
    | .error e => .error e
    | .ok vc =>
      match Row.parseValues bytes count (cursor + vc.2) with
      | .error e => .error e
      | .ok rest => .ok (vc.1 :: rest)

/-- Continuation of `Row::from_bytes` after the row id is parsed: the value
count guard, the count read, and the value-parsing loop. -/
def Row.from_bytes_after (bytes : List Nat) (row_id : Option Nat) (cursor : Nat) :
    Except DatabaseError Row :=
  if cursor + 4 > bytes.length then
    .error (.SerializationError "Incomplete value count")
  else
    match Row.parseValues bytes (leValue ((bytes.drop cursor).take 4)) (cursor + 4) with
    | .error e => .error e
    | .ok values => .ok ⟨row_id, values⟩

/-- `Row::from_bytes`: parse the row-id flag and optional row id, the value
count, then that many values. -/
def Row.from_bytes (bytes : List Nat) : Except DatabaseError Row :=
  match bytes with
  | [] => .error (.SerializationError "Empty bytes")
  | b0 :: rest =>
    if b0 = 1 then
      if 1 + 8 > (b0 :: rest).length then .error (.SerializationError "Incomplete row ID")
      else Row.from_bytes_after (b0 :: rest) (some (leValue (rest.take 8))) 9
    else Row.from_bytes_after (b0 :: rest) none 1

/-- Well-formedness of a `Value` as a Rust value: `i64` payloads in range,
`f64` bit patterns 64-bit, `String` payloads valid UTF-8 byte strings, all
bytes in `u8` range, lengths within `u32`. -/
def Value.wf : Value → Bool
  | .Null => true
  | .Integer i => decide (-(2 ^ 63) ≤ i) && decide (i < 2 ^ 63)
  | .Real bits => decide (bits < 2 ^ 64)
  | .Text s => s.all (fun b => decide (b < 256)) && isValidUtf8 s
      && decide (s.length < 2 ^ 32)
  | .Blob b => b.all (fun x => decide (x < 256)) && decide (b.length < 2 ^ 32)
  | .Boolean _ => true
  | .Timestamp t => decide (-(2 ^ 63) ≤ t) && decide (t < 2 ^ 63)

/-- Well-formedness of a `Row` as a Rust value. -/
def Row.wf (r : Row) : Bool :=
  (match r.row_id with
   | some id => decide (id < 2 ^ 64)
   | none => true)
  && decide (r.values.length < 2 ^ 32) && r.values.all Value.wf

/-! ## B+-tree (`storage/bplus_tree.rs`)

The database file is modelled as the list of its 4096-byte page frames
(`file.get? (page_id - 1)` renders the source's byte offset
`extras + (page_id - 1) * PAGE_SIZE`); the page cache is an association
list whose most recent insertion wins.  A panic (`row.values[0]` on an
empty value list, vector indexing) is `none`; the data-dependent descent
of `insert_recursive` takes fuel, and `none` also covers exhausted fuel. -/

structure Cell where
  data : List Nat
  overflow_page_id : Option Nat

structure SplitResult where
  left_page : Page
  right_page : Page
  separator_key : Value

structure TreeState where
  root_page_id : Nat
  file : List Buf
  page_cache : List (Nat × Page)
  next_page_id : Nat
  order : Nat

def cacheGet (cache : List (Nat × Page)) (page_id : Nat) : Option Page :=
  (cache.find? (fun e => e.1 == page_id)).map (fun e => e.2)

def cacheInsert (cache : List (Nat × Page)) (page_id : Nat) (p : Page) :
    List (Nat × Page) :=
  (page_id, p) :: cache

/-- Write a 4096-byte frame at a page slot; a seek past the current end of
the file extends it with zero bytes first. -/
def fileWrite (file : List Buf) (idx : Nat) (b : Buf) : List Buf :=
  if idx < file.length then file.set idx b
  else file ++ List.replicate (idx - file.length) zeroBuf ++ [b]

/-- `BPlusTree::load_page` (cache-first; reads and parses the frame on a
miss).  The `offset + PAGE_SIZE > file_size` bound is the index bound
against the frame count. -/
def TreeState.load_page (T : TreeState) (page_id : Nat) :
    Except DatabaseError (Page × TreeState) :=
  if page_id = 0 then
    .error (.CorruptedPage page_id "Invalid page ID: 0")
  else if T.file.length < page_id then
    .error (.CorruptedPage page_id "Page offset exceeds file size")
  else
    match cacheGet T.page_cache page_id with
    | some p => .ok (p, T)
    | none =>
      match T.file.get? (page_id - 1) with
      | none => .error (.CorruptedPage page_id "Page offset exceeds file size")
      | some frame =>
        match Page.from_bytes frame with
        | .error e => .error e
        | .ok p =>
          .ok (p, { T with page_cache := cacheInsert T.page_cache page_id p })

/-- `BPlusTree::write_page` (writes the frame; does not cache). -/
def TreeState.write_page (T : TreeState) (page_id : Nat) (p : Page) :
    Except DatabaseError TreeState :=
  if page_id = 0 then
    .error (.CorruptedPage page_id "Invalid page ID: 0")
  else
    match p.to_bytes with
    | .error e => .error e
    | .ok bytes => .ok { T with file := fileWrite T.file (page_id - 1) bytes }

/-- `BPlusTree::allocate_page`. -/
def TreeState.allocate_page (T : TreeState) (page_type : PageType) :
    Except DatabaseError (Nat × TreeState) :=
  let new_page_id := T.next_page_id
  let T1 := { T with next_page_id := T.next_page_id + 1 }
  match T1.write_page new_page_id (Page.new new_page_id page_type) with
  | .error e => .error e
  | .ok T2 => .ok (new_page_id, T2)

/-- `BPlusTree::write_pages_batch` (writes and caches each page in order). -/
def TreeState.write_pages_batch (T : TreeState) :
    List (Nat × Page) → Except DatabaseError TreeState
  | [] => .ok T
  | (page_id, p) :: rest =>
    match T.write_page page_id p with
    | .error e => .error e
    | .ok T1 =>
      TreeState.write_pages_batch
        { T1 with page_cache := cacheInsert T1.page_cache page_id p } rest

/-- `BPlusTree::create_interior_entry`:
`child_page_id (8 LE) ++ key_bytes.len() as u32 (4 LE) ++ key_bytes`. -/
def create_interior_entry (key : Value) (page_id : Nat) : List Nat :=
  leBytes 8 page_id ++ leBytes 4 (key.to_bytes.length % 2 ^ 32) ++ key.to_bytes

/-- `BPlusTree::extract_key_from_cell` — `row.values[0]` panics (`none`)
on a row without values. -/
def extract_key_from_cell (cell_data : List Nat) :
    Option (Except DatabaseError Value) :=
  match Row.from_bytes cell_data with
  | .error e => some (.error e)
  | .ok row =>
    match row.values.head? with
    | none => none
    | some v => some (.ok v)

/-- `BPlusTree::parse_interior_entry`. -/
def parse_interior_entry (entry_data : List Nat) :
    Except DatabaseError (Nat × Value) :=
  if entry_data.length < 12 then
    .error (.CorruptedPage 0 "Interior entry too short")
  else
    let page_id := leValue (entry_data.take 8)
    let key_length := leValue ((entry_data.drop 8).take 4)
    if entry_data.length < 12 + key_length then
      .error (.CorruptedPage 0 "Interior entry key data incomplete")
    else
      match Value.from_bytes ((entry_data.drop 12).take key_length) with
      | .error e => .error e
      | .ok key => .ok (page_id, key)

/-- `BPlusTree::extract_key_from_interior_entry`. -/
def extract_key_from_interior_entry (entry_data : List Nat) :
    Except DatabaseError Value :=
  if entry_data.length < 12 then
    .error (.CorruptedPage 0 "Interior entry too short")
  else
    let key_length := leValue ((entry_data.drop 8).take 4)
    if entry_data.length < 12 + key_length then
      .error (.CorruptedPage 0 "Interior entry key data incomplete")
    else Value.from_bytes ((entry_data.drop 12).take key_length)

/-- Rust `a <= b` through `PartialOrd` on `Value`. -/
def valueLe (a b : Value) : Bool :=
  match Value.partial_cmp a b with
  | some .lt => true
  | some .eq => true
  | _ => false

/-- The comparator of the `sort_by` calls:
`a.0.partial_cmp(&b.0).unwrap_or(Equal)` is not `Greater`.  Rust's stable
`sort_by` with this predicate is `List.mergeSort keyedLe`. -/
def keyedLe (a b : Value × List Nat) : Bool :=
  match Value.partial_cmp a.1 b.1 with
  | some .gt => false
  | _ => true

/-- The cell-collection loop of `split_leaf_page`: walk the slot indices,
skip missing and empty cells and rows that fail to parse; `none` when a
parsed row has no values (`extract_key_from_cell` panics). -/
def collectKeyedGo (p : Page) : Nat → Nat → Option (List (Value × List Nat))
  | _, 0 => some []
  | i, fuel + 1 =>
    match p.get_cell i with
    | none => collectKeyedGo p (i + 1) fuel
    | some cell_data =>
      if cell_data.isEmpty then collectKeyedGo p (i + 1) fuel
      else
        match extract_key_from_cell cell_data with
        | none => none
        | some (.error _) => collectKeyedGo p (i + 1) fuel
        | some (.ok key) =>
          match collectKeyedGo p (i + 1) fuel with
          | none => none
          | some rest => some ((key, cell_data) :: rest)

def collectKeyedCells (p : Page) : Option (List (Value × List Nat)) :=
  collectKeyedGo p 0 p.slots.length

/-- The entry-collection loop of `split_interior_page` (errors propagate,
no empty-cell skipping). -/
def collectInteriorGo (p : Page) :
    Nat → Nat → Except DatabaseError (List (Value × List Nat))
  | _, 0 => .ok []
  | i, fuel + 1 =>
    match p.get_cell i with
    | none => collectInteriorGo p (i + 1) fuel
    | some entry_data =>
      match extract_key_from_interior_entry entry_data with
      | .error e => .error e
      | .ok key =>
        match collectInteriorGo p (i + 1) fuel with
        | .error e => .error e
        | .ok rest => .ok ((key, entry_data) :: rest)

/-- The rebuild loops of the split functions: insert the cells in order,
stopping at the first failure. -/
def insertCells : Page → List (List Nat) → Except DatabaseError Unit × Page
  | p, [] => (.ok (), p)
  | p, d :: rest =>
    match p.insert_cell d none with
    | (.ok _, p1) => insertCells p1 rest
    | (.error e, p1) => (.error e, p1)

/-- `BPlusTree::split_leaf_page`.  The formatted failure details of the
re-insertion errors are abbreviated to fixed reasons. -/
def split_leaf_page (T : TreeState) (full_page : Page) (key : Value)
    (cell : Cell) : Option (Except DatabaseError (SplitResult × TreeState)) :=
  match T.allocate_page .LeafTable with
  | .error e => some (.error e)
  | .ok (new_page_id, T1) =>
    let right_page := Page.new new_page_id .LeafTable
    match collectKeyedCells full_page with
    | none => none
    | some collected =>
      let all_cells := collected ++ [(key, cell.data)]
      let sorted := all_cells.mergeSort keyedLe
      if sorted.isEmpty then
        some (.error (.CorruptedDatabase "No cells to split"))
      else
        let split_point := sorted.length / 2
        let cleared := { full_page with slots := [], free_space_offset := PAGE_SIZE, cell_count := 0 }
        match insertCells cleared ((sorted.take split_point).map (fun c => c.2)) with
        | (.error _, _) =>
          some (.error (.CorruptedDatabase "Failed to insert cell into left page"))
        | (.ok _, left1) =>
          match insertCells right_page
              ((sorted.drop split_point).map (fun c => c.2)) with
          | (.error _, _) =>
            some (.error (.CorruptedDatabase "Failed to insert cell into right page"))
          | (.ok _, right1) =>
            let right2 := { right1 with
              next_leaf_page_id := full_page.next_leaf_page_id }
            let left2 := { left1 with next_leaf_page_id := some new_page_id }
            match sorted.get? split_point with
            | none => none
            | some sep => some (.ok (⟨left2, right2, sep.1⟩, T1))

/-- `BPlusTree::split_interior_page` (the separator entry at the split
point is promoted: it goes to neither half). -/
def split_interior_page (T : TreeState) (full_page : Page)
    (new_entry_data : List Nat) :
    Option (Except DatabaseError (SplitResult × TreeState)) :=
  match T.allocate_page .InteriorTable with
  | .error e => some (.error e)
  | .ok (new_page_id, T1) =>
    let right_page := Page.new new_page_id .InteriorTable
    match collectInteriorGo full_page 0 full_page.slots.length with
    | .error e => some (.error e)
    | .ok collected =>
      match extract_key_from_interior_entry new_entry_data with
      | .error e => some (.error e)
      | .ok new_key =>
        let all_entries := collected ++ [(new_key, new_entry_data)]
        let sorted := all_entries.mergeSort keyedLe
        let split_point := sorted.length / 2
        match sorted.get? split_point with
        | none => none
        | some sep =>
          let cleared := { full_page with slots := [], free_space_offset := PAGE_SIZE, cell_count := 0 }
          match insertCells cleared
              ((sorted.take split_point).map (fun c => c.2)) with
          | (.error e, _) => some (.error e)
          | (.ok _, left1) =>
            match insertCells right_page
                ((sorted.drop (split_point + 1)).map (fun c => c.2)) with
            | (.error e, _) => some (.error e)
            | (.ok _, right1) => some (.ok (⟨left1, right1, sep.1⟩, T1))

/-- `BPlusTree::allocate_overflow_page`. -/
def allocate_overflow_page (T : TreeState) (data : List Nat) :
    Except DatabaseError (Nat × TreeState) :=
  match T.allocate_page .OverflowPage with
  | .error e => .error e
  | .ok (overflow_page_id, T1) =>
    let overflow_page := Page.new overflow_page_id .OverflowPage
    if data.length ≤ overflow_page.available_space then
      match overflow_page.insert_cell data none with
      | (.error e, _) => .error e
      | (.ok _, p1) =>
        match T1.write_page overflow_page_id p1 with
        | .error e => .error e
        | .ok T2 => .ok (overflow_page_id, T2)
    else .error (.CorruptedDatabase "Data too large for overflow page")

/-- The child-search loop of `BPlusTree::find_child_page` (`fuel` counts
the remaining slots; the exhausted loop is the `None.ok_or` error). -/
def findChildGo (p : Page) (key : Value) : Nat → Nat → Except DatabaseError Nat
  | _, 0 => .error (.CorruptedPage p.page_id "No valid child page found")
  | i, fuel + 1 =>
    match p.get_cell i with
    | none => findChildGo p key (i + 1) fuel
    | some entry_data =>
      match parse_interior_entry entry_data with
      | .error e => .error e
      | .ok pk =>
        if i < p.slots.length - 1 then
          if valueLe key pk.2 then .ok pk.1
          else findChildGo p key (i + 1) fuel
        else .ok pk.1

def find_child_page (p : Page) (key : Value) : Except DatabaseError Nat :=
  findChildGo p key 0 p.slots.length

/-- `BPlusTree::insert_with_reduced_writes`. -/
def insert_with_reduced_writes (T : TreeState) (page_id : Nat) (page : Page)
    (cell_data : List Nat) : Except DatabaseError TreeState :=
  match page.insert_cell cell_data none with
  | (.error e, _) => .error e
  | (.ok _, p1) =>
    match T.write_page page_id p1 with
    | .error e => .error e
    | .ok T1 => .ok { T1 with page_cache := cacheInsert T1.page_cache page_id p1 }

/-- `BPlusTree::insert_recursive`. -/
def insert_recursive (T : TreeState) (page_id : Nat) (key : Value)
    (cell : Cell) :
    Nat → Option (Except DatabaseError (Option SplitResult × TreeState))
  | 0 => none
  | fuel + 1 =>
    match T.load_page page_id with
    | .error e => some (.error e)
    | .ok (page, T0) =>
      match page.page_type with
      | .LeafTable =>
        if page.can_fit cell.data.length then
          match cell.overflow_page_id with
          | some overflow_page_id =>
            match page.insert_cell_with_overflow cell.data none
                (some overflow_page_id) with
            | (.error e, _) => some (.error e)
            | (.ok _, p1) =>
              match T0.write_page page_id p1 with
              | .error e => some (.error e)
              | .ok T1 =>
                some (.ok (none, { T1 with
                  page_cache := cacheInsert T1.page_cache page_id p1 }))
          | none =>
            if page.needs_overflow cell.data.length then
              match allocate_overflow_page T0 cell.data with
              | .error e => some (.error e)
              | .ok (overflow_id, T1) =>
                match page.insert_cell_with_overflow cell.data none
                    (some overflow_id) with
                | (.error e, _) => some (.error e)
                | (.ok _, p1) =>
                  match T1.write_page page_id p1 with
                  | .error e => some (.error e)
                  | .ok T2 =>
                    some (.ok (none, { T2 with
                      page_cache := cacheInsert T2.page_cache page_id p1 }))
            else
              match insert_with_reduced_writes T0 page_id page cell.data with
              | .error e => some (.error e)
              | .ok T1 => some (.ok (none, T1))
        else
          match split_leaf_page T0 page key cell with
          | none => none
          | some (.error e) => some (.error e)
          | some (.ok (split, T1)) => some (.ok (some split, T1))
      | .InteriorTable =>
        match find_child_page page key with
        | .error e => some (.error e)
        | .ok child_page_id =>
          match insert_recursive T0 child_page_id key cell fuel with
          | none => none
          | some (.error e) => some (.error e)
          | some (.ok (none, T1)) => some (.ok (none, T1))
          | some (.ok (some split, T1)) =>
            let new_entry_data := create_interior_entry split.separator_key
              split.right_page.page_id
            if ¬ page.can_fit new_entry_data.length then
              match split_interior_page T1 page new_entry_data with
              | none => none
              | some (.error e) => some (.error e)
              | some (.ok (isplit, T2)) => some (.ok (some isplit, T2))
            else
              match page.insert_cell new_entry_data none with
              | (.error e, _) => some (.error e)
              | (.ok _, updated) =>
                match T1.write_pages_batch [(page_id, updated),
                    (split.left_page.page_id, split.left_page),
                    (split.right_page.page_id, split.right_page)] with
                | .error e => some (.error e)
                | .ok T2 => some (.ok (none, T2))
      | _ =>
        some (.error (.CorruptedDatabase "Invalid page type for B+ tree operation"))

/-- `BPlusTree::insert`: evaluates `row.values[0]` before anything else,
panicking (`none`) on an empty value list; the subsequent empty-bytes guard
cannot fire because `Row::to_bytes` always emits the row-id flag byte. -/
def treeInsert (T : TreeState) (row : Row) (fuel : Nat) :
    Option (Except DatabaseError (Option Nat × TreeState)) :=
  match row.values.head? with
  | none => none
  | some key =>
    let row_bytes := row.to_bytes
    if row_bytes.isEmpty then
      some (.error (.CorruptedDatabase "Empty row data"))
    else
      match insert_recursive T T.root_page_id key ⟨row_bytes, none⟩ fuel with
      | none => none
      | some (.error e) => some (.error e)
      | some (.ok (none, T1)) => some (.ok (none, T1))
      | some (.ok (some split, T1)) =>
        match T1.allocate_page .InteriorTable with
        | .error e => some (.error e)
        | .ok (new_root_id, T2) =>
          let new_root := Page.new new_root_id .InteriorTable
          let left_entry_data := create_interior_entry split.separator_key
            split.left_page.page_id
          let right_entry_data := create_interior_entry .Null
            split.right_page.page_id
          match new_root.insert_cell left_entry_data none with
          | (.error e, _) => some (.error e)
          | (.ok _, r1) =>
            match r1.insert_cell right_entry_data none with
            | (.error e, _) => some (.error e)
            | (.ok _, r2) =>
              match T2.write_pages_batch [(new_root_id, r2),
                  (split.left_page.page_id, split.left_page),
                  (split.right_page.page_id, split.right_page)] with
              | .error e => some (.error e)
              | .ok T3 =>
                some (.ok (some new_root_id, { T3 with
                  page_cache := cacheInsert (cacheInsert (cacheInsert
                    T3.page_cache new_root_id r2) split.left_page.page_id
                    split.left_page) split.right_page.page_id split.right_page,
                  root_page_id := new_root_id }))

/-! ## Sequential scanner (`executor/sequential_scan.rs`)

The scanner reads page metadata straight from the database file, never from
the page cache.  `file.get? (page_id - 1)` renders the byte offset
`extras + (page_id - 1) * PAGE_SIZE`; a missing frame is the `read_exact`
EOF error.  `calculate_metadata_size` sizes the prefix that the source
re-reads; the model's `from_header_bytes` consumes exactly those bytes from
the frame.  The unbounded loops (`find_first_leaf`, the slot-skipping scan
loop, and the repeated `scan` calls of a full table read) take fuel, `none`
standing for non-termination. -/

structure ScanState where
  root_page_id : Nat
  current_page_id : Option Nat
  current_slot_index : Nat
  read_ahead_pages : List Page
  is_exhausted : Bool

/-- `SequentialScanner::new` (after the root lookup). -/
def ScanState.new (root_page_id : Nat) : ScanState :=
  { root_page_id := root_page_id, current_page_id := none,
    current_slot_index := 0, read_ahead_pages := [], is_exhausted := false }

/-- `SequentialScanner::load_page_metadata`. -/
def load_page_metadata (file : List Buf) (page_id : Nat) :
    Except DatabaseError Page :=
  match file.get? (page_id - 1) with
  | none => .error (.Io "failed to fill whole buffer")
  | some buf => Page.from_header_bytes buf

/-- `SequentialScanner::read_child_page_id_from_slot`. -/
def read_child_page_id_from_slot (file : List Buf) (page_id : Nat)
    (slot : SlotEntry) : Except DatabaseError Nat :=
  match file.get? (page_id - 1) with
  | none => .error (.Io "failed to fill whole buffer")
  | some buf => .ok (leValue (readSlice buf slot.offset 8))

/-- `SequentialScanner::find_first_leaf` (fuel bounds the descent loop). -/
def find_first_leaf (file : List Buf) : Nat → Nat →
    Option (Except DatabaseError Nat)
  | _, 0 => none
  | current_page_id, fuel + 1 =>
    match load_page_metadata file current_page_id with
    | .error e => some (.error e)
    | .ok page =>
      match page.page_type with
      | .LeafTable => some (.ok current_page_id)
      | .InteriorTable =>
        match page.slots.head? with
        | some first_slot =>
          match read_child_page_id_from_slot file current_page_id first_slot with
          | .error e => some (.error e)
          | .ok child_page_id => find_first_leaf file child_page_id fuel
        | none => some (.error (.CorruptedPage current_page_id
            "Interior page has no children"))
      | _ => some (.error (.CorruptedPage current_page_id
          "Invalid page type in B+ tree"))

/-- `SequentialScanner::read_row_from_slot`. -/
def read_row_from_slot (file : List Buf) (page_id : Nat) (slot : SlotEntry) :
    Except DatabaseError Row :=
  if slot.is_deleted then
    .error (.CorruptedPage page_id "Attempting to read deleted slot")
  else
    match file.get? (page_id - 1) with
    | none => .error (.Io "failed to fill whole buffer")
    | some buf => Row.from_bytes (readSlice buf slot.offset slot.length)

/-- `SequentialScanner::prefetch_next_page`; the caller ignores its result,
so a failing load just leaves the read-ahead queue unchanged. -/
def prefetch_next_page (file : List Buf) (s : ScanState) (page : Page) :
    ScanState :=
  match page.next_leaf_page_id with
  | some next_page_id =>
    if s.read_ahead_pages.length < 2 then
      match load_page_metadata file next_page_id with
      | .ok next_page =>
        { s with read_ahead_pages := s.read_ahead_pages ++ [next_page] }
      | .error _ => s
    else s
  | none => s

/-- The fall-through tail of `SequentialScanner::get_next_page`: load the
next page directly. -/
def get_next_page_direct (file : List Buf) (s : ScanState) :
    Except DatabaseError (Option (Nat × Page)) × ScanState :=
  match s.current_page_id with
  | some current_id =>
    match load_page_metadata file current_id with
    | .error e => (.error e, s)
    | .ok current_page =>
      match current_page.next_leaf_page_id with
      | some next_id =>
        match load_page_metadata file next_id with
        | .error e => (.error e, s)
        | .ok next_page => (.ok (some (next_id, next_page)), s)
      | none => (.ok none, s)
  | none => (.ok none, s)

/-- `SequentialScanner::get_next_page`: a prefetched page is popped and
paired with the current page's next id; when that path falls through, the
next page is loaded directly. -/
def get_next_page (file : List Buf) (s : ScanState) :
    Except DatabaseError (Option (Nat × Page)) × ScanState :=
  match s.read_ahead_pages with
  | page :: rest =>
    let s1 := { s with read_ahead_pages := rest }
    match s1.current_page_id with
    | some page_id =>
      match load_page_metadata file page_id with
      | .error e => (.error e, s1)
      | .ok current_page =>
        match current_page.next_leaf_page_id with
        | some next_id => (.ok (some (next_id, page)), s1)
        | none => get_next_page_direct file s1
    | none => get_next_page_direct file s1
  | [] => get_next_page_direct file s

/-- The slot loop of `SequentialScanner::scan` (fuel bounds the loop; the
out-of-bounds indexing after the length check cannot fire and is the panic
marker `none`). -/
def scanLoop (file : List Buf) : ScanState → Nat →
    Option (Except DatabaseError (Option Row × ScanState))
  | _, 0 => none
  | s, fuel + 1 =>
    match s.current_page_id with
    | none => some (.ok (none, { s with is_exhausted := true }))
    | some page_id =>
      match load_page_metadata file page_id with
      | .error e => some (.error e)
      | .ok page =>
        if s.current_slot_index < page.slots.length then
          match page.slots.get? s.current_slot_index with
          | none => none
          | some slot =>
            if slot.is_deleted then
              scanLoop file
                { s with current_slot_index := s.current_slot_index + 1 } fuel
            else
              match read_row_from_slot file page_id slot with
              | .error e => some (.error e)
              | .ok row =>
                let s1 := { s with current_slot_index := s.current_slot_index + 1 }
                let s2 := if page.slots.length - 2 ≤ s1.current_slot_index
                  then prefetch_next_page file s1 page else s1
                some (.ok (some row, s2))
        else
          match get_next_page file s with
          | (.error e, _) => some (.error e)
          | (.ok none, s1) =>
            some (.ok (none, { s1 with is_exhausted := true }))
          | (.ok (some (next_page_id, _)), s1) =>
            scanLoop file { s1 with current_page_id := some next_page_id, current_slot_index := 0 } fuel

/-- `Scanner::scan` for the sequential scanner. -/
def scannerScan (file : List Buf) (s : ScanState) (fuel : Nat) :
    Option (Except DatabaseError (Option Row × ScanState)) :=
  if s.is_exhausted then some (.ok (none, s))
  else
    match s.current_page_id with
    | none =>
      match find_first_leaf file s.root_page_id fuel with
      | none => none
      | some (.error e) => some (.error e)
      | some (.ok first_leaf_id) =>
        scanLoop file { s with current_page_id := some first_leaf_id, current_slot_index := 0 } fuel
    | some _ => scanLoop file s fuel

/-- Repeatedly call `scan` until it returns `None`, collecting the rows
(a full table read). -/
def scanRows (file : List Buf) : ScanState → Nat →
    Option (Except DatabaseError (List Row))
  | _, 0 => none
  | s, fuel + 1 =>
    match scannerScan file s (fuel + 1) with
    | none => none
    | some (.error e) => some (.error e)
    | some (.ok (none, _)) => some (.ok [])
    | some (.ok (some row, s1)) =>
      match scanRows file s1 fuel with
      | none => none
      | some (.error e) => some (.error e)
      | some (.ok rest) => some (.ok (row :: rest))

/-- A fresh single-leaf tree, and two rows whose keys are inserted in
descending order, for exercising the scanner against the insert path. -/
def C8frame0 : Buf :=
  match (Page.new 1 .LeafTable).to_bytes with
  | .ok b => b
  | .error _ => zeroBuf

def C8tree0 : TreeState :=
  { root_page_id := 1, file := [C8frame0], page_cache := [],
    next_page_id := 2, order := 4 }

def C8rowB : Row := ⟨none, [Value.Integer 2]⟩

def C8rowA : Row := ⟨none, [Value.Integer 1]⟩

def C8tree1 : TreeState :=
  match treeInsert C8tree0 C8rowB 1 with
  | some (.ok (_, T)) => T
  | _ => C8tree0

def C8tree2 : TreeState :=
  match treeInsert C8tree1 C8rowA 1 with
  | some (.ok (_, T)) => T
  | _ => C8tree1

/-- A handcrafted two-row leaf frame read back by the scanner. -/
def C8rowX : Row := ⟨none, [Value.Integer 9]⟩

def C8rowY : Row := ⟨none, [Value.Integer 4]⟩

def C8pageW : Page :=
  { page_id := 1, page_type := .LeafTable, parent_page_id := none,
    next_leaf_page_id := none, is_dirty := false,
    slots := [SlotEntry.new_regular 4060 14 none,
      SlotEntry.new_regular 4080 14 none],
    free_space_offset := 4060, cell_count := 2,
    data := some (writeBytes (writeBytes zeroBuf 4060 C8rowX.to_bytes)
      4080 C8rowY.to_bytes),
    checksum := 0, overflow_pages := [] }

def C8frameW : Buf :=
  match C8pageW.to_bytes with
  | .ok b => b
  | .error _ => zeroBuf

/-- The metadata-only parse of the handcrafted frame. -/
def C8pageMetaW : Page :=
  match load_page_metadata [C8frameW] 1 with
  | .ok p => p
  | .error _ => Page.new 1 .LeafTable

/-! ## Storage manager (`storage/storage_manager.rs`)

The database file's page frames follow the 100-byte bambang header;
`file.get? (page_id - 1)` renders the offset
`BAMBANG_HEADER_SIZE + (page_id - 1) * PAGE_SIZE`.  `table_roots` is the
in-memory `HashMap<String, PageId>` as an association list whose most
recent insertion wins; strings are byte lists. -/

structure StorageManager where
  file : List Buf
  page_count : Nat
  file_size : Nat
  database_size_pages : Nat
  table_roots : List (List Nat × Nat)

def mapGet (m : List (List Nat × Nat)) (k : List Nat) : Option Nat :=
  (m.find? (fun e => e.1 == k)).map (fun e => e.2)

def mapInsert (m : List (List Nat × Nat)) (k : List Nat) (v : Nat) :
    List (List Nat × Nat) :=
  (k, v) :: m

/-- `StorageManager::write_page` (no zero-id check here, unlike the
tree's). -/
def StorageManager.write_page (sm : StorageManager) (page_id : Nat)
    (p : Page) : Except DatabaseError StorageManager :=
  match p.to_bytes with
  | .error e => .error e
  | .ok bytes => .ok { sm with file := fileWrite sm.file (page_id - 1) bytes }

/-- `StorageManager::allocate_new_page`, including the header-field update
of `update_header_in_file`. -/
def StorageManager.allocate_new_page (sm : StorageManager)
    (page_type : PageType) : Except DatabaseError (Nat × StorageManager) :=
  let new_page_id := sm.page_count + 1
  match sm.write_page new_page_id (Page.new new_page_id page_type) with
  | .error e => .error e
  | .ok sm1 =>
    .ok (new_page_id, { sm1 with page_count := new_page_id, file_size := sm1.file_size + PAGE_SIZE, database_size_pages := new_page_id })

/-- `BPlusTree::new_with_extras`: fresh cache, next page id one past the
frame count, order 4. -/
def BPlusTree.new_with_extras (file : List Buf) (root_page_id : Nat) :
    TreeState :=
  { root_page_id := root_page_id, file := file, page_cache := [], next_page_id := file.length + 1, order := 4 }

/-- The bytes of `"table"`. -/
def tableTagBytes : List Nat := [116, 97, 98, 108, 101]

/-- The bytes of `"sqlite_schema"`. -/
def sqliteSchemaBytes : List Nat :=
  [115, 113, 108, 105, 116, 101, 95, 115, 99, 104, 101, 109, 97]

/-- `StorageManager::create_table`: allocate a fresh leaf, insert the
catalog row into the page-1 B+-tree through a fresh tree handle, record the
binding.  The source has no duplicate-name check. -/
def create_table (sm : StorageManager) (table_name sql : List Nat)
    (fuel : Nat) : Option (Except DatabaseError (Nat × StorageManager)) :=
  match sm.allocate_new_page .LeafTable with
  | .error e => some (.error e)
  | .ok (new_root_page_id, sm1) =>
    let schema_row : Row := ⟨none, [.Text tableTagBytes, .Text table_name,
      .Text table_name, .Integer (new_root_page_id : Int), .Text sql]⟩
    match treeInsert (BPlusTree.new_with_extras sm1.file 1) schema_row fuel with
    | none => none
    | some (.error e) => some (.error e)
    | some (.ok (opt_root, T1)) =>
      let sm2 := { sm1 with file := T1.file }
      let sm3 := match opt_root with
        | some new_root => { sm2 with table_roots := mapInsert sm2.table_roots sqliteSchemaBytes new_root }
        | none => sm2
      some (.ok (new_root_page_id, { sm3 with table_roots := mapInsert sm3.table_roots table_name new_root_page_id }))

/-- `TableInserter::insert` followed by `root_page_id()`: the tree insert
over a fresh handle on the shared file, returning the inserter's final
root field (updated on a reported root change) and the file. -/
def inserter_insert (file : List Buf) (root_page_id : Nat) (row : Row)
    (fuel : Nat) : Option (Except DatabaseError (Nat × List Buf)) :=
  if row.to_bytes.isEmpty then
    some (.error (.SerializationError "Cannot insert empty row"))
  else
    match treeInsert (BPlusTree.new_with_extras file root_page_id) row fuel with
    | none => none
    | some (.error e) => some (.error e)
    | some (.ok (opt_root, T1)) =>
      some (.ok ((match opt_root with
        | some new_root => new_root
        | none => root_page_id), T1.file))

/-- `StorageManager::update_table_root`: updates the in-memory map and
prints; nothing is written to the file. -/
def update_table_root (sm : StorageManager) (table_name : List Nat)
    (new_root_page_id : Nat) : Except DatabaseError StorageManager :=
  .ok { sm with table_roots := mapInsert sm.table_roots table_name new_root_page_id }

/-- `StorageManager::insert_into_table`. -/
def insert_into_table (sm : StorageManager) (table_name : List Nat)
    (row : Row) (fuel : Nat) : Option (Except DatabaseError StorageManager) :=
  match mapGet sm.table_roots table_name with
  | none => some (.error (.TableNotFound table_name))
  | some root_page_id =>
    match inserter_insert sm.file root_page_id row fuel with
    | none => none
    | some (.error e) => some (.error e)
    | some (.ok (new_root_page_id, file1)) =>
      let sm1 := { sm with file := file1 }
      match mapGet sm1.table_roots table_name with
      | some current_root =>
        if current_root ≠ new_root_page_id then
          match update_table_root sm1 table_name new_root_page_id with
          | .error e => some (.error e)
          | .ok sm2 => some (.ok sm2)
        else some (.ok sm1)
      | none => some (.ok sm1)

/-- A concrete one-key row, two-cell leaf page, and one-page tree used to
exercise the root-split path. -/
def C7row : Row := ⟨none, [Value.Integer 3]⟩

def C7cellA : List Nat := (Row.mk none [Value.Integer 1]).to_bytes

def C7cellB : List Nat := (Row.mk none [Value.Integer 2]).to_bytes

def C7buf : Buf := writeBytes (writeBytes zeroBuf 4060 C7cellA) 4080 C7cellB

def C7page : Page :=
  { page_id := 1, page_type := .LeafTable, parent_page_id := none,
    next_leaf_page_id := none, is_dirty := false,
    slots := [SlotEntry.new_regular 4060 14 none,
      SlotEntry.new_regular 4080 14 none],
    free_space_offset := 50, cell_count := 2, data := some C7buf,
    checksum := 0, overflow_pages := [] }

def C7tree : TreeState :=
  { root_page_id := 1, file := [zeroBuf], page_cache := [(1, C7page)],
    next_page_id := 2, order := 4 }

def C7collected : List (Value × List Nat) :=
  [(Value.Integer 1, C7cellA), (Value.Integer 2, C7cellB)]

def C7sorted : List (Value × List Nat) :=
  [(Value.Integer 1, C7cellA), (Value.Integer 2, C7cellB),
    (Value.Integer 3, C7row.to_bytes)]

def C7sep : Value × List Nat := (Value.Integer 2, C7cellB)

theorem take_append_len {α : Type u} (l1 l2 : List α) (n : Nat) (h : l1.length = n) :
    (l1 ++ l2).take n = l1 := by
  subst h
  simp

theorem drop_append_len {α : Type u} (l1 l2 : List α) (n : Nat) (h : l1.length = n) :
    (l1 ++ l2).drop n = l2 := by
  subst h
  simp

theorem i64_to_le_bytes_length (i : Int) : (i64_to_le_bytes i).length = 8 := by
  simp [i64_to_le_bytes, leBytes_length]

theorem deserialize_serialize (v : Value) (rest : List Nat) (h : v.wf = true) :
    Row.deserialize_value_compact (Row.serialize_value_compact v ++ rest) =
      .ok (v, (Row.serialize_value_compact v).length) := by
  cases v with
  | Null => simp [Row.serialize_value_compact, Row.deserialize_value_compact]
  | Integer i =>
    simp only [Value.wf, Bool.and_eq_true, decide_eq_true_eq] at h
    have hTake : (i64_to_le_bytes i ++ rest).take 8 = i64_to_le_bytes i :=
      take_append_len _ _ 8 (i64_to_le_bytes_length i)
    simp [Row.serialize_value_compact, Row.deserialize_value_compact,
      List.length_append, i64_to_le_bytes_length, hTake, i64_roundtrip i h.1 h.2]
  | Real bits =>
    simp only [Value.wf, decide_eq_true_eq] at h
    have hTake : (leBytes 8 bits ++ rest).take 8 = leBytes 8 bits :=
      take_append_len _ _ 8 (leBytes_length 8 bits)
    have hval : leValue (leBytes 8 bits) = bits :=
      leValue_leBytes 8 bits (lt_of_lt_of_le h (by norm_num))
    simp [Row.serialize_value_compact, Row.deserialize_value_compact,
      List.length_append, leBytes_length, hTake, hval]
  | Text s =>
    simp only [Value.wf, Bool.and_eq_true, decide_eq_true_eq, List.all_eq_true] at h
    obtain ⟨⟨_hbytes, hutf⟩, hlen32⟩ := h
    have hmod : s.length % 2 ^ 32 = s.length := Nat.mod_eq_of_lt hlen32
    have hTake : ((leBytes 4 (s.length % 2 ^ 32) ++ s) ++ rest).take 4 =
        leBytes 4 (s.length % 2 ^ 32) := by
      rw [List.append_assoc]
      exact take_append_len _ _ 4 (leBytes_length 4 _)
    have hval : leValue (leBytes 4 (s.length % 2 ^ 32)) = s.length := by
      rw [leValue_leBytes 4 _ (by rw [hmod]; exact lt_of_lt_of_le hlen32 (by norm_num)),
        hmod]
    have hDrop : ((leBytes 4 (s.length % 2 ^ 32) ++ s) ++ rest).drop 4 = s ++ rest := by
      rw [List.append_assoc]
      exact drop_append_len _ _ 4 (leBytes_length 4 _)
    have hTakeS : (s ++ rest).take s.length = s := take_append_len _ _ _ rfl
    simp only [Row.serialize_value_compact, Row.deserialize_value_compact,
      List.cons_append, List.length_append, List.length_cons, hTake, hval, hDrop,
      hTakeS, leBytes_length]
    rw [if_neg (by omega), if_neg (by omega), if_pos hutf]
    simp only [Except.ok.injEq, Prod.mk.injEq, true_and]
    omega
  | Blob bytes =>
    simp only [Value.wf, Bool.and_eq_true, decide_eq_true_eq, List.all_eq_true] at h
    obtain ⟨_hbytes, hlen32⟩ := h
    have hmod : bytes.length % 2 ^ 32 = bytes.length := Nat.mod_eq_of_lt hlen32
    have hTake : ((leBytes 4 (bytes.length % 2 ^ 32) ++ bytes) ++ rest).take 4 =
        leBytes 4 (bytes.length % 2 ^ 32) := by
      rw [List.append_assoc]
      exact take_append_len _ _ 4 (leBytes_length 4 _)
    have hval : leValue (leBytes 4 (bytes.length % 2 ^ 32)) = bytes.length := by
      rw [leValue_leBytes 4 _ (by rw [hmod]; exact lt_of_lt_of_le hlen32 (by norm_num)),
        hmod]
    have hDrop : ((leBytes 4 (bytes.length % 2 ^ 32) ++ bytes) ++ rest).drop 4 =
        bytes ++ rest := by
      rw [List.append_assoc]
      exact drop_append_len _ _ 4 (leBytes_length 4 _)
    have hTakeS : (bytes ++ rest).take bytes.length = bytes := take_append_len _ _ _ rfl
    simp only [Row.serialize_value_compact, Row.deserialize_value_compact,
      List.cons_append, List.length_append, List.length_cons, hTake, hval, hDrop,
      hTakeS, leBytes_length]
    rw [if_neg (by omega), if_neg (by omega)]
    simp only [Except.ok.injEq, Prod.mk.injEq, true_and]
    omega
  | Boolean b =>
    cases b <;>
      simp [Row.serialize_value_compact, Row.deserialize_value_compact]
  | Timestamp t =>
    simp only [Value.wf, Bool.and_eq_true, decide_eq_true_eq] at h
    have hTake : (i64_to_le_bytes t ++ rest).take 8 = i64_to_le_bytes t :=
      take_append_len _ _ 8 (i64_to_le_bytes_length t)
    simp [Row.serialize_value_compact, Row.deserialize_value_compact,
      List.length_append, i64_to_le_bytes_length, hTake, i64_roundtrip t h.1 h.2]

theorem parseValues_flatMap (vs : List Value) (bytes : List Nat) (cursor : Nat)
    (hall : ∀ v ∈ vs, v.wf = true)
    (hdrop : bytes.drop cursor = vs.flatMap Row.serialize_value_compact) :
    Row.parseValues bytes vs.length cursor = .ok vs := by
  induction vs generalizing cursor with
  | nil => simp [Row.parseValues]
  | cons v vs ih =>
    rw [List.flatMap_cons] at hdrop
    have h1 : Row.deserialize_value_compact (bytes.drop cursor) =
        .ok (v, (Row.serialize_value_compact v).length) := by
      rw [hdrop]
      exact deserialize_serialize v _ (hall v (by simp))
    have h2 : bytes.drop (cursor + (Row.serialize_value_compact v).length) =
        vs.flatMap Row.serialize_value_compact := by
      rw [← List.drop_drop, hdrop]
      exact drop_append_len _ _ _ rfl
    rw [List.length_cons, Row.parseValues, h1]
    dsimp only
    rw [ih (cursor + (Row.serialize_value_compact v).length)
      (fun w hw => hall w (by simp [hw])) h2]

theorem from_bytes_after_spec (bytes : List Nat) (row_id : Option Nat) (cursor : Nat)
    (vs : List Value) (hlen : cursor + 4 ≤ bytes.length)
    (hcnt : leValue ((bytes.drop cursor).take 4) = vs.length)
    (hall : ∀ v ∈ vs, v.wf = true)
    (hdrop : bytes.drop (cursor + 4) = vs.flatMap Row.serialize_value_compact) :
    Row.from_bytes_after bytes row_id cursor = .ok ⟨row_id, vs⟩ := by
  unfold Row.from_bytes_after
  rw [if_neg (by omega), hcnt, parseValues_flatMap vs bytes (cursor + 4) hall hdrop]

/-- C9.  For every well-formed `Row` (any optional row id, any list of
supported values), `Row::from_bytes(r.to_bytes())` succeeds and returns `r`.
Equality of `Real` and `Timestamp` payloads is bit-identical by
construction: the embedding represents an `f64` by its IEEE-754 bit pattern,
so a NaN decodes to exactly the encoded bit pattern; all other values and
the row id are compared structurally. -/
theorem C9_row_codec_roundtrip (r : Row) (h : r.wf = true) :
    Row.from_bytes r.to_bytes = .ok r := by
  obtain ⟨rid, vs⟩ := r
  cases rid with
  | none =>
    simp only [Row.wf, Bool.and_eq_true, decide_eq_true_eq, List.all_eq_true] at h
    obtain ⟨⟨_, hcount⟩, hall⟩ := h
    have hmod : vs.length % 2 ^ 32 = vs.length := Nat.mod_eq_of_lt hcount
    have hbytes : (Row.mk none vs).to_bytes =
        0 :: (leBytes 4 (vs.length % 2 ^ 32) ++ vs.flatMap Row.serialize_value_compact) := by
      simp [Row.to_bytes]
    rw [hbytes]
    rw [show Row.from_bytes (0 :: (leBytes 4 (vs.length % 2 ^ 32)
        ++ vs.flatMap Row.serialize_value_compact)) =
      Row.from_bytes_after (0 :: (leBytes 4 (vs.length % 2 ^ 32)
        ++ vs.flatMap Row.serialize_value_compact)) none 1 from by
        rw [Row.from_bytes, if_neg (by omega)]]
    exact from_bytes_after_spec _ none 1 vs
      (by simp only [List.length_cons, List.length_append, leBytes_length]; omega)
      (by rw [show (0 :: (leBytes 4 (vs.length % 2 ^ 32)
            ++ vs.flatMap Row.serialize_value_compact)).drop 1 =
          leBytes 4 (vs.length % 2 ^ 32) ++ vs.flatMap Row.serialize_value_compact from rfl]
          rw [take_append_len _ _ 4 (leBytes_length 4 _)]
          rw [leValue_leBytes 4 _ (by rw [hmod]; exact lt_of_lt_of_le hcount (by norm_num))]
          exact hmod)
      hall
      (by rw [show (1 + 4 : Nat) = 1 + 4 from rfl, ← List.drop_drop,
            show (0 :: (leBytes 4 (vs.length % 2 ^ 32)
              ++ vs.flatMap Row.serialize_value_compact)).drop 1 =
            leBytes 4 (vs.length % 2 ^ 32) ++ vs.flatMap Row.serialize_value_compact from rfl]
          exact drop_append_len _ _ 4 (leBytes_length 4 _))
  | some id =>
    simp only [Row.wf, Bool.and_eq_true, decide_eq_true_eq, List.all_eq_true] at h
    obtain ⟨⟨hid, hcount⟩, hall⟩ := h
    have hmod : vs.length % 2 ^ 32 = vs.length := Nat.mod_eq_of_lt hcount
    have hbytes : (Row.mk (some id) vs).to_bytes =
        1 :: (leBytes 8 id ++ (leBytes 4 (vs.length % 2 ^ 32)
          ++ vs.flatMap Row.serialize_value_compact)) := by
      simp [Row.to_bytes]
    rw [hbytes]
    rw [show Row.from_bytes (1 :: (leBytes 8 id ++ (leBytes 4 (vs.length % 2 ^ 32)
        ++ vs.flatMap Row.serialize_value_compact))) =
      Row.from_bytes_after (1 :: (leBytes 8 id ++ (leBytes 4 (vs.length % 2 ^ 32)
        ++ vs.flatMap Row.serialize_value_compact)))
        (some (leValue ((leBytes 8 id ++ (leBytes 4 (vs.length % 2 ^ 32)
          ++ vs.flatMap Row.serialize_value_compact)).take 8))) 9 from by
        rw [Row.from_bytes, if_pos rfl, if_neg (by
          simp only [List.length_cons, List.length_append, leBytes_length]
          omega)]]
    rw [take_append_len _ _ 8 (leBytes_length 8 _),
      leValue_leBytes 8 id (lt_of_lt_of_le hid (by norm_num))]
    have hdrop9 : (1 :: (leBytes 8 id ++ (leBytes 4 (vs.length % 2 ^ 32)
        ++ vs.flatMap Row.serialize_value_compact))).drop 9 =
        leBytes 4 (vs.length % 2 ^ 32) ++ vs.flatMap Row.serialize_value_compact := by
      rw [show (9 : Nat) = 1 + 8 from rfl, ← List.drop_drop,
        show (1 :: (leBytes 8 id ++ (leBytes 4 (vs.length % 2 ^ 32)
          ++ vs.flatMap Row.serialize_value_compact))).drop 1 =
        leBytes 8 id ++ (leBytes 4 (vs.length % 2 ^ 32)
          ++ vs.flatMap Row.serialize_value_compact) from rfl]
      exact drop_append_len _ _ 8 (leBytes_length 8 _)
    exact from_bytes_after_spec _ (some id) 9 vs
      (by simp only [List.length_cons, List.length_append, leBytes_length]; omega)
      (by rw [hdrop9, take_append_len _ _ 4 (leBytes_length 4 _),
            leValue_leBytes 4 _ (by rw [hmod]; exact lt_of_lt_of_le hcount (by norm_num))]
          exact hmod)
      hall
      (by rw [show (9 + 4 : Nat) = 9 + 4 from rfl, ← List.drop_drop, hdrop9]
          exact drop_append_len _ _ 4 (leBytes_length 4 _))

/-- Witness for C9 at a concrete row exercising every value constructor,
including a NaN bit pattern for `Real`. -/
theorem C9_row_codec_roundtrip_witness :
    (Row.mk (some 42) [Value.Null, Value.Integer (-5), Value.Real 0x7FF8000000000001,
      Value.Text [0x61, 0x62], Value.Blob [0, 255], Value.Boolean true,
      Value.Timestamp (-1)]).wf = true ∧
    Row.from_bytes (Row.mk (some 42) [Value.Null, Value.Integer (-5),
      Value.Real 0x7FF8000000000001, Value.Text [0x61, 0x62], Value.Blob [0, 255],
      Value.Boolean true, Value.Timestamp (-1)]).to_bytes =
      .ok (Row.mk (some 42) [Value.Null, Value.Integer (-5),
        Value.Real 0x7FF8000000000001, Value.Text [0x61, 0x62], Value.Blob [0, 255],
        Value.Boolean true, Value.Timestamp (-1)]) := by
  refine ⟨by decide, C9_row_codec_roundtrip _ (by decide)⟩

/-! ## Page invariant

`PageInv` collects the structural facts that hold for every page produced
from `Page::new` by successful page operations: data loaded (4096 bytes, via
the `Buf` model), free space offset within the page, header and slot
directory below the free space offset, `cell_count` in sync, tombstones
zeroed, live slots inside the cell data region, total live cell bytes
bounded by the used region, all bytes between the header/slot area and the
free space offset zero, and the stored checksum equal to the recomputed
one. -/

/-- Sum of the lengths of the non-deleted slots. -/
def liveBytes (slots : List SlotEntry) : Nat :=
  ((slots.filter (fun s => ¬ s.is_deleted)).map (fun s => s.length)).sum

/-- Total byte size of the cells gathered by `collectActiveCells`. -/
def cellsTotal (cells : List (Nat × List Nat × SlotEntry)) : Nat :=
  (cells.map (fun c => c.2.1.length)).sum

/-- Data-present-and-zero-below-the-free-space-offset component of the
invariant. -/
def dataZeroBelow (d : Option Buf) (fso : Nat) : Prop :=
  match d with
  | none => False
  | some buf => ∀ k ∈ List.range fso, PAGE_HEADER_SIZE ≤ k → buf k = 0

instance : (d : Option Buf) → (fso : Nat) → Decidable (dataZeroBelow d fso)
  | none, _ => isFalse (by simp [dataZeroBelow])
  | some buf, fso =>
    inferInstanceAs (Decidable (∀ k ∈ List.range fso, PAGE_HEADER_SIZE ≤ k → buf k = 0))


theorem dataZeroBelow_some {buf : Buf} {fso : Nat} (h : dataZeroBelow (some buf) fso) :
    ∀ k, PAGE_HEADER_SIZE ≤ k → k < fso → buf k = 0 :=
  fun k h1 h2 => h k (List.mem_range.mpr h2) h1

theorem dataZeroBelow_intro {buf : Buf} {fso : Nat}
    (h : ∀ k, PAGE_HEADER_SIZE ≤ k → k < fso → buf k = 0) :
    dataZeroBelow (some buf) fso :=
  fun k hk h36 => h k h36 (List.mem_range.mp hk)

/-- The structural part of the page invariant (no checksum, no zeroed free
area): enough for the effect lemmas about `insert_cell`, and — unlike the
full `PageInv` — also satisfied by the cleared pages that `split_leaf_page`
rebuilds, whose data area still holds the old bytes. -/
structure PageShape (p : Page) : Prop where
  fso_le : p.free_space_offset ≤ PAGE_SIZE
  head_le : PAGE_HEADER_SIZE + p.slots.length * SLOT_DIRECTORY_ENTRY_SIZE
    ≤ p.free_space_offset
  cc_eq : p.cell_count = p.slots.length
  slots_ok : ∀ s ∈ p.slots, s.is_deleted = false →
    p.free_space_offset ≤ s.offset ∧ s.offset + s.length ≤ PAGE_SIZE

instance (p : Page) : Decidable (PageShape p) :=
  decidable_of_iff
    (p.free_space_offset ≤ PAGE_SIZE ∧
     PAGE_HEADER_SIZE + p.slots.length * SLOT_DIRECTORY_ENTRY_SIZE
       ≤ p.free_space_offset ∧
     p.cell_count = p.slots.length ∧
     (∀ s ∈ p.slots, s.is_deleted = false →
       p.free_space_offset ≤ s.offset ∧ s.offset + s.length ≤ PAGE_SIZE))
    ⟨fun ⟨a, b, c, d⟩ => ⟨a, b, c, d⟩, fun ⟨a, b, c, d⟩ => ⟨a, b, c, d⟩⟩

structure PageInv (p : Page) : Prop where
  fso_le : p.free_space_offset ≤ PAGE_SIZE
  head_le : PAGE_HEADER_SIZE + p.slots.length * SLOT_DIRECTORY_ENTRY_SIZE
    ≤ p.free_space_offset
  cc_eq : p.cell_count = p.slots.length
  slots_ok : ∀ s ∈ p.slots, s.is_deleted = false →
    p.free_space_offset ≤ s.offset ∧ s.offset + s.length ≤ PAGE_SIZE
  live_le : liveBytes p.slots ≤ PAGE_SIZE - p.free_space_offset
  zero_below : dataZeroBelow p.data p.free_space_offset
  ck_eq : p.checksum = calculate_page_checksum p.page_id p.page_type p.parent_page_id
    p.next_leaf_page_id p.cell_count p.free_space_offset p.slots p.data
    p.free_space_offset

instance (p : Page) : Decidable (PageInv p) :=
  decidable_of_iff
    (p.free_space_offset ≤ PAGE_SIZE ∧
     PAGE_HEADER_SIZE + p.slots.length * SLOT_DIRECTORY_ENTRY_SIZE
       ≤ p.free_space_offset ∧
     p.cell_count = p.slots.length ∧
     (∀ s ∈ p.slots, s.is_deleted = false →
       p.free_space_offset ≤ s.offset ∧ s.offset + s.length ≤ PAGE_SIZE) ∧
     liveBytes p.slots ≤ PAGE_SIZE - p.free_space_offset ∧
     dataZeroBelow p.data p.free_space_offset ∧
     p.checksum = calculate_page_checksum p.page_id p.page_type p.parent_page_id
       p.next_leaf_page_id p.cell_count p.free_space_offset p.slots p.data
       p.free_space_offset)
    ⟨fun ⟨a, b, c, d, e, f, g⟩ => ⟨a, b, c, d, e, f, g⟩,
     fun ⟨a, b, c, d, e, f, g⟩ => ⟨a, b, c, d, e, f, g⟩⟩

theorem PageInv_shape (p : Page) (h : PageInv p) : PageShape p :=
  ⟨h.fso_le, h.head_le, h.cc_eq, h.slots_ok⟩

theorem PageInv_new (page_id : Nat) (page_type : PageType) :
    PageInv (Page.new page_id page_type) := by
  refine ⟨?_, ?_, ?_, ?_, ?_, ?_, ?_⟩ <;>
    simp [Page.new, Page.update_checksum, liveBytes, dataZeroBelow, zeroBuf,
      PAGE_SIZE, PAGE_HEADER_SIZE]

theorem can_fit_spec (p : Page) (len : Nat) (hfso : p.free_space_offset ≤ PAGE_SIZE) :
    p.can_fit len = true ↔
    PAGE_HEADER_SIZE + p.slots.length * SLOT_DIRECTORY_ENTRY_SIZE + len
      + SLOT_DIRECTORY_ENTRY_SIZE ≤ p.free_space_offset := by
  unfold Page.can_fit Page.available_space
  rw [u16_sub_eq PAGE_SIZE p.free_space_offset hfso (by norm_num [PAGE_SIZE])]
  simp only [ge_iff_le, decide_eq_true_eq]
  unfold PAGE_SIZE PAGE_HEADER_SIZE SLOT_DIRECTORY_ENTRY_SIZE at *
  omega

/-- Explicit form of a successful `insert_cell`: the new slot is appended,
the cell bytes are written right below the old free space offset, the
counters advance, and the checksum is refreshed. -/
theorem insert_cell_ok (p : Page) (buf : Buf) (data : List Nat) (rid : Option Nat)
    (hdata : p.data = some buf)
    (hfso : p.free_space_offset ≤ PAGE_SIZE)
    (hfit : p.can_fit data.length = true) :
    p.insert_cell data rid =
      (.ok p.slots.length, Page.update_checksum { p with
        slots := p.slots ++ [SlotEntry.new_regular
          (p.free_space_offset - data.length) data.length rid],
        free_space_offset := p.free_space_offset - data.length,
        cell_count := p.slots.length + 1,
        data := some (writeBytes buf (p.free_space_offset - data.length) data),
        is_dirty := true }) := by
  have hb := (can_fit_spec p data.length hfso).mp hfit
  have hps : PAGE_SIZE = 4096 := rfl
  have hph : PAGE_HEADER_SIZE = 36 := rfl
  have hsd : SLOT_DIRECTORY_ENTRY_SIZE = 4 := rfl
  rw [hph, hsd] at hb
  rw [hps] at hfso
  have hlen : data.length % 65536 = data.length := Nat.mod_eq_of_lt (by omega)
  have hsub : u16_sub p.free_space_offset (data.length % 65536) =
      p.free_space_offset - data.length := by
    rw [hlen]
    exact u16_sub_eq _ _ (by omega) (by omega)
  have hcnt : (p.slots ++ [SlotEntry.new_regular (p.free_space_offset - data.length)
      data.length rid]).length % 65536 = p.slots.length + 1 := by
    simp only [List.length_append, List.length_cons, List.length_nil]
    exact Nat.mod_eq_of_lt (by omega)
  unfold Page.insert_cell
  rw [hdata]
  dsimp only
  rw [if_neg (by simp [hfit])]
  rw [hsub, hlen, hcnt]

/-- A `PageFull` insertion leaves the page untouched. -/
theorem insert_cell_full (p : Page) (data : List Nat) (rid : Option Nat)
    (hdata : p.data.isSome) (hfit : p.can_fit data.length = false) :
    p.insert_cell data rid = (.error (.PageFull p.page_id), p) := by
  unfold Page.insert_cell
  match hd : p.data with
  | none =>
    rw [hd] at hdata
    simp at hdata
  | some buf =>
    dsimp only
    rw [if_pos (by simp [hfit])]

theorem is_deleted_true_iff (s : SlotEntry) :
    s.is_deleted = true ↔ s.length = 0 ∧ s.row_id = none := by
  unfold SlotEntry.is_deleted
  rcases hr : s.row_id with _ | v <;> simp [hr]

theorem is_deleted_false_of_not (s : SlotEntry) (h : ¬ (s.length = 0 ∧ s.row_id = none)) :
    s.is_deleted = false := by
  rcases hd : s.is_deleted with _ | _
  · rfl
  · exact absurd ((is_deleted_true_iff s).mp hd) h

theorem liveBytes_append_live (slots : List SlotEntry) (s : SlotEntry)
    (h : s.is_deleted = false) :
    liveBytes (slots ++ [s]) = liveBytes slots + s.length := by
  unfold liveBytes
  rw [List.filter_append]
  simp [h]

theorem liveBytes_append_dead (slots : List SlotEntry) (s : SlotEntry)
    (h : s.is_deleted = true) :
    liveBytes (slots ++ [s]) = liveBytes slots := by
  unfold liveBytes
  rw [List.filter_append]
  simp [h]

/-- `insert_cell` preserves the page invariant. -/
theorem PageInv_insert_cell (p : Page) (buf : Buf) (data : List Nat) (rid : Option Nat)
    (hdata : p.data = some buf) (hInv : PageInv p)
    (hfit : p.can_fit data.length = true) :
    PageInv (p.insert_cell data rid).2 := by
  have hps : PAGE_SIZE = 4096 := rfl
  have hph : PAGE_HEADER_SIZE = 36 := rfl
  have hsd : SLOT_DIRECTORY_ENTRY_SIZE = 4 := rfl
  have hfso := hInv.fso_le
  have hb := (can_fit_spec p data.length hfso).mp hfit
  rw [hph, hsd] at hb
  rw [hps] at hfso
  rw [insert_cell_ok p buf data rid hdata (by rw [hps]; exact hfso) hfit]
  unfold Page.update_checksum
  dsimp only
  refine ⟨?_, ?_, ?_, ?_, ?_, ?_, ?_⟩
  all_goals dsimp only
  · show p.free_space_offset - data.length ≤ PAGE_SIZE
    rw [hps]
    omega
  · simp only [List.length_append, List.length_cons, List.length_nil, hph, hsd]
    omega
  · simp
  · intro s hs hlive
    simp only [List.mem_append, List.mem_singleton] at hs
    rcases hs with hs | hs
    · have h2 := hInv.slots_ok s hs hlive
      rw [hps] at h2
      rw [hps]
      constructor
      · omega
      · omega
    · subst hs
      simp only [SlotEntry.new_regular]
      rw [hps]
      constructor
      · exact le_refl _
      · show p.free_space_offset - data.length + data.length ≤ 4096
        omega
  · have hlive := hInv.live_le
    rw [hps] at hlive
    rw [hps]
    by_cases hdel : (SlotEntry.new_regular (p.free_space_offset - data.length)
        data.length rid).is_deleted = true
    · rw [liveBytes_append_dead _ _ hdel]
      have := (is_deleted_true_iff _).mp hdel
      simp only [SlotEntry.new_regular] at this
      omega
    · rw [liveBytes_append_live _ _ (by simpa using hdel)]
      simp only [SlotEntry.new_regular]
      omega
  · have hz := hInv.zero_below
    rw [hdata] at hz
    refine dataZeroBelow_intro (fun k h36 hk => ?_)
    rw [writeBytes_apply_out buf _ data k (Or.inl hk)]
    exact dataZeroBelow_some hz k h36 (by omega)

/-- `insert_cell` preserves the structural page invariant (which does not
constrain the data bytes). -/
theorem PageShape_insert_cell (p : Page) (buf : Buf) (data : List Nat)
    (rid : Option Nat) (hdata : p.data = some buf) (hInv : PageShape p)
    (hfit : p.can_fit data.length = true) :
    PageShape (p.insert_cell data rid).2 := by
  have hps : PAGE_SIZE = 4096 := rfl
  have hph : PAGE_HEADER_SIZE = 36 := rfl
  have hsd : SLOT_DIRECTORY_ENTRY_SIZE = 4 := rfl
  have hfso := hInv.fso_le
  have hb := (can_fit_spec p data.length hfso).mp hfit
  rw [hph, hsd] at hb
  rw [hps] at hfso
  rw [insert_cell_ok p buf data rid hdata (by rw [hps]; exact hfso) hfit]
  unfold Page.update_checksum
  dsimp only
  refine ⟨?_, ?_, ?_, ?_⟩
  all_goals dsimp only
  · show p.free_space_offset - data.length ≤ PAGE_SIZE
    rw [hps]
    omega
  · simp only [List.length_append, List.length_cons, List.length_nil, hph, hsd]
    omega
  · simp
  · intro s hs hlive
    simp only [List.mem_append, List.mem_singleton] at hs
    rcases hs with hs | hs
    · have h2 := hInv.slots_ok s hs hlive
      rw [hps] at h2
      rw [hps]
      constructor
      · omega
      · omega
    · subst hs
      simp only [SlotEntry.new_regular]
      rw [hps]
      constructor
      · exact le_refl _
      · show p.free_space_offset - data.length + data.length ≤ 4096
        omega

/-- Reading an old slot is unchanged by `insert_cell` (the new cell bytes sit
strictly below every live slot's range, and deleted slots stay `none`). -/
theorem get_cell_insert_old (p : Page) (buf : Buf) (data : List Nat) (rid : Option Nat)
    (hdata : p.data = some buf) (hInv : PageShape p)
    (hfit : p.can_fit data.length = true) (i : Nat) (hi : i < p.slots.length) :
    (p.insert_cell data rid).2.get_cell i = p.get_cell i := by
  have hps : PAGE_SIZE = 4096 := rfl
  have hph : PAGE_HEADER_SIZE = 36 := rfl
  have hsd : SLOT_DIRECTORY_ENTRY_SIZE = 4 := rfl
  have hb := (can_fit_spec p data.length hInv.fso_le).mp hfit
  rw [hph, hsd] at hb
  have hfso := hInv.fso_le
  rw [hps] at hfso
  rw [insert_cell_ok p buf data rid hdata hInv.fso_le hfit]
  unfold Page.get_cell Page.update_checksum
  dsimp only
  rw [hdata]
  have hget : (p.slots ++ [SlotEntry.new_regular (p.free_space_offset - data.length)
      data.length rid]).get? i = p.slots.get? i := by
    rw [List.get?_append hi]
  rw [hget]
  match hs : p.slots.get? i with
  | none => rfl
  | some slot =>
    dsimp only
    by_cases hdel : slot.length = 0 ∧ slot.row_id = none
    · rw [if_pos hdel, if_pos hdel]
    · rw [if_neg hdel, if_neg hdel]
      have hmem : slot ∈ p.slots := List.get?_mem hs
      have hok := hInv.slots_ok slot hmem (is_deleted_false_of_not slot hdel)
      rw [hps] at hok
      by_cases hbound : slot.offset + slot.length ≤ PAGE_SIZE
      · rw [if_pos hbound, if_pos hbound]
        congr 1
        apply readSlice_congr
        intro k hk1 hk2
        refine writeBytes_apply_out buf _ data k (Or.inr ?_)
        have h1 := hok.1
        omega
      · rw [if_neg hbound, if_neg hbound]

/-- Reading the freshly inserted slot yields the inserted bytes, provided the
new slot is not a tombstone (nonempty data or a row id present). -/
theorem get_cell_insert_new (p : Page) (buf : Buf) (data : List Nat) (rid : Option Nat)
    (hdata : p.data = some buf) (hInv : PageShape p)
    (hfit : p.can_fit data.length = true)
    (hnd : ¬ (data = [] ∧ rid = none)) :
    (p.insert_cell data rid).2.get_cell p.slots.length = some data := by
  have hps : PAGE_SIZE = 4096 := rfl
  have hph : PAGE_HEADER_SIZE = 36 := rfl
  have hsd : SLOT_DIRECTORY_ENTRY_SIZE = 4 := rfl
  have hfso := hInv.fso_le
  have hb := (can_fit_spec p data.length hfso).mp hfit
  rw [hph, hsd] at hb
  rw [hps] at hfso
  rw [insert_cell_ok p buf data rid hdata hInv.fso_le hfit]
  unfold Page.get_cell Page.update_checksum
  dsimp only
  have hget : (p.slots ++ [SlotEntry.new_regular (p.free_space_offset - data.length)
      data.length rid]).get? p.slots.length =
      some (SlotEntry.new_regular (p.free_space_offset - data.length)
        data.length rid) := by
    rw [List.get?_append_right (le_refl _)]
    simp
  rw [hget]
  dsimp only [SlotEntry.new_regular]
  rw [if_neg (by
    intro hcon
    exact hnd ⟨List.eq_nil_of_length_eq_zero hcon.1, hcon.2⟩)]
  rw [if_pos (by
    show p.free_space_offset - data.length + data.length ≤ PAGE_SIZE
    rw [hps]
    omega)]
  congr 1
  exact readSlice_writeBytes_self buf (p.free_space_offset - data.length) data

/-- `active_cell_count` grows by exactly one on a non-tombstone insertion. -/
theorem active_count_insert (p : Page) (buf : Buf) (data : List Nat) (rid : Option Nat)
    (hdata : p.data = some buf) (hfso : p.free_space_offset ≤ PAGE_SIZE)
    (hfit : p.can_fit data.length = true)
    (hnd : ¬ (data = [] ∧ rid = none)) :
    (p.insert_cell data rid).2.active_cell_count = p.active_cell_count + 1 := by
  rw [insert_cell_ok p buf data rid hdata hfso hfit]
  unfold Page.active_cell_count Page.update_checksum
  dsimp only
  rw [List.filter_append]
  have hlive : (SlotEntry.new_regular (p.free_space_offset - data.length)
      data.length rid).is_deleted = false := by
    apply is_deleted_false_of_not
    intro hcon
    simp only [SlotEntry.new_regular] at hcon
    exact hnd ⟨List.eq_nil_of_length_eq_zero hcon.1, hcon.2⟩
  simp [hlive]

/-- C5 counterexample: inserting the empty byte string with no row id into a
fresh page returns `Ok 0`, yet `get_cell 0` yields `none` (the appended slot
has zero length and no row id, which `get_cell` treats as deleted) and
`active_cell_count` does not increase.  This contradicts the unconditional
claim that every `Ok(i)` insertion makes `get_cell(i)` return the data and
grow the active count by one. -/
theorem C5_counterexample :
    ((Page.new 1 PageType.LeafTable).insert_cell [] none).1 = .ok 0 ∧
    ((Page.new 1 PageType.LeafTable).insert_cell [] none).2.get_cell 0 = none ∧
    ((Page.new 1 PageType.LeafTable).insert_cell [] none).2.active_cell_count
      = (Page.new 1 PageType.LeafTable).active_cell_count :=
  ⟨rfl, rfl, rfl⟩

/-- C5 (amended): for a full-data page satisfying the page invariant,
`insert_cell` with data that does not form a tombstone (nonempty bytes or a
row id present) behaves as specified: a failing `can_fit` yields `PageFull`
with the page unchanged, and a fitting insertion returns the index of the
newly appended last slot, from which `get_cell` reads back exactly the
inserted bytes, with `active_cell_count` increased by one. -/
theorem C5_insert_cell_spec (p : Page) (buf : Buf) (data : List Nat)
    (rid : Option Nat) (hdata : p.data = some buf) (hInv : PageInv p)
    (hnd : ¬ (data = [] ∧ rid = none)) :
    (p.can_fit data.length = false →
      p.insert_cell data rid = (.error (.PageFull p.page_id), p)) ∧
    (p.can_fit data.length = true →
      (p.insert_cell data rid).1 = .ok p.slots.length ∧
      (p.insert_cell data rid).2.slots.length = p.slots.length + 1 ∧
      (p.insert_cell data rid).2.get_cell p.slots.length = some data ∧
      (p.insert_cell data rid).2.active_cell_count = p.active_cell_count + 1) := by
  constructor
  · intro hfull
    exact insert_cell_full p data rid (by rw [hdata]; rfl) hfull
  · intro hfit
    refine ⟨?_, ?_, ?_, ?_⟩
    · rw [insert_cell_ok p buf data rid hdata hInv.fso_le hfit]
    · rw [insert_cell_ok p buf data rid hdata hInv.fso_le hfit]
      unfold Page.update_checksum
      dsimp only
      simp
    · exact get_cell_insert_new p buf data rid hdata (PageInv_shape p hInv) hfit hnd
    · exact active_count_insert p buf data rid hdata hInv.fso_le hfit hnd

theorem C5_insert_cell_spec_witness :
    ((Page.new 2 PageType.LeafTable).insert_cell [5] (some 1)).1 = .ok 0 ∧
    ((Page.new 2 PageType.LeafTable).insert_cell [5] (some 1)).2.get_cell 0
      = some [5] ∧
    ((Page.new 2 PageType.LeafTable).insert_cell [5] (some 1)).2.active_cell_count
      = 1 := by
  have h := (C5_insert_cell_spec (Page.new 2 PageType.LeafTable) zeroBuf [5]
    (some 1) rfl (PageInv_new 2 PageType.LeafTable) (by simp)).2 (by decide)
  exact ⟨h.1, h.2.2.1, h.2.2.2⟩

theorem cellsTotal_nil : cellsTotal [] = 0 := rfl

theorem cellsTotal_cons (c : Nat × List Nat × SlotEntry)
    (cs : List (Nat × List Nat × SlotEntry)) :
    cellsTotal (c :: cs) = c.2.1.length + cellsTotal cs := by
  simp [cellsTotal]

theorem cellsTotal_append (l1 l2 : List (Nat × List Nat × SlotEntry)) :
    cellsTotal (l1 ++ l2) = cellsTotal l1 + cellsTotal l2 := by
  simp [cellsTotal]

theorem liveBytes_cons_live (s : SlotEntry) (l : List SlotEntry)
    (h : s.is_deleted = false) :
    liveBytes (s :: l) = s.length + liveBytes l := by
  simp [liveBytes, h]

theorem liveBytes_cons_dead (s : SlotEntry) (l : List SlotEntry)
    (h : s.is_deleted = true) :
    liveBytes (s :: l) = liveBytes l := by
  simp [liveBytes, h]

theorem collectActiveCells_nil (buf : Buf) (i : Nat) :
    collectActiveCells i [] buf = [] := rfl

theorem collectActiveCells_cons (s : SlotEntry) (rest : List SlotEntry)
    (buf : Buf) (i : Nat) :
    collectActiveCells i (s :: rest) buf =
      if ¬ s.is_deleted = true ∧ s.offset + s.length ≤ PAGE_SIZE then
        (i, readSlice buf s.offset s.length, s) :: collectActiveCells (i + 1) rest buf
      else collectActiveCells (i + 1) rest buf := by
  rfl

/-- Every entry of `collectActiveCells i slots buf` records the slot at its
index, which is live, with its cell bytes read from the buffer. -/
theorem collectActiveCells_mem (slots : List SlotEntry) (buf : Buf) (i : Nat) :
    ∀ c ∈ collectActiveCells i slots buf,
      i ≤ c.1 ∧ c.1 < i + slots.length ∧
      slots.get? (c.1 - i) = some c.2.2 ∧ c.2.2.is_deleted = false ∧
      c.2.1 = readSlice buf c.2.2.offset c.2.2.length := by
  induction slots generalizing i with
  | nil => intro c hc; simp [collectActiveCells] at hc
  | cons s rest ih =>
    intro c hc
    unfold collectActiveCells at hc
    by_cases hs : ¬ s.is_deleted = true ∧ s.offset + s.length ≤ PAGE_SIZE
    · rw [if_pos hs] at hc
      rcases List.mem_cons.mp hc with hc | hc
      · subst hc
        refine ⟨le_refl _, by simp, by simp, ?_, rfl⟩
        cases hd : s.is_deleted
        · rfl
        · exact absurd hd hs.1
      · obtain ⟨h1, h2, h3, h4, h5⟩ := ih (i + 1) c hc
        refine ⟨by omega, by simp only [List.length_cons]; omega, ?_, h4, h5⟩
        rw [show c.1 - i = (c.1 - (i + 1)) + 1 by omega]
        simpa using h3
    · rw [if_neg hs] at hc
      obtain ⟨h1, h2, h3, h4, h5⟩ := ih (i + 1) c hc
      refine ⟨by omega, by simp only [List.length_cons]; omega, ?_, h4, h5⟩
      rw [show c.1 - i = (c.1 - (i + 1)) + 1 by omega]
      simpa using h3

/-- The collected indices are strictly increasing. -/
theorem collectActiveCells_pairwise (slots : List SlotEntry) (buf : Buf) (i : Nat) :
    List.Pairwise (fun a b => a.1 < b.1) (collectActiveCells i slots buf) := by
  induction slots generalizing i with
  | nil => exact List.Pairwise.nil
  | cons s rest ih =>
    unfold collectActiveCells
    by_cases hs : ¬ s.is_deleted = true ∧ s.offset + s.length ≤ PAGE_SIZE
    · rw [if_pos hs]
      refine List.Pairwise.cons ?_ (ih (i + 1))
      intro c hc
      have := (collectActiveCells_mem rest buf (i + 1) c hc).1
      omega
    · rw [if_neg hs]
      exact ih (i + 1)

/-- When every live slot passes the bounds check, the collected cells account
for exactly the live bytes. -/
theorem cellsTotal_collect (slots : List SlotEntry) (buf : Buf) (i : Nat)
    (hb : ∀ s ∈ slots, s.is_deleted = false → s.offset + s.length ≤ PAGE_SIZE) :
    cellsTotal (collectActiveCells i slots buf) = liveBytes slots := by
  induction slots generalizing i with
  | nil => rfl
  | cons s rest ih =>
    have hrest : ∀ s' ∈ rest, s'.is_deleted = false → s'.offset + s'.length ≤ PAGE_SIZE :=
      fun s' h' => hb s' (List.mem_cons_of_mem _ h')
    unfold collectActiveCells
    by_cases hdel : s.is_deleted = true
    · rw [if_neg (fun hc => hc.1 hdel)]
      rw [ih i.succ hrest, liveBytes_cons_dead s rest hdel]
    · have hdel' : s.is_deleted = false := by
        cases hd : s.is_deleted
        · rfl
        · exact absurd hd hdel
      rw [if_pos ⟨fun hc => hdel hc, hb s (List.mem_cons_self s rest) hdel'⟩]
      rw [cellsTotal_cons, ih i.succ hrest, liveBytes_cons_live s rest hdel']
      simp [readSlice_length]

/-- `collectActiveCells` distributes over list append. -/
theorem collectActiveCells_append (l1 l2 : List SlotEntry) (buf : Buf) (i : Nat) :
    collectActiveCells i (l1 ++ l2) buf
      = collectActiveCells i l1 buf ++ collectActiveCells (i + l1.length) l2 buf := by
  induction l1 generalizing i with
  | nil => simp [collectActiveCells]
  | cons s rest ih =>
    show collectActiveCells i (s :: (rest ++ l2)) buf = _
    rw [collectActiveCells_cons, collectActiveCells_cons]
    by_cases hs : ¬ s.is_deleted = true ∧ s.offset + s.length ≤ PAGE_SIZE
    · rw [if_pos hs, if_pos hs, ih (i + 1)]
      simp only [List.length_cons, List.cons_append]
      rw [show i + 1 + rest.length = i + (rest.length + 1) by omega]
    · rw [if_neg hs, if_neg hs, ih (i + 1)]
      simp only [List.length_cons]
      rw [show i + 1 + rest.length = i + (rest.length + 1) by omega]

theorem liveBytes_append (l1 l2 : List SlotEntry) :
    liveBytes (l1 ++ l2) = liveBytes l1 + liveBytes l2 := by
  simp [liveBytes, List.filter_append]

theorem liveBytes_drop_le (l : List SlotEntry) (n : Nat) :
    liveBytes (l.drop n) ≤ liveBytes l := by
  conv_rhs => rw [← List.take_append_drop n l]
  rw [liveBytes_append]
  omega

/-- Closed form of one compaction rewrite step when the running free space
offset is in range: plain subtraction, an in-bounds copy, and a slot update. -/
theorem compactStep_eq (acc : Nat × Buf × List SlotEntry)
    (item : Nat × List Nat × SlotEntry)
    (h1 : item.2.1.length ≤ acc.1) (h2 : acc.1 ≤ PAGE_SIZE) :
    compactStep acc item =
      (acc.1 - item.2.1.length,
       writeBytes acc.2.1 (acc.1 - item.2.1.length) item.2.1,
       acc.2.2.set item.1 { item.2.2 with offset := acc.1 - item.2.1.length }) := by
  have hps : PAGE_SIZE = 4096 := rfl
  rw [hps] at h2
  unfold compactStep
  dsimp only
  rw [Nat.mod_eq_of_lt (show item.2.1.length < 65536 by omega)]
  rw [u16_sub_eq acc.1 item.2.1.length h1 (by omega)]
  rw [if_pos (by rw [hps]; omega)]

/-- Main induction for the rewrite loop of `Page::compact`, phrased over the
`foldr` form of the reversed fold: the resulting free space offset, slot
directory length, untouched slots, and untouched buffer regions. -/
theorem compact_foldr_spec (cells : List (Nat × List Nat × SlotEntry))
    (base : Nat × Buf × List SlotEntry)
    (hT : cellsTotal cells ≤ base.1) (hbase : base.1 ≤ PAGE_SIZE) :
    (cells.foldr (fun c acc => compactStep acc c) base).1
      = base.1 - cellsTotal cells ∧
    (cells.foldr (fun c acc => compactStep acc c) base).2.2.length
      = base.2.2.length ∧
    (∀ j, (∀ c ∈ cells, c.1 ≠ j) →
      (cells.foldr (fun c acc => compactStep acc c) base).2.2.get? j
        = base.2.2.get? j) ∧
    (∀ k, k < base.1 - cellsTotal cells →
      (cells.foldr (fun c acc => compactStep acc c) base).2.1 k = base.2.1 k) ∧
    (∀ k, base.1 ≤ k →
      (cells.foldr (fun c acc => compactStep acc c) base).2.1 k = base.2.1 k) := by
  induction cells with
  | nil =>
    refine ⟨by simp [cellsTotal_nil], rfl, fun j _ => rfl, fun k _ => rfl, fun k _ => rfl⟩
  | cons c cs ih =>
    rw [cellsTotal_cons] at hT
    obtain ⟨ih1, ih2, ih3, ih4, ih5⟩ := ih (by omega)
    simp only [List.foldr_cons]
    rw [compactStep_eq (cs.foldr (fun c acc => compactStep acc c) base) c
      (by omega) (by rw [ih1]; omega)]
    rw [ih1]
    refine ⟨by rw [cellsTotal_cons]; omega, ?_, ?_, ?_, ?_⟩
    · dsimp only
      rw [List.length_set]
      exact ih2
    · intro j hj
      dsimp only
      rw [List.get?_eq_getElem?, List.getElem?_set_ne (hj c (List.mem_cons_self c cs)),
        ← List.get?_eq_getElem?]
      exact ih3 j (fun c' hc' => hj c' (List.mem_cons_of_mem c hc'))
    · intro k hk
      rw [cellsTotal_cons] at hk
      dsimp only
      rw [writeBytes_apply_out _ _ _ k (Or.inl (by omega))]
      exact ih4 k (by omega)
    · intro k hk
      dsimp only
      rw [writeBytes_apply_out _ _ _ k (Or.inr (by omega))]
      exact ih5 k hk

/-- Per-cell conclusion of the compaction rewrite loop: each processed cell's
slot is re-pointed at the suffix-sum offset and its bytes sit there. -/
theorem compact_foldr_cell (cs1 cs2 : List (Nat × List Nat × SlotEntry))
    (c : Nat × List Nat × SlotEntry) (base : Nat × Buf × List SlotEntry)
    (hT : cellsTotal (cs1 ++ c :: cs2) ≤ base.1) (hbase : base.1 ≤ PAGE_SIZE)
    (hne : ∀ c' ∈ cs1, c'.1 ≠ c.1) (hidx : c.1 < base.2.2.length) :
    ((cs1 ++ c :: cs2).foldr (fun x acc => compactStep acc x) base).2.2.get? c.1
      = some { c.2.2 with offset := base.1 - cellsTotal (c :: cs2) } ∧
    readSlice ((cs1 ++ c :: cs2).foldr (fun x acc => compactStep acc x) base).2.1
        (base.1 - cellsTotal (c :: cs2)) c.2.1.length = c.2.1 := by
  rw [cellsTotal_append, cellsTotal_cons] at hT
  rw [List.foldr_append]
  obtain ⟨m1, m2, m3, m4, m5⟩ := compact_foldr_spec cs2 base (by omega) hbase
  simp only [List.foldr_cons]
  rw [compactStep_eq (cs2.foldr (fun x acc => compactStep acc x) base) c
    (by omega) (by rw [m1]; omega)]
  rw [m1]
  have hoff : base.1 - cellsTotal cs2 - c.2.1.length = base.1 - cellsTotal (c :: cs2) := by
    rw [cellsTotal_cons]; omega
  rw [hoff]
  obtain ⟨f1, f2, f3, f4, f5⟩ := compact_foldr_spec cs1
    (base.1 - cellsTotal (c :: cs2),
     writeBytes (cs2.foldr (fun x acc => compactStep acc x) base).2.1
       (base.1 - cellsTotal (c :: cs2)) c.2.1,
     (cs2.foldr (fun x acc => compactStep acc x) base).2.2.set c.1
       { c.2.2 with offset := base.1 - cellsTotal (c :: cs2) })
    (by dsimp only; rw [cellsTotal_cons] at *; omega)
    (by dsimp only; omega)
  constructor
  · rw [f3 c.1 hne]
    dsimp only
    rw [List.get?_eq_getElem?, List.getElem?_set_eq (by rw [m2]; exact hidx)]
  · have hreg : ∀ k, base.1 - cellsTotal (c :: cs2) ≤ k →
        ((cs1.foldr (fun x acc => compactStep acc x)
          (base.1 - cellsTotal (c :: cs2),
           writeBytes (cs2.foldr (fun x acc => compactStep acc x) base).2.1
             (base.1 - cellsTotal (c :: cs2)) c.2.1,
           (cs2.foldr (fun x acc => compactStep acc x) base).2.2.set c.1
             { c.2.2 with offset := base.1 - cellsTotal (c :: cs2) }))).2.1 k
          = writeBytes (cs2.foldr (fun x acc => compactStep acc x) base).2.1
              (base.1 - cellsTotal (c :: cs2)) c.2.1 k := by
      intro k hk
      exact f5 k hk
    rw [readSlice_congr _ (writeBytes
        (cs2.foldr (fun x acc => compactStep acc x) base).2.1
        (base.1 - cellsTotal (c :: cs2)) c.2.1) _ _
      (fun k hk1 _ => hreg k hk1)]
    exact readSlice_writeBytes_self _ _ _

/-- C6: compaction of a full-data page satisfying the page invariant succeeds;
the slot directory keeps its length with tombstones unchanged in place; every
live slot `i` is re-pointed at offset `PAGE_SIZE - liveBytes (slots.drop i)`
(so the surviving cells sit contiguously against the page end) while
`get_cell i` returns the same bytes as before; the new free space offset is
`PAGE_SIZE - liveBytes slots`; and every data byte in
`[PAGE_HEADER_SIZE, free_space_offset)` is zero afterwards. -/
theorem C6_compact (p : Page) (buf : Buf) (hdata : p.data = some buf)
    (hInv : PageInv p) :
    p.compact.1 = .ok () ∧
    p.compact.2.slots.length = p.slots.length ∧
    (∀ i s, p.slots.get? i = some s → s.is_deleted = true →
      p.compact.2.slots.get? i = some s) ∧
    (∀ i s, p.slots.get? i = some s → s.is_deleted = false →
      p.compact.2.slots.get? i
        = some { s with offset := PAGE_SIZE - liveBytes (p.slots.drop i) } ∧
      p.compact.2.get_cell i = p.get_cell i) ∧
    p.compact.2.free_space_offset = PAGE_SIZE - liveBytes p.slots ∧
    (∃ buf2, p.compact.2.data = some buf2 ∧
      ∀ k, PAGE_HEADER_SIZE ≤ k → k < PAGE_SIZE - liveBytes p.slots →
        buf2 k = 0) := by
  have hps : PAGE_SIZE = 4096 := rfl
  have hph : PAGE_HEADER_SIZE = 36 := rfl
  have hfso : p.free_space_offset ≤ PAGE_SIZE := hInv.fso_le
  have hlivele : liveBytes p.slots ≤ PAGE_SIZE - p.free_space_offset := hInv.live_le
  rw [hps] at hfso hlivele
  have hb : ∀ s ∈ p.slots, s.is_deleted = false → s.offset + s.length ≤ PAGE_SIZE :=
    fun s hs hl => (hInv.slots_ok s hs hl).2
  have hTot : cellsTotal (collectActiveCells 0 p.slots buf) = liveBytes p.slots :=
    cellsTotal_collect p.slots buf 0 hb
  set B1 : Buf := (if p.free_space_offset < PAGE_SIZE then
    fillZeroFrom buf p.free_space_offset else buf) with hB1
  set A : List (Nat × List Nat × SlotEntry) := collectActiveCells 0 p.slots buf
    with hA
  set R : Nat × Buf × List SlotEntry :=
    A.foldr (fun x acc => compactStep acc x) (PAGE_SIZE, B1, p.slots) with hR
  have hcompact : p.compact = (.ok (), Page.update_checksum { p with
      slots := R.2.2, free_space_offset := R.1, data := some R.2.1,
      is_dirty := true }) := by
    rw [hR, hA, hB1]
    unfold Page.compact
    rw [hdata]
    dsimp only
    rw [List.foldl_reverse]
  obtain ⟨g1, g2, g3, g4, g5⟩ := compact_foldr_spec A (PAGE_SIZE, B1, p.slots)
    (by show cellsTotal A ≤ PAGE_SIZE; rw [hTot, hps]; omega) (le_refl _)
  rw [← hR] at g1 g2 g3 g4 g5
  dsimp only at g1 g2 g3 g4 g5
  rw [hTot] at g1 g4
  rw [hcompact]
  unfold Page.update_checksum
  dsimp only
  refine ⟨rfl, g2, ?_, ?_, g1, ?_⟩
  · intro i s hget hdel
    have hne : ∀ c ∈ A, c.1 ≠ i := by
      intro c hc hci
      rw [hA] at hc
      obtain ⟨-, -, h3, h4, -⟩ := collectActiveCells_mem p.slots buf 0 c hc
      rw [Nat.sub_zero, hci, hget] at h3
      injection h3 with h3
      rw [← h3] at h4
      rw [h4] at hdel
      exact Bool.noConfusion hdel
    rw [g3 i hne]
    exact hget
  · intro i s hget hlives
    obtain ⟨hi, hgi0⟩ := List.get?_eq_some.mp hget
    have hgi : p.slots[i] = s := by
      rw [List.get_eq_getElem] at hgi0
      exact hgi0
    have hmem : s ∈ p.slots := List.get?_mem hget
    have hnd : ¬ (s.length = 0 ∧ s.row_id = none) := by
      intro hc
      have h5 := (is_deleted_true_iff s).mpr hc
      rw [hlives] at h5
      exact Bool.noConfusion h5
    have hbnd := hb s hmem hlives
    have hdrop : p.slots.drop i = s :: p.slots.drop (i + 1) := by
      rw [List.drop_eq_getElem_cons hi, hgi]
    have hsplit : p.slots = p.slots.take i ++ s :: p.slots.drop (i + 1) := by
      conv_lhs => rw [← List.take_append_drop i p.slots]
      rw [hdrop]
    have hlentake : (p.slots.take i).length = i :=
      List.length_take_of_le (Nat.le_of_lt hi)
    have hbdrop : ∀ s2 ∈ p.slots.drop (i + 1), s2.is_deleted = false →
        s2.offset + s2.length ≤ PAGE_SIZE :=
      fun s2 h2 => hb s2 (List.mem_of_mem_drop h2)
    have hAdec : A = collectActiveCells 0 (p.slots.take i) buf
        ++ (i, readSlice buf s.offset s.length, s)
          :: collectActiveCells (i + 1) (p.slots.drop (i + 1)) buf := by
      rw [hA]
      conv_lhs => rw [hsplit]
      rw [collectActiveCells_append, hlentake, Nat.zero_add,
        collectActiveCells_cons, if_pos ⟨by simp [hlives], hbnd⟩]
    have hTot2 : cellsTotal ((i, readSlice buf s.offset s.length, s)
        :: collectActiveCells (i + 1) (p.slots.drop (i + 1)) buf)
        = liveBytes (p.slots.drop i) := by
      rw [cellsTotal_cons,
        cellsTotal_collect (p.slots.drop (i + 1)) buf (i + 1) hbdrop,
        hdrop, liveBytes_cons_live s _ hlives]
      dsimp only
      rw [readSlice_length]
    have hne1 : ∀ c' ∈ collectActiveCells 0 (p.slots.take i) buf,
        c'.1 ≠ (i, readSlice buf s.offset s.length, s).1 := by
      intro c' hc'
      have h2 := (collectActiveCells_mem (p.slots.take i) buf 0 c' hc').2.1
      rw [Nat.zero_add, hlentake] at h2
      dsimp only
      omega
    obtain ⟨hcell1, hcell2⟩ := compact_foldr_cell
      (collectActiveCells 0 (p.slots.take i) buf)
      (collectActiveCells (i + 1) (p.slots.drop (i + 1)) buf)
      (i, readSlice buf s.offset s.length, s)
      (PAGE_SIZE, B1, p.slots)
      (by rw [← hAdec]; show cellsTotal A ≤ PAGE_SIZE; rw [hTot, hps]; omega)
      (le_refl _) hne1 (by dsimp only; exact hi)
    rw [← hAdec, ← hR] at hcell1 hcell2
    rw [hTot2] at hcell1 hcell2
    dsimp only at hcell1 hcell2
    rw [readSlice_length] at hcell2
    have hsle : s.length ≤ liveBytes (p.slots.drop i) := by
      rw [hdrop, liveBytes_cons_live s _ hlives]
      omega
    have hld : liveBytes (p.slots.drop i) ≤ 4096 := by
      have h6 := liveBytes_drop_le p.slots i
      omega
    constructor
    · exact hcell1
    · unfold Page.get_cell
      dsimp only
      rw [hdata, hcell1, hget]
      dsimp only
      rw [if_neg hnd, if_neg hnd]
      rw [if_pos (show PAGE_SIZE - liveBytes (p.slots.drop i) + s.length
        ≤ PAGE_SIZE by rw [hps]; omega)]
      rw [if_pos hbnd]
      rw [hcell2]
  · refine ⟨R.2.1, rfl, fun k h36 hk => ?_⟩
    rw [g4 k hk, hB1]
    have hz := hInv.zero_below
    rw [hdata] at hz
    by_cases hlt : p.free_space_offset < PAGE_SIZE
    · rw [if_pos hlt]
      unfold fillZeroFrom
      by_cases hk2 : p.free_space_offset ≤ k ∧ k < 4096
      · rw [if_pos hk2]
      · rw [if_neg hk2]
        refine dataZeroBelow_some hz k h36 ?_
        rw [hps] at hk hlt
        omega
    · rw [if_neg hlt]
      refine dataZeroBelow_some hz k h36 ?_
      rw [hps] at hk hlt
      omega

theorem C6_compact_witness :
    ((Page.new 3 PageType.LeafTable).insert_cell [7] (some 1)).2.compact.1
      = .ok () ∧
    ((Page.new 3 PageType.LeafTable).insert_cell [7] (some 1)).2.compact.2.get_cell 0
      = ((Page.new 3 PageType.LeafTable).insert_cell [7] (some 1)).2.get_cell 0 ∧
    ((Page.new 3 PageType.LeafTable).insert_cell [7]
        (some 1)).2.compact.2.free_space_offset
      = PAGE_SIZE
        - liveBytes ((Page.new 3 PageType.LeafTable).insert_cell [7] (some 1)).2.slots := by
  have hInv1 := PageInv_insert_cell (Page.new 3 PageType.LeafTable) zeroBuf [7]
    (some 1) rfl (PageInv_new 3 PageType.LeafTable) (by decide)
  have h := C6_compact ((Page.new 3 PageType.LeafTable).insert_cell [7] (some 1)).2
    (writeBytes zeroBuf 4095 [7]) rfl hInv1
  exact ⟨h.1, (h.2.2.2.1 0 (SlotEntry.new_regular 4095 1 (some 1)) rfl rfl).2,
    h.2.2.2.2.1⟩

/-- The checksum field is the CRC the source computes over the page's own
current fields. -/
def checksumConsistent (p : Page) : Prop :=
  p.checksum = calculate_page_checksum p.page_id p.page_type p.parent_page_id
    p.next_leaf_page_id p.cell_count p.free_space_offset p.slots p.data
    p.free_space_offset

theorem checksumConsistent_update (q : Page) :
    checksumConsistent (Page.update_checksum q) := rfl

theorem checksumConsistent_insert (p : Page) (d : List Nat) (r : Option Nat)
    (h : checksumConsistent p) : checksumConsistent (p.insert_cell d r).2 := by
  unfold checksumConsistent at *
  unfold Page.insert_cell
  rcases hd : p.data with - | buf
  · rw [hd] at h
    dsimp only
    rw [hd]
    exact h
  · rw [hd] at h
    dsimp only
    by_cases hfit : p.can_fit d.length = true
    · rw [if_neg (by simp [hfit])]
      exact checksumConsistent_update _
    · rw [if_pos (by simp [hfit])]
      rw [hd]
      exact h

theorem checksumConsistent_insert_overflow (p : Page) (d : List Nat)
    (r oid : Option Nat) (h : checksumConsistent p) :
    checksumConsistent (p.insert_cell_with_overflow d r oid).2 := by
  unfold Page.insert_cell_with_overflow
  rcases hd : p.data with - | buf
  · unfold checksumConsistent at *
    rw [hd] at h
    dsimp only
    rw [hd]
    exact h
  · dsimp only
    by_cases hov : (oid.isSome || p.needs_overflow d.length) = true
    · rw [if_pos hov]
      rcases oid with - | overflow_id
      · unfold checksumConsistent at *
        rw [hd] at h
        dsimp only
        rw [hd]
        exact h
      · unfold Page.create_overflow_pointer
        dsimp only
        split
        · unfold checksumConsistent at *
          rw [hd] at h
          dsimp only
          rw [hd]
          exact h
        · exact checksumConsistent_update _
    · rw [if_neg hov]
      exact checksumConsistent_insert p d r h

theorem checksumConsistent_delete (p : Page) (i : Nat)
    (h : checksumConsistent p) : checksumConsistent (p.delete_cell i).2 := by
  unfold Page.delete_cell
  rcases hd : p.data with - | buf
  · unfold checksumConsistent at *
    rw [hd] at h
    dsimp only
    rw [hd]
    exact h
  · dsimp only
    rcases hg : p.slots.get? i with - | slot
    · unfold checksumConsistent at *
      rw [hd] at h
      dsimp only
      rw [hd]
      exact h
    · dsimp only
      by_cases hdel : slot.is_deleted = true
      · rw [if_pos hdel]
        unfold checksumConsistent at *
        rw [hd] at h
        dsimp only
        rw [hd]
        exact h
      · rw [if_neg hdel]
        exact checksumConsistent_update _

theorem checksumConsistent_compact (p : Page) (h : checksumConsistent p) :
    checksumConsistent p.compact.2 := by
  unfold Page.compact
  rcases hd : p.data with - | buf
  · unfold checksumConsistent at *
    rw [hd] at h
    dsimp only
    rw [hd]
    exact h
  · dsimp only
    exact checksumConsistent_update _

theorem checksumConsistent_compact_of_data (p : Page) (buf : Buf)
    (hd : p.data = some buf) : checksumConsistent p.compact.2 := by
  unfold Page.compact
  rw [hd]
  dsimp only
  exact checksumConsistent_update _

theorem checksumConsistent_of_compact_eq (q : Page)
    (res : Except DatabaseError Unit) (p2 : Page) (hc : q.compact = (res, p2))
    (hq : checksumConsistent q) : checksumConsistent p2 := by
  have h3 := checksumConsistent_compact q hq
  rw [hc] at h3
  exact h3

theorem checksumConsistent_of_compact_eq_data (q : Page)
    (res : Except DatabaseError Unit) (p2 : Page) (hc : q.compact = (res, p2))
    (buf : Buf) (hd : q.data = some buf) : checksumConsistent p2 := by
  have h3 := checksumConsistent_compact_of_data q buf hd
  rw [hc] at h3
  exact h3

theorem checksumConsistent_update_cell (p : Page) (i : Nat) (d : List Nat)
    (r : Option Nat) (h : checksumConsistent p) :
    checksumConsistent (p.update_cell i d r).2 := by
  have hp : checksumConsistent p := h
  unfold Page.update_cell
  rcases hd : p.data with - | buf
  · unfold checksumConsistent at *
    rw [hd] at h
    dsimp only
    rw [hd]
    exact h
  · dsimp only
    rcases hg : p.slots.get? i with - | slot
    · unfold checksumConsistent at *
      rw [hd] at h
      dsimp only
      rw [hd]
      exact h
    · dsimp only
      split
      · unfold checksumConsistent at *
        rw [hd] at h
        dsimp only
        rw [hd]
        exact h
      · split
        · split
          · exact checksumConsistent_update _
          · unfold checksumConsistent at *
            rw [hd] at h
            dsimp only
            rw [hd]
            exact h
        · split
          · split
            · split
              · split
                next e p2 hc =>
                  exact checksumConsistent_of_compact_eq _ _ _ hc
                    (checksumConsistent_update _)
                next u p2 hc =>
                  exact checksumConsistent_of_compact_eq _ _ _ hc
                    (checksumConsistent_update _)
              · exact checksumConsistent_update _
            · unfold checksumConsistent at *
              rw [hd] at h
              dsimp only
              rw [hd]
              exact h
          · split
            · unfold checksumConsistent at *
              rw [hd] at h
              dsimp only
              rw [hd]
              exact h
            · split
              next e p2 hc =>
                exact checksumConsistent_of_compact_eq_data _ _ _ hc buf rfl
              next u p2 hc =>
                exact checksumConsistent_update _


/-- Every reachable page's checksum field is the CRC the source computes
over its current fields. -/
theorem Reached_checksumConsistent (p : Page) (h : Reached p) :
    checksumConsistent p := by
  induction h with
  | new pid pt => exact checksumConsistent_update _
  | insert p d r idx hp hok ih => exact checksumConsistent_insert p d r ih
  | insert_overflow p d r oid idx hp hok ih =>
    exact checksumConsistent_insert_overflow p d r oid ih
  | delete p i hp hok ih => exact checksumConsistent_delete p i ih
  | update p i d r hp hok ih => exact checksumConsistent_update_cell p i d r ih
  | compact p hp hok ih => exact checksumConsistent_compact p ih

/-- C4 counterexample: already for a freshly created page the stored checksum
differs from the CRC-32 of the bytes the specification enumerates
(`specChecksumBytes`: header minus the checksum field — which includes the 3
reserved bytes — the slot directory as offset/length only, and the data
bytes `[free_space_offset, 4096)`): the source omits the reserved bytes and
additionally hashes a 1-byte `is_overflow` flag per slot. -/
theorem C4_counterexample :
    crc32 (specChecksumBytes (Page.new 1 PageType.LeafTable) zeroBuf)
      ≠ (Page.new 1 PageType.LeafTable).checksum := by decide

/-- C4 (amended): for every page reachable by successful operations the
stored checksum equals the CRC-32 computed over exactly: the serialized
header fields page_id, page_type, parent_page_id, next_leaf_page_id,
cell_count and free_space_offset (the checksum field and the 3 reserved
header bytes excluded), each slot's offset, length and a 1-byte
`is_overflow` flag, and the data bytes in `[free_space_offset, 4096)`. -/
theorem C4_checksum_coverage (p : Page) (h : Reached p) :
    p.checksum = crc32 (leBytes 8 p.page_id ++ [p.page_type.as_u8]
      ++ leBytes 8 (p.parent_page_id.getD U64_MAX)
      ++ leBytes 8 (p.next_leaf_page_id.getD U64_MAX)
      ++ leBytes 2 p.cell_count ++ leBytes 2 p.free_space_offset
      ++ p.slots.flatMap slotCrcBytes
      ++ (match p.data with
          | none => []
          | some b => readSlice b p.free_space_offset
              (PAGE_SIZE - p.free_space_offset))) :=
  Reached_checksumConsistent p h

theorem C4_checksum_coverage_witness :
    (Page.new 7 PageType.LeafTable).checksum
      = crc32 (leBytes 8 (Page.new 7 PageType.LeafTable).page_id
        ++ [(Page.new 7 PageType.LeafTable).page_type.as_u8]
        ++ leBytes 8 ((Page.new 7 PageType.LeafTable).parent_page_id.getD U64_MAX)
        ++ leBytes 8 ((Page.new 7 PageType.LeafTable).next_leaf_page_id.getD U64_MAX)
        ++ leBytes 2 (Page.new 7 PageType.LeafTable).cell_count
        ++ leBytes 2 (Page.new 7 PageType.LeafTable).free_space_offset
        ++ (Page.new 7 PageType.LeafTable).slots.flatMap slotCrcBytes
        ++ (match (Page.new 7 PageType.LeafTable).data with
            | none => []
            | some b => readSlice b (Page.new 7 PageType.LeafTable).free_space_offset
                (PAGE_SIZE - (Page.new 7 PageType.LeafTable).free_space_offset))) :=
  C4_checksum_coverage (Page.new 7 PageType.LeafTable)
    (Reached.new 7 PageType.LeafTable)

theorem readSlice_split (b : Buf) (st m n : Nat) :
    readSlice b st (m + n) = readSlice b st m ++ readSlice b (st + m) n := by
  apply List.ext_getElem
  · simp [readSlice_length]
  · intro k hk1 hk2
    rw [readSlice_length] at hk1
    by_cases hk : k < m
    · rw [List.getElem_append_left (by rw [readSlice_length]; exact hk)]
      simp only [readSlice, List.getElem_map, List.getElem_range]
    · rw [List.getElem_append_right (by rw [readSlice_length]; omega)]
      simp only [readSlice, List.getElem_map, List.getElem_range,
        List.length_map, List.length_range]
      congr 1
      omega

theorem readSlice_writeBytes_sub (b : Buf) (st : Nat) (xs : List Nat)
    (off len : Nat) (h : off + len ≤ xs.length) :
    readSlice (writeBytes b st xs) (st + off) len = (xs.drop off).take len := by
  apply List.ext_getElem
  · rw [readSlice_length]
    rw [List.length_take, List.length_drop]
    omega
  · intro k hk1 hk2
    rw [readSlice_length] at hk1
    simp only [readSlice, List.getElem_map, List.getElem_range]
    rw [show st + off + k = st + (off + k) by omega]
    rw [writeBytes_apply_in b st xs (st + (off + k)) (by omega) (by omega)]
    rw [Nat.add_sub_cancel_left]
    rw [List.getElem_take, List.getElem_drop]
    exact List.getD_eq_getElem xs 0 (by omega)

theorem PageType.from_u8_as_u8 (t : PageType) :
    PageType.from_u8 (t.as_u8 % 256) = .ok t := by
  cases t <;> rfl

theorem crcBit_lt (c : Nat) (h : c < 2 ^ 32) : crcBit c < 2 ^ 32 := by
  unfold crcBit
  split
  · exact Nat.xor_lt_two_pow (by omega) (by norm_num)
  · omega

theorem crcByteStep_lt (c b : Nat) (hc : c < 2 ^ 32) (hb : b < 256) :
    crcByteStep c b < 2 ^ 32 := by
  unfold crcByteStep
  simp only [seqNat_eq]
  have h0 : c ^^^ b < 2 ^ 32 :=
    Nat.xor_lt_two_pow hc (by omega)
  exact crcBit_lt _ (crcBit_lt _ (crcBit_lt _ (crcBit_lt _ (crcBit_lt _
    (crcBit_lt _ (crcBit_lt _ (crcBit_lt _ h0)))))))

theorem crc32Aux_lt (l : List Nat) (c : Nat) (hc : c < 2 ^ 32)
    (hl : ∀ x ∈ l, x < 256) : crc32Aux c l < 2 ^ 32 := by
  induction l generalizing c with
  | nil => exact hc
  | cons x xs ih =>
    rw [crc32Aux, seqNat_eq]
    exact ih _ (crcByteStep_lt c x hc (hl x (List.mem_cons_self x xs)))
      (fun y hy => hl y (List.mem_cons_of_mem x hy))

theorem crc32_lt (l : List Nat) (hl : ∀ x ∈ l, x < 256) : crc32 l < 2 ^ 32 := by
  unfold crc32
  exact Nat.xor_lt_two_pow (crc32Aux_lt l 0xFFFFFFFF (by norm_num) hl) (by norm_num)

theorem except_bind_ok {α β : Type} (a : α) (f : α → Except DatabaseError β) :
    (Except.ok a >>= f : Except DatabaseError β) = f a := rfl

theorem read_slot_directory_zero (b : Buf) (base bytesLen pid off : Nat) :
    read_slot_directory b base bytesLen pid 0 off = .ok [] := rfl

theorem read_slot_directory_succ (b : Buf) (base bytesLen pid count off : Nat) :
    read_slot_directory b base bytesLen pid (count + 1) off =
      if off + SLOT_DIRECTORY_ENTRY_SIZE > bytesLen then
        .error (.CorruptedPage pid "Slot directory extends beyond buffer")
      else
        seqNat (leValue (readSlice b (base + off) 2)) fun slot_offset =>
        seqNat (leValue (readSlice b (base + off + 2) 2)) fun length =>
        if length > 0 ∧ slot_offset + length > PAGE_SIZE then
          .error (.CorruptedPage pid "Slot exceeds page boundary")
        else do
          let rest ← read_slot_directory b base bytesLen pid count (off + 4)
          return (⟨slot_offset, length, none,
            length == OverflowPointer.SERIALIZED_SIZE, none⟩ : SlotEntry) :: rest := by
  rfl

/-- The 4-byte on-disk form of one slot directory entry, as `to_bytes`
emits it and `read_slot_directory` reads it. -/
def slotDirBytes (s : SlotEntry) : List Nat :=
  leBytes 2 s.offset ++ leBytes 2 s.length

theorem slotDirBytes_length (s : SlotEntry) : (slotDirBytes s).length = 4 := by
  simp [slotDirBytes, leBytes_length]

theorem flatMap_slotDirBytes_length (l : List SlotEntry) :
    (l.flatMap slotDirBytes).length = 4 * l.length := by
  induction l with
  | nil => rfl
  | cons s rest ih =>
    show (slotDirBytes s ++ rest.flatMap slotDirBytes).length = _
    rw [List.length_append, slotDirBytes_length, ih, List.length_cons]
    ring

theorem headerBytes_length (p : Page) : p.headerBytes.length = 33 := by
  simp [Page.headerBytes, leBytes_length]

/-- Parsing the slot directory back out of bytes that hold exactly the
written entries: each slot returns with its offset and length, no row id, no
overflow pointer, and the overflow flag recomputed from `length == 12`. -/
theorem read_slot_directory_ok (b : Buf) (pid : Nat) (l : List SlotEntry) :
    ∀ off0 : Nat,
    readSlice b (PAGE_HEADER_SIZE + off0) (4 * l.length) = l.flatMap slotDirBytes →
    off0 + 4 * l.length ≤ PAGE_SIZE - PAGE_HEADER_SIZE →
    (∀ s ∈ l, s.offset < 65536 ∧ s.length < 65536 ∧
      (0 < s.length → s.offset + s.length ≤ PAGE_SIZE)) →
    read_slot_directory b PAGE_HEADER_SIZE (PAGE_SIZE - PAGE_HEADER_SIZE) pid
      l.length off0
      = .ok (l.map (fun s => (⟨s.offset, s.length, none,
          s.length == OverflowPointer.SERIALIZED_SIZE, none⟩ : SlotEntry))) := by
  induction l with
  | nil => intro off0 _ _ _; rfl
  | cons s rest ih =>
    intro off0 hbytes hfit hoks
    have hph : PAGE_HEADER_SIZE = 36 := rfl
    have hps : PAGE_SIZE = 4096 := rfl
    have hsd : SLOT_DIRECTORY_ENTRY_SIZE = 4 := rfl
    obtain ⟨hso, hsl, hsb⟩ := hoks s (List.mem_cons_self s rest)
    rw [show (4 : Nat) * (s :: rest).length = 2 + (2 + 4 * rest.length) by
      rw [List.length_cons]; ring] at hbytes
    rw [readSlice_split, readSlice_split] at hbytes
    have hflat : (s :: rest).flatMap slotDirBytes
        = leBytes 2 s.offset ++ (leBytes 2 s.length ++ rest.flatMap slotDirBytes) := by
      show slotDirBytes s ++ rest.flatMap slotDirBytes = _
      rw [slotDirBytes, List.append_assoc]
    rw [hflat] at hbytes
    obtain ⟨h1, hbytes2⟩ := List.append_inj_of_length_left hbytes
      (by rw [readSlice_length, leBytes_length])
    obtain ⟨h2, h3⟩ := List.append_inj_of_length_left hbytes2
      (by rw [readSlice_length, leBytes_length])
    rw [List.length_cons, read_slot_directory_succ]
    rw [if_neg (by
      rw [hsd, hps, hph]
      rw [hps, hph, List.length_cons] at hfit
      omega)]
    rw [seqNat_eq, seqNat_eq, h1, h2,
      leValue_leBytes 2 s.offset (by norm_num; omega),
      leValue_leBytes 2 s.length (by norm_num; omega)]
    rw [if_neg (by
      intro hcon
      have := hsb hcon.1
      omega)]
    rw [ih (off0 + 4)
      (by
        rw [show PAGE_HEADER_SIZE + (off0 + 4) = PAGE_HEADER_SIZE + off0 + 2 + 2 by
          omega]
        exact h3)
      (by rw [hps, hph] at hfit ⊢; rw [List.length_cons] at hfit; omega)
      (fun s2 h2 => hoks s2 (List.mem_cons_of_mem s h2))]
    rfl

theorem readSlice_getD (b : Buf) (st len i : Nat) (h : i < len) :
    (readSlice b st len).getD i 0 = b (st + i) := by
  unfold readSlice
  rw [List.getD_eq_getElem _ 0 (by simp [List.length_map, List.length_range]; exact h)]
  simp

theorem leBytes_all_lt (w n : Nat) : ∀ x ∈ leBytes w n, x < 256 := by
  intro x hx
  unfold leBytes at hx
  simp only [List.mem_map, List.mem_range] at hx
  obtain ⟨i, -, hi⟩ := hx
  omega

theorem as_u8_lt (t : PageType) : t.as_u8 < 256 := by
  cases t <;> norm_num [PageType.as_u8]

theorem slotCrcBytes_all_lt (s : SlotEntry) : ∀ x ∈ slotCrcBytes s, x < 256 := by
  intro x hx
  unfold slotCrcBytes at hx
  simp only [List.mem_append, List.mem_singleton] at hx
  rcases hx with (hx | hx) | hx
  · exact leBytes_all_lt 2 s.offset x hx
  · exact leBytes_all_lt 2 s.length x hx
  · subst hx
    split <;> norm_num

theorem readSlice_all_lt (b : Buf) (st len : Nat) (hb : ∀ k, b k < 256) :
    ∀ x ∈ readSlice b st len, x < 256 := by
  intro x hx
  unfold readSlice at hx
  simp only [List.mem_map, List.mem_range] at hx
  obtain ⟨i, -, hi⟩ := hx
  rw [← hi]
  exact hb _

/-- The checksum the source stores is always a 32-bit value, provided the
data buffer is byte-valued. -/
theorem calculate_page_checksum_lt (page_id : Nat) (page_type : PageType)
    (parent next : Option Nat) (cc fso : Nat) (slots : List SlotEntry)
    (buf : Buf) (dso : Nat) (hb : ∀ k, buf k < 256) :
    calculate_page_checksum page_id page_type parent next cc fso slots
      (some buf) dso < 2 ^ 32 := by
  unfold calculate_page_checksum
  apply crc32_lt
  intro x hx
  simp only [List.mem_append, List.mem_singleton, List.mem_flatMap] at hx
  rcases hx with ((((((hx | hx) | hx) | hx) | hx) | hx) | hx) | hx
  · exact leBytes_all_lt 8 page_id x hx
  · rw [hx]
    exact as_u8_lt page_type
  · exact leBytes_all_lt 8 _ x hx
  · exact leBytes_all_lt 8 _ x hx
  · exact leBytes_all_lt 2 _ x hx
  · exact leBytes_all_lt 2 _ x hx
  · obtain ⟨s, -, hs⟩ := hx
    exact slotCrcBytes_all_lt s x hs
  · exact readSlice_all_lt buf dso _ hb x hx

theorem writeBytes_all_lt (b : Buf) (st : Nat) (xs : List Nat)
    (hb : ∀ k, b k < 256) (hx : ∀ x ∈ xs, x < 256) :
    ∀ k, writeBytes b st xs k < 256 := by
  intro k
  unfold writeBytes
  split
  · rcases hg : xs.get? (k - st) with - | v
    · rw [List.getD_eq_getD_get?, hg]
      norm_num
    · rw [List.getD_eq_getD_get?, hg]
      exact hx v (List.get?_mem hg)
  · exact hb k

theorem zeroBuf_all_lt : ∀ k, zeroBuf k < 256 := fun _ => by norm_num [zeroBuf]

/-- The header field chunks of `Page::headerBytes` at their byte offsets. -/
theorem headerBytes_fields (p : Page) :
    p.headerBytes.take 8 = leBytes 8 p.page_id ∧
    (p.headerBytes.drop 8).take 1 = [p.page_type.as_u8] ∧
    (p.headerBytes.drop 9).take 8 = leBytes 8 (p.parent_page_id.getD U64_MAX) ∧
    (p.headerBytes.drop 17).take 8 = leBytes 8 (p.next_leaf_page_id.getD U64_MAX) ∧
    (p.headerBytes.drop 25).take 2 = leBytes 2 p.cell_count ∧
    (p.headerBytes.drop 27).take 2 = leBytes 2 p.free_space_offset ∧
    (p.headerBytes.drop 29).take 4 = leBytes 4 p.checksum :=
  ⟨rfl, rfl, rfl, rfl, rfl, rfl, rfl⟩

set_option maxHeartbeats 2000000 in
/-- C3 (amended): serializing and re-parsing a full-data page satisfying the
page invariant succeeds and preserves the header fields (page id, type,
parent, next leaf, cell count, free space offset, checksum), each slot's
offset and length at its index, and the bytes `get_cell` returns for every
slot of nonzero length — but each re-read slot carries `row_id = none`,
`overflow_pointer = none`, and an `is_overflow` flag recomputed as
`length == 12`, so the hypotheses additionally demand that every slot's
in-memory flag already agrees with that recomputation — on a page violating
it the recomputed flag flips a byte of the checksum input and `from_bytes`
rejects the page outright (the byte format stores neither row ids nor
overflow pointers, refuting the original claim's bit-exact structural
equality; both failure modes are exhibited by the counterexample). -/
theorem C3_roundtrip (p : Page) (buf : Buf) (hdata : p.data = some buf)
    (hInv : PageInv p) (hbuf : ∀ k, buf k < 256)
    (hpid : p.page_id < 2 ^ 64)
    (hpar : ∀ v, p.parent_page_id = some v → v < U64_MAX)
    (hnext : ∀ v, p.next_leaf_page_id = some v → v < U64_MAX)
    (hs16 : ∀ s ∈ p.slots, s.offset < 65536 ∧ s.length < 65536)
    (hov : ∀ s ∈ p.slots, s.is_overflow = (s.length == OverflowPointer.SERIALIZED_SIZE)) :
    ∃ b q, p.to_bytes = .ok b ∧ Page.from_bytes b = .ok q ∧
      q.page_id = p.page_id ∧ q.page_type = p.page_type ∧
      q.parent_page_id = p.parent_page_id ∧
      q.next_leaf_page_id = p.next_leaf_page_id ∧
      q.cell_count = p.cell_count ∧
      q.free_space_offset = p.free_space_offset ∧
      q.checksum = p.checksum ∧
      q.slots = p.slots.map (fun s => (⟨s.offset, s.length, none,
        s.length == OverflowPointer.SERIALIZED_SIZE, none⟩ : SlotEntry)) ∧
      q.data = some b ∧
      (∀ i s, p.slots.get? i = some s → s.length ≠ 0 →
        q.get_cell i = p.get_cell i) := by
  have hps : PAGE_SIZE = 4096 := rfl
  have hph : PAGE_HEADER_SIZE = 36 := rfl
  have hsd : SLOT_DIRECTORY_ENTRY_SIZE = 4 := rfl
  have hfso := hInv.fso_le
  have hhead := hInv.head_le
  rw [hps] at hfso
  rw [hph, hsd] at hhead
  set b1 : Buf := writeBytes zeroBuf 0 p.headerBytes with hb1
  set b2 : Buf := writeBytes b1 PAGE_HEADER_SIZE
    (p.slots.flatMap (fun s => leBytes 2 s.offset ++ leBytes 2 s.length)) with hb2
  set B : Buf := (if p.free_space_offset < PAGE_SIZE then
    writeBytes b2 p.free_space_offset
      (readSlice buf p.free_space_offset (PAGE_SIZE - p.free_space_offset))
    else b2) with hB
  have hsbeq : p.slots.flatMap (fun s => leBytes 2 s.offset ++ leBytes 2 s.length)
      = p.slots.flatMap slotDirBytes := rfl
  -- reading back a header chunk
  have hchunk : ∀ st len, st + len ≤ 33 →
      readSlice B st len = (p.headerBytes.drop st).take len := by
    intro st len hle
    have e2 : readSlice B st len = readSlice b1 st len := by
      apply readSlice_congr
      intro k hk1 hk2
      rw [hB]
      have hx : b2 k = b1 k := by
        rw [hb2]
        exact writeBytes_apply_out _ _ _ k (Or.inl (by rw [hph]; omega))
      split
      · rw [writeBytes_apply_out _ _ _ k (Or.inl (by omega)), hx]
      · exact hx
    rw [e2, hb1]
    have h3 := readSlice_writeBytes_sub zeroBuf 0 p.headerBytes st len
      (by rw [headerBytes_length]; exact hle)
    rw [Nat.zero_add] at h3
    exact h3
  obtain ⟨hf0, hf8, hf9, hf17, hf25, hf27, hf29⟩ := headerBytes_fields p
  have hF0 : readSlice B 0 8 = leBytes 8 p.page_id := by
    rw [hchunk 0 8 (by norm_num), List.drop_zero, hf0]
  have hF8 : readSlice B 8 1 = [p.page_type.as_u8] := by
    rw [hchunk 8 1 (by norm_num), hf8]
  have hF9 : readSlice B 9 8 = leBytes 8 (p.parent_page_id.getD U64_MAX) := by
    rw [hchunk 9 8 (by norm_num), hf9]
  have hF17 : readSlice B 17 8 = leBytes 8 (p.next_leaf_page_id.getD U64_MAX) := by
    rw [hchunk 17 8 (by norm_num), hf17]
  have hF25 : readSlice B 25 2 = leBytes 2 p.cell_count := by
    rw [hchunk 25 2 (by norm_num), hf25]
  have hF27 : readSlice B 27 2 = leBytes 2 p.free_space_offset := by
    rw [hchunk 27 2 (by norm_num), hf27]
  have hF29 : readSlice B 29 4 = leBytes 4 p.checksum := by
    rw [hchunk 29 4 (by norm_num), hf29]
  have hB8 : B 8 = p.page_type.as_u8 := by
    have h4 : readSlice B 8 1 = [B (8 + 0)] := rfl
    rw [h4] at hF8
    injection hF8
  have hcc_lt : p.cell_count < 65536 := by
    rw [hInv.cc_eq]
    omega
  have hck_lt : p.checksum < 2 ^ 32 := by
    have h5 := hInv.ck_eq
    rw [hdata] at h5
    rw [h5]
    exact calculate_page_checksum_lt _ _ _ _ _ _ _ _ _ hbuf
  have hpard : (if p.parent_page_id.getD U64_MAX = U64_MAX then none
      else some (p.parent_page_id.getD U64_MAX)) = p.parent_page_id := by
    rcases hp2 : p.parent_page_id with - | v
    · simp
    · have hv := hpar v hp2
      simp only [Option.getD_some]
      rw [if_neg (by omega)]
  have hnextd : (if p.next_leaf_page_id.getD U64_MAX = U64_MAX then none
      else some (p.next_leaf_page_id.getD U64_MAX)) = p.next_leaf_page_id := by
    rcases hp2 : p.next_leaf_page_id with - | v
    · simp
    · have hv := hnext v hp2
      simp only [Option.getD_some]
      rw [if_neg (by omega)]
  have hpar_lt : p.parent_page_id.getD U64_MAX < 2 ^ 64 := by
    rcases hp2 : p.parent_page_id with - | v
    · simp [U64_MAX]
    · have hv := hpar v hp2
      simp only [Option.getD_some]
      unfold U64_MAX at hv
      omega
  have hnext_lt : p.next_leaf_page_id.getD U64_MAX < 2 ^ 64 := by
    rcases hp2 : p.next_leaf_page_id with - | v
    · simp [U64_MAX]
    · have hv := hnext v hp2
      simp only [Option.getD_some]
      unfold U64_MAX at hv
      omega
  have hread : read_header B = .ok (p.page_id, p.page_type, p.parent_page_id,
      p.next_leaf_page_id, p.cell_count, p.free_space_offset, p.checksum) := by
    unfold read_header
    rw [hB8, PageType.from_u8_as_u8, except_bind_ok]
    dsimp only
    rw [hF0, leValue_leBytes 8 p.page_id (by norm_num; exact hpid)]
    rw [hF9, leValue_leBytes 8 _ (by norm_num; exact hpar_lt)]
    rw [hF17, leValue_leBytes 8 _ (by norm_num; exact hnext_lt)]
    rw [hF25, leValue_leBytes 2 _ (by norm_num; exact hcc_lt)]
    rw [hF27, leValue_leBytes 2 _ (by norm_num; omega)]
    rw [hF29, leValue_leBytes 4 _ (by norm_num; exact hck_lt)]
    rw [hpard, hnextd]
    rfl
  have hsb : readSlice B (PAGE_HEADER_SIZE + 0) (4 * p.slots.length)
      = p.slots.flatMap slotDirBytes := by
    have e2 : readSlice B (PAGE_HEADER_SIZE + 0) (4 * p.slots.length)
        = readSlice b2 (PAGE_HEADER_SIZE + 0) (4 * p.slots.length) := by
      apply readSlice_congr
      intro k hk1 hk2
      rw [hB]
      split
      · refine writeBytes_apply_out _ _ _ k (Or.inl ?_)
        rw [hph] at hk2
        omega
      · rfl
    rw [e2, hb2, hsbeq]
    have h3 := readSlice_writeBytes_self b1 PAGE_HEADER_SIZE
      (p.slots.flatMap slotDirBytes)
    rw [flatMap_slotDirBytes_length] at h3
    rw [show PAGE_HEADER_SIZE + 0 = PAGE_HEADER_SIZE by omega]
    exact h3
  have hoks : ∀ s ∈ p.slots, s.offset < 65536 ∧ s.length < 65536 ∧
      (0 < s.length → s.offset + s.length ≤ PAGE_SIZE) := by
    intro s hs
    obtain ⟨h1, h2⟩ := hs16 s hs
    refine ⟨h1, h2, fun hpos => ?_⟩
    have hb0 : (s.length == 0) = false := by
      rcases h0 : s.length == 0
      · rfl
      · exact absurd (by simpa using h0) (by omega)
    have hdel : s.is_deleted = false := by
      unfold SlotEntry.is_deleted
      rw [hb0]
      rfl
    exact (hInv.slots_ok s hs hdel).2
  have hfit2 : 0 + 4 * p.slots.length ≤ PAGE_SIZE - PAGE_HEADER_SIZE := by
    rw [hps, hph]
    omega
  have hslots := read_slot_directory_ok B p.page_id p.slots 0 hsb hfit2 hoks
  have hslots2 : read_slot_directory B PAGE_HEADER_SIZE (PAGE_SIZE - PAGE_HEADER_SIZE)
      p.page_id p.cell_count 0
      = .ok (p.slots.map (fun s => (⟨s.offset, s.length, none,
          s.length == OverflowPointer.SERIALIZED_SIZE, none⟩ : SlotEntry))) := by
    rw [hInv.cc_eq]
    exact hslots
  have hdatareg : ∀ k, p.free_space_offset ≤ k → k < 4096 → B k = buf k := by
    intro k hk1 hk2
    rw [hB]
    rw [if_pos (by rw [hps]; omega)]
    rw [writeBytes_apply_in _ _ _ k hk1 (by rw [readSlice_length, hps]; omega)]
    rw [readSlice_getD buf p.free_space_offset _ (k - p.free_space_offset)
      (by rw [hps]; omega)]
    congr 1
    omega
  have hdslice : readSlice B p.free_space_offset (PAGE_SIZE - p.free_space_offset)
      = readSlice buf p.free_space_offset (PAGE_SIZE - p.free_space_offset) := by
    apply readSlice_congr
    intro k hk1 hk2
    refine hdatareg k hk1 ?_
    rw [hps] at hk2
    omega
  set q : Page := ({ page_id := p.page_id, page_type := p.page_type, parent_page_id := p.parent_page_id, next_leaf_page_id := p.next_leaf_page_id, is_dirty := false, slots := p.slots.map (fun s => (⟨s.offset, s.length, none, s.length == OverflowPointer.SERIALIZED_SIZE, none⟩ : SlotEntry)), free_space_offset := p.free_space_offset, cell_count := p.cell_count, data := some B, checksum := p.checksum, overflow_pages := [] } : Page) with hq
  have hslotcrc : ∀ l : List SlotEntry,
      (∀ s ∈ l, s.is_overflow = (s.length == OverflowPointer.SERIALIZED_SIZE)) →
      (l.map (fun s => (⟨s.offset, s.length, none,
        s.length == OverflowPointer.SERIALIZED_SIZE, none⟩ : SlotEntry))).flatMap
          slotCrcBytes
        = l.flatMap slotCrcBytes := by
    intro l hl
    induction l with
    | nil => rfl
    | cons s rest ih =>
      simp only [List.map_cons, List.flatMap_cons]
      rw [ih (fun x hx => hl x (List.mem_cons_of_mem s hx))]
      congr 1
      unfold slotCrcBytes
      dsimp only
      rw [hl s (List.mem_cons_self s rest)]
  have hcalc : calculate_page_checksum q.page_id q.page_type q.parent_page_id
      q.next_leaf_page_id q.cell_count q.free_space_offset q.slots q.data
      q.free_space_offset = p.checksum := by
    rw [hq]
    unfold calculate_page_checksum
    dsimp only
    rw [hslotcrc p.slots hov, hdslice]
    have h5 := hInv.ck_eq
    rw [hdata] at h5
    unfold calculate_page_checksum at h5
    dsimp only at h5
    exact h5.symm
  have hver : q.verify_checksum = true := by
    unfold Page.verify_checksum verify_page_checksum
    rw [hcalc]
    have hcksame : q.checksum = p.checksum := by rw [hq]
    rw [hcksame]
    simp
  refine ⟨B, q, ?_, ?_, by rw [hq], by rw [hq], by rw [hq], by rw [hq],
    by rw [hq], by rw [hq], by rw [hq], by rw [hq], by rw [hq], ?_⟩
  · unfold Page.to_bytes
    rw [hdata]
  · unfold Page.from_bytes
    rw [hread, except_bind_ok]
    dsimp only
    rw [if_neg (by rw [hps]; omega)]
    rw [hslots2, except_bind_ok]
    rw [if_neg (show ¬ _ from fun hcon => hcon hver)]
    rfl
  · intro i s hget hs0
    have hb0 : (s.length == 0) = false := by
      rcases h0 : s.length == 0
      · rfl
      · exact absurd (by simpa using h0) hs0
    have hdel : s.is_deleted = false := by
      unfold SlotEntry.is_deleted
      rw [hb0]
      rfl
    have hbounds := hInv.slots_ok s (List.get?_mem hget) hdel
    unfold Page.get_cell
    rw [hq]
    dsimp only
    rw [List.get?_map, hget, hdata]
    dsimp only [Option.map]
    rw [if_neg (show ¬ (s.length = 0 ∧ (none : Option Nat) = none) from
      fun hc => hs0 hc.1)]
    rw [if_neg (show ¬ (s.length = 0 ∧ s.row_id = none) from fun hc => hs0 hc.1)]
    rw [if_pos hbounds.2, if_pos hbounds.2]
    congr 1
    apply readSlice_congr
    intro k hk1 hk2
    refine hdatareg k (le_trans hbounds.1 hk1) ?_
    rw [hps] at hbounds
    omega

/-- The original round-trip claim fails on reachable pages in two ways.
A page holding one cell inserted with row id 7 re-reads with `row_id = none`
(the 4-byte slot format stores neither row ids nor overflow pointers).  A
page holding one regular 12-byte cell does not even parse back: the re-read
slot's `is_overflow` flag is recomputed as `length == 12`, flipping the
per-slot flag byte of the checksum input, so `from_bytes` rejects the
serialized page with a checksum failure.  Both pages arise from a single
successful `insert_cell` on `Page::new`. -/
theorem C3_counterexample :
    Except.toOption (Except.map (fun q => q.slots.map (fun s => s.row_id))
        ((((Page.new 1 PageType.LeafTable).insert_cell [1, 2, 3] (some 7)).2.to_bytes).bind
          Page.from_bytes))
      = some [none] ∧
    ((Page.new 1 PageType.LeafTable).insert_cell [1, 2, 3] (some 7)).2.slots.map
        (fun s => s.row_id) = [some 7] ∧
    ((Page.new 1 PageType.LeafTable).insert_cell [1, 2, 3] (some 7)).1
      = .ok 0 ∧
    (match (((Page.new 1 PageType.LeafTable).insert_cell
        [1, 2, 3, 4, 5, 6, 7, 8, 9, 10, 11, 12] none).2.to_bytes).bind
        Page.from_bytes with
      | .error (.CorruptedPage _ _) => true
      | _ => false) = true ∧
    ((Page.new 1 PageType.LeafTable).insert_cell
        [1, 2, 3, 4, 5, 6, 7, 8, 9, 10, 11, 12] none).1 = .ok 0 ∧
    ((Page.new 1 PageType.LeafTable).insert_cell
        [1, 2, 3, 4, 5, 6, 7, 8, 9, 10, 11, 12] none).2.slots.map
        (fun s => s.is_overflow) = [false] := by
  refine ⟨by decide, by decide, rfl, by decide, rfl, by decide⟩

theorem C3_roundtrip_witness :
    ∃ b q,
      ((Page.new 1 PageType.LeafTable).insert_cell [1, 2, 3] (some 7)).2.to_bytes
        = .ok b ∧
      Page.from_bytes b = .ok q ∧
      q.page_id
        = ((Page.new 1 PageType.LeafTable).insert_cell [1, 2, 3] (some 7)).2.page_id ∧
      q.page_type
        = ((Page.new 1 PageType.LeafTable).insert_cell [1, 2, 3] (some 7)).2.page_type ∧
      q.parent_page_id
        = ((Page.new 1 PageType.LeafTable).insert_cell [1, 2, 3] (some 7)).2.parent_page_id ∧
      q.next_leaf_page_id
        = ((Page.new 1 PageType.LeafTable).insert_cell [1, 2, 3] (some 7)).2.next_leaf_page_id ∧
      q.cell_count
        = ((Page.new 1 PageType.LeafTable).insert_cell [1, 2, 3] (some 7)).2.cell_count ∧
      q.free_space_offset
        = ((Page.new 1 PageType.LeafTable).insert_cell [1, 2, 3] (some 7)).2.free_space_offset ∧
      q.checksum
        = ((Page.new 1 PageType.LeafTable).insert_cell [1, 2, 3] (some 7)).2.checksum ∧
      q.slots
        = ((Page.new 1 PageType.LeafTable).insert_cell [1, 2, 3]
            (some 7)).2.slots.map (fun s => (⟨s.offset, s.length, none,
          s.length == OverflowPointer.SERIALIZED_SIZE, none⟩ : SlotEntry)) ∧
      q.data = some b ∧
      (∀ i s, ((Page.new 1 PageType.LeafTable).insert_cell [1, 2, 3]
          (some 7)).2.slots.get? i = some s → s.length ≠ 0 →
        q.get_cell i
          = ((Page.new 1 PageType.LeafTable).insert_cell [1, 2, 3]
              (some 7)).2.get_cell i) :=
  C3_roundtrip ((Page.new 1 PageType.LeafTable).insert_cell [1, 2, 3] (some 7)).2
    (writeBytes zeroBuf 4093 [1, 2, 3]) rfl
    (PageInv_insert_cell (Page.new 1 PageType.LeafTable) zeroBuf [1, 2, 3] (some 7)
      rfl (PageInv_new 1 PageType.LeafTable) (by decide))
    (writeBytes_all_lt zeroBuf 4093 [1, 2, 3] zeroBuf_all_lt (by decide))
    (by decide)
    (fun v h => Option.noConfusion h)
    (fun v h => Option.noConfusion h)
    (by decide)
    (by decide)

/-- `Row::to_bytes` always emits at least the row-id flag byte, so the
`row_bytes.is_empty()` guard inside `BPlusTree::insert` can never fire. -/
theorem row_to_bytes_ne_nil (r : Row) : r.to_bytes ≠ [] := by
  unfold Row.to_bytes
  rcases r.row_id with - | v <;> simp

/-- C10: `BPlusTree::insert` is not total on its row argument — for a row
with an empty value list it evaluates `row.values[0]` before the empty-row
guard and panics (modelled as `none`), for every tree state and every fuel;
the `CorruptedDatabase` rejection the claim describes is unreachable. -/
theorem C10_insert_empty_row_panics (T : TreeState) (rid : Option Nat)
    (fuel : Nat) : treeInsert T ⟨rid, []⟩ fuel = none := rfl

def cellsLen (cells : List (List Nat)) : Nat := (cells.map List.length).sum

theorem cellsLen_nil : cellsLen [] = 0 := rfl

theorem cellsLen_cons (d : List Nat) (rest : List (List Nat)) :
    cellsLen (d :: rest) = d.length + cellsLen rest := by
  simp [cellsLen]

theorem insertCells_nil (p : Page) : insertCells p [] = (.ok (), p) := rfl

theorem insertCells_cons (p : Page) (d : List Nat) (rest : List (List Nat)) :
    insertCells p (d :: rest) =
      match p.insert_cell d none with
      | (.ok _, p1) => insertCells p1 rest
      | (.error e, p1) => (.error e, p1) := by
  rfl

/-- Inserting a list of nonempty cells into a page with enough room: all
insertions succeed, the slots are appended in order, each new index reads
back its cell, old indices are untouched, and the free space offset drops
by the total size. -/
theorem insertCells_spec (cells : List (List Nat)) :
    ∀ (p : Page) (buf : Buf), p.data = some buf → PageShape p →
    (∀ c ∈ cells, c ≠ []) →
    PAGE_HEADER_SIZE + (p.slots.length + cells.length) * SLOT_DIRECTORY_ENTRY_SIZE
      + cellsLen cells ≤ p.free_space_offset →
    (insertCells p cells).1 = .ok () ∧
    PageShape (insertCells p cells).2 ∧
    (∃ buf2, (insertCells p cells).2.data = some buf2) ∧
    (insertCells p cells).2.slots.length = p.slots.length + cells.length ∧
    (insertCells p cells).2.free_space_offset
      = p.free_space_offset - cellsLen cells ∧
    (∀ i, i < p.slots.length →
      (insertCells p cells).2.get_cell i = p.get_cell i) ∧
    (∀ j, j < cells.length →
      (insertCells p cells).2.get_cell (p.slots.length + j) = cells.get? j) ∧
    (insertCells p cells).2.next_leaf_page_id = p.next_leaf_page_id ∧
    (insertCells p cells).2.page_id = p.page_id ∧
    (insertCells p cells).2.page_type = p.page_type := by
  induction cells with
  | nil =>
    intro p buf hdata hshape hne hfit
    rw [insertCells_nil]
    refine ⟨rfl, hshape, ⟨buf, hdata⟩, by simp, by simp [cellsLen_nil],
      fun i _ => rfl, fun j hj => absurd hj (by simp), rfl, rfl, rfl⟩
  | cons d rest ih =>
    intro p buf hdata hshape hne hfit
    have hps : PAGE_SIZE = 4096 := rfl
    have hph : PAGE_HEADER_SIZE = 36 := rfl
    have hsd : SLOT_DIRECTORY_ENTRY_SIZE = 4 := rfl
    rw [hph, hsd, List.length_cons, cellsLen_cons] at hfit
    have hfso := hshape.fso_le
    rw [hps] at hfso
    have hcf : p.can_fit d.length = true := by
      rw [can_fit_spec p d.length hshape.fso_le, hph, hsd]
      omega
    have hins := insert_cell_ok p buf d none hdata hshape.fso_le hcf
    have hshape1 := PageShape_insert_cell p buf d none hdata hshape hcf
    have hold := fun i hi =>
      get_cell_insert_old p buf d none hdata hshape hcf i hi
    have hnew := get_cell_insert_new p buf d none hdata hshape hcf
      (fun hc => hne d (List.mem_cons_self d rest) hc.1)
    rw [insertCells_cons, hins]
    rw [hins] at hshape1 hnew
    dsimp only
    dsimp only at hshape1 hnew
    have hold2 : ∀ i, i < p.slots.length →
        (Page.update_checksum { p with
          slots := p.slots ++ [SlotEntry.new_regular
            (p.free_space_offset - d.length) d.length none],
          free_space_offset := p.free_space_offset - d.length,
          cell_count := p.slots.length + 1,
          data := some (writeBytes buf (p.free_space_offset - d.length) d),
          is_dirty := true }).get_cell i = p.get_cell i := by
      intro i hi
      have h3 := hold i hi
      rw [hins] at h3
      exact h3
    obtain ⟨ih1, ih2, ih3, ih4, ih5, ih6, ih7, ih8, ih9, ih10⟩ :=
      ih (Page.update_checksum { p with
          slots := p.slots ++ [SlotEntry.new_regular
            (p.free_space_offset - d.length) d.length none],
          free_space_offset := p.free_space_offset - d.length,
          cell_count := p.slots.length + 1,
          data := some (writeBytes buf (p.free_space_offset - d.length) d),
          is_dirty := true })
        (writeBytes buf (p.free_space_offset - d.length) d) rfl hshape1
        (fun c hc => hne c (List.mem_cons_of_mem d hc))
        (by
          unfold Page.update_checksum
          dsimp only
          rw [hph, hsd, List.length_append, List.length_cons, List.length_nil]
          omega)
    refine ⟨ih1, ih2, ih3, ?_, ?_, ?_, ?_, ?_, ?_, ?_⟩
    · rw [ih4]
      unfold Page.update_checksum
      dsimp only
      rw [List.length_append, List.length_cons, List.length_nil,
        List.length_cons]
      omega
    · rw [ih5]
      unfold Page.update_checksum
      dsimp only
      rw [cellsLen_cons]
      omega
    · intro i hi
      rw [ih6 i (by
        unfold Page.update_checksum
        dsimp only
        rw [List.length_append, List.length_cons, List.length_nil]
        omega)]
      exact hold2 i hi
    · intro j hj
      rcases j with - | j2
      · exact (ih6 p.slots.length (by
          unfold Page.update_checksum
          dsimp only
          rw [List.length_append, List.length_cons, List.length_nil]
          omega)).trans hnew
      · have h4 := ih7 j2 (by
          rw [List.length_cons] at hj
          omega)
        rw [show (Page.update_checksum { p with
            slots := p.slots ++ [SlotEntry.new_regular
              (p.free_space_offset - d.length) d.length none],
            free_space_offset := p.free_space_offset - d.length,
            cell_count := p.slots.length + 1,
            data := some (writeBytes buf (p.free_space_offset - d.length) d),
            is_dirty := true }).slots.length = p.slots.length + 1 from by
          unfold Page.update_checksum
          dsimp only
          rw [List.length_append, List.length_cons, List.length_nil]] at h4
        have h5 : p.slots.length + 1 + j2 = p.slots.length + (j2 + 1) := by omega
        rw [h5] at h4
        exact h4
    · rw [ih8]
      rfl
    · rw [ih9]
      rfl
    · rw [ih10]
      rfl

theorem PageShape_new (page_id : Nat) (page_type : PageType) :
    PageShape (Page.new page_id page_type) :=
  PageInv_shape _ (PageInv_new page_id page_type)

theorem create_interior_entry_length (k : Value) (page_id : Nat) :
    (create_interior_entry k page_id).length = 12 + k.to_bytes.length := by
  simp [create_interior_entry, leBytes_length]
  omega

theorem create_interior_entry_ne_nil (k : Value) (page_id : Nat) :
    create_interior_entry k page_id ≠ [] := by
  intro hc
  have := create_interior_entry_length k page_id
  rw [hc] at this
  simp at this
  omega

theorem to_bytes_ok (p : Page) (buf : Buf) (h : p.data = some buf) :
    ∃ bb, p.to_bytes = .ok bb := by
  unfold Page.to_bytes
  rw [h]
  exact ⟨_, rfl⟩

/-- A `write_page` to a nonzero id on a full-data page succeeds and only
changes the file. -/
theorem write_page_ok (T : TreeState) (page_id : Nat) (p : Page) (buf : Buf)
    (h0 : page_id ≠ 0) (hdata : p.data = some buf) :
    ∃ T1, T.write_page page_id p = .ok T1 ∧
      T1.page_cache = T.page_cache ∧ T1.next_page_id = T.next_page_id ∧
      T1.root_page_id = T.root_page_id := by
  obtain ⟨bb, hbb⟩ := to_bytes_ok p buf hdata
  unfold TreeState.write_page
  rw [if_neg h0, hbb]
  exact ⟨_, rfl, rfl, rfl, rfl⟩

theorem insert_recursive_succ (T : TreeState) (page_id : Nat) (key : Value)
    (cell : Cell) (fuel : Nat) :
    insert_recursive T page_id key cell (fuel + 1) =
      match T.load_page page_id with
      | .error e => some (.error e)
      | .ok (page, T0) =>
        match page.page_type with
        | .LeafTable =>
          if page.can_fit cell.data.length then
            match cell.overflow_page_id with
            | some overflow_page_id =>
              match page.insert_cell_with_overflow cell.data none
                  (some overflow_page_id) with
              | (.error e, _) => some (.error e)
              | (.ok _, p1) =>
                match T0.write_page page_id p1 with
                | .error e => some (.error e)
                | .ok T1 =>
                  some (.ok (none, { T1 with
                    page_cache := cacheInsert T1.page_cache page_id p1 }))
            | none =>
              if page.needs_overflow cell.data.length then
                match allocate_overflow_page T0 cell.data with
                | .error e => some (.error e)
                | .ok (overflow_id, T1) =>
                  match page.insert_cell_with_overflow cell.data none
                      (some overflow_id) with
                  | (.error e, _) => some (.error e)
                  | (.ok _, p1) =>
                    match T1.write_page page_id p1 with
                    | .error e => some (.error e)
                    | .ok T2 =>
                      some (.ok (none, { T2 with
                        page_cache := cacheInsert T2.page_cache page_id p1 }))
              else
                match insert_with_reduced_writes T0 page_id page cell.data with
                | .error e => some (.error e)
                | .ok T1 => some (.ok (none, T1))
          else
            match split_leaf_page T0 page key cell with
            | none => none
            | some (.error e) => some (.error e)
            | some (.ok (split, T1)) => some (.ok (some split, T1))
        | .InteriorTable =>
          match find_child_page page key with
          | .error e => some (.error e)
          | .ok child_page_id =>
            match insert_recursive T0 child_page_id key cell fuel with
            | none => none
            | some (.error e) => some (.error e)
            | some (.ok (none, T1)) => some (.ok (none, T1))
            | some (.ok (some split, T1)) =>
              let new_entry_data := create_interior_entry split.separator_key
                split.right_page.page_id
              if ¬ page.can_fit new_entry_data.length then
                match split_interior_page T1 page new_entry_data with
                | none => none
                | some (.error e) => some (.error e)
                | some (.ok (isplit, T2)) => some (.ok (some isplit, T2))
              else
                match page.insert_cell new_entry_data none with
                | (.error e, _) => some (.error e)
                | (.ok _, updated) =>
                  match T1.write_pages_batch [(page_id, updated),
                      (split.left_page.page_id, split.left_page),
                      (split.right_page.page_id, split.right_page)] with
                  | .error e => some (.error e)
                  | .ok T2 => some (.ok (none, T2))
        | _ =>
          some (.error (.CorruptedDatabase "Invalid page type for B+ tree operation")) := by
  rfl

theorem write_pages_batch_nil (T : TreeState) :
    T.write_pages_batch [] = .ok T := rfl

theorem write_pages_batch_cons (T : TreeState) (page_id : Nat) (p : Page)
    (rest : List (Nat × Page)) :
    T.write_pages_batch ((page_id, p) :: rest) =
      match T.write_page page_id p with
      | .error e => .error e
      | .ok T1 =>
        TreeState.write_pages_batch
          { T1 with page_cache := cacheInsert T1.page_cache page_id p } rest := by
  rfl

set_option maxHeartbeats 4000000 in
/-- C7: when an insert reaches a full root leaf, the collected cells plus the
incoming one are sorted by key and split at index n / 2: the lower half is
rebuilt in the cleared original page (whose next-leaf pointer now names the
fresh right page), the upper half goes to the freshly allocated right page
(which inherits the old next-leaf pointer), the separator is the key at
index n / 2, and the new root is an InteriorTable page holding exactly the
entries (separator, left id) and (Null, right id); insert returns the new
root page id. -/
theorem C7_leaf_split_root (T : TreeState) (p : Page) (buf : Buf) (row : Row)
    (key : Value) (vs : List Value) (collected sorted : List (Value × List Nat))
    (sp : Nat) (sep : Value × List Nat) (fuel : Nat)
    (hvals : row.values = key :: vs)
    (hdata : p.data = some buf)
    (hshape : PageShape p)
    (hpt : p.page_type = .LeafTable)
    (hpid : p.page_id = T.root_page_id)
    (hroot0 : T.root_page_id ≠ 0)
    (hrootb : T.root_page_id ≤ T.file.length)
    (hcache : cacheGet T.page_cache T.root_page_id = some p)
    (hnext0 : T.next_page_id ≠ 0)
    (hfresh : p.page_id < T.next_page_id)
    (hfull : p.can_fit row.to_bytes.length = false)
    (hcoll : collectKeyedCells p = some collected)
    (hsorted : sorted = (collected ++ [(key, row.to_bytes)]).mergeSort keyedLe)
    (hsp : sp = sorted.length / 2)
    (hsep : sorted.get? sp = some sep)
    (hne : ∀ c ∈ sorted, c.2 ≠ [])
    (hfitL : PAGE_HEADER_SIZE + sp * SLOT_DIRECTORY_ENTRY_SIZE
      + cellsLen ((sorted.take sp).map (fun c => c.2)) ≤ PAGE_SIZE)
    (hfitR : PAGE_HEADER_SIZE + (sorted.length - sp) * SLOT_DIRECTORY_ENTRY_SIZE
      + cellsLen ((sorted.drop sp).map (fun c => c.2)) ≤ PAGE_SIZE)
    (hfitRoot : (create_interior_entry sep.1 p.page_id).length
      + (create_interior_entry .Null T.next_page_id).length + 44 ≤ PAGE_SIZE)
    (hfuel : fuel ≠ 0) :
    ∃ T2, treeInsert T row fuel
        = some (.ok (some (T.next_page_id + 1), T2)) ∧
      T2.root_page_id = T.next_page_id + 1 ∧
      T2.next_page_id = T.next_page_id + 2 ∧
      (∃ pL, cacheGet T2.page_cache p.page_id = some pL ∧
        pL.page_type = .LeafTable ∧
        pL.next_leaf_page_id = some T.next_page_id ∧
        pL.slots.length = sp ∧
        (∀ j, j < sp →
          pL.get_cell j = ((sorted.take sp).map (fun c => c.2)).get? j)) ∧
      (∃ pR, cacheGet T2.page_cache T.next_page_id = some pR ∧
        pR.page_type = .LeafTable ∧
        pR.next_leaf_page_id = p.next_leaf_page_id ∧
        pR.slots.length = sorted.length - sp ∧
        (∀ j, j < sorted.length - sp →
          pR.get_cell j = ((sorted.drop sp).map (fun c => c.2)).get? j)) ∧
      (∃ pRoot, cacheGet T2.page_cache (T.next_page_id + 1) = some pRoot ∧
        pRoot.page_type = .InteriorTable ∧
        pRoot.slots.length = 2 ∧
        pRoot.get_cell 0 = some (create_interior_entry sep.1 p.page_id) ∧
        pRoot.get_cell 1 = some (create_interior_entry .Null T.next_page_id)) := by
  have hps : PAGE_SIZE = 4096 := rfl
  have hph : PAGE_HEADER_SIZE = 36 := rfl
  have hsd : SLOT_DIRECTORY_ENTRY_SIZE = 4 := rfl
  obtain ⟨f, rfl⟩ : ∃ f, fuel = f + 1 := by
    rcases fuel with - | f
    · exact absurd rfl hfuel
    · exact ⟨f, rfl⟩
  -- sp is a strict index of sorted
  have hsplt : sp < sorted.length := by
    rcases List.get?_eq_some.mp hsep with ⟨h, -⟩
    exact h
  -- step 1: the head of the values and the nonempty row bytes
  unfold treeInsert
  rw [hvals]
  dsimp only [List.head?]
  rw [if_neg (by
    rw [List.isEmpty_iff]
    exact row_to_bytes_ne_nil row)]
  rw [insert_recursive_succ]
  unfold TreeState.load_page
  rw [if_neg hroot0, if_neg (by omega), hcache]
  dsimp only
  rw [hpt]
  dsimp only
  rw [if_neg (by rw [hfull]; exact Bool.false_ne_true)]
  -- split_leaf_page: allocate the right page
  unfold split_leaf_page TreeState.allocate_page
  dsimp only
  obtain ⟨T1, hT1, hT1c, hT1n, hT1r⟩ := write_page_ok
    { T with next_page_id := T.next_page_id + 1 } T.next_page_id
    (Page.new T.next_page_id .LeafTable) zeroBuf hnext0 rfl
  have hT1n2 : T1.next_page_id = T.next_page_id + 1 := hT1n
  have hT1c2 : T1.page_cache = T.page_cache := hT1c
  have hT1r2 : T1.root_page_id = T.root_page_id := hT1r
  rw [hT1]
  dsimp only
  rw [hcoll]
  dsimp only
  rw [← hsorted]
  have hlen : sorted.length = collected.length + 1 := by
    rw [hsorted, List.length_mergeSort, List.length_append]
    simp
  have hsne : sorted.isEmpty = false := by
    rcases hs : sorted with - | ⟨c0, srest⟩
    · rw [hs] at hlen
      simp at hlen
    · rfl
  rw [if_neg (by rw [hsne]; exact Bool.false_ne_true)]
  rw [← hsp]
  -- rebuild the left page
  have hclearedshape : PageShape ({ p with slots := [], free_space_offset := PAGE_SIZE, cell_count := 0 } : Page) := by
    refine ⟨?_, ?_, ?_, ?_⟩ <;> dsimp only
    · exact le_refl _
    · rw [hph, hsd, hps]
      simp
    · rfl
    · intro s hs
      simp at hs
  have htakelen : ((sorted.take sp).map (fun c => c.2)).length = sp := by
    rw [List.length_map, List.length_take]
    omega
  have hdroplen : ((sorted.drop sp).map (fun c => c.2)).length
      = sorted.length - sp := by
    rw [List.length_map, List.length_drop]
  obtain ⟨L1, L2, ⟨bufL, L3⟩, L4, L5, L6, L7, L8, L9, L10⟩ := insertCells_spec
    ((sorted.take sp).map (fun c => c.2))
    ({ p with slots := [], free_space_offset := PAGE_SIZE, cell_count := 0 } : Page)
    buf (by dsimp only; exact hdata) hclearedshape
    (by
      intro c hc
      rw [List.mem_map] at hc
      obtain ⟨a, ha, rfl⟩ := hc
      exact hne a (List.mem_of_mem_take ha))
    (by
      dsimp only
      rw [List.length_nil, Nat.zero_add, htakelen]
      exact hfitL)
  rcases hL : insertCells
      ({ p with slots := [], free_space_offset := PAGE_SIZE, cell_count := 0 } : Page)
      ((sorted.take sp).map (fun c => c.2)) with ⟨resL, left1⟩
  rw [hL] at L1 L2 L3 L4 L5 L6 L7 L8 L9 L10
  dsimp only at L1 L2 L3 L4 L5 L6 L7 L8 L9 L10
  subst L1
  rw [hL]
  dsimp only
  -- rebuild the right page
  obtain ⟨R1, R2, ⟨bufR, R3⟩, R4, R5, R6, R7, R8, R9, R10⟩ := insertCells_spec
    ((sorted.drop sp).map (fun c => c.2))
    (Page.new T.next_page_id .LeafTable) zeroBuf rfl
    (PageShape_new T.next_page_id .LeafTable)
    (by
      intro c hc
      rw [List.mem_map] at hc
      obtain ⟨a, ha, rfl⟩ := hc
      exact hne a (List.mem_of_mem_drop ha))
    (by
      have hz : (Page.new T.next_page_id PageType.LeafTable).slots.length = 0 := rfl
      have hf : (Page.new T.next_page_id PageType.LeafTable).free_space_offset
          = PAGE_SIZE := rfl
      rw [hz, hf, Nat.zero_add, hdroplen]
      exact hfitR)
  rcases hR : insertCells (Page.new T.next_page_id .LeafTable)
      ((sorted.drop sp).map (fun c => c.2)) with ⟨resR, right1⟩
  rw [hR] at R1 R2 R3 R4 R5 R6 R7 R8 R9 R10
  dsimp only at R1 R2 R3 R4 R5 R6 R7 R8 R9 R10
  subst R1
  rw [hR]
  dsimp only
  rw [hsep]
  dsimp only
  -- the recursive insert reported a root split; build the new root
  have hR9 : right1.page_id = T.next_page_id := R9
  rw [L9, hR9]
  obtain ⟨T2a, hT2a, hT2ac, hT2an, hT2ar⟩ := write_page_ok
    { T1 with next_page_id := T1.next_page_id + 1 } T1.next_page_id
    (Page.new T1.next_page_id .InteriorTable) zeroBuf
    (by rw [hT1n2]; omega) rfl
  rw [hT2a]
  dsimp only
  rw [hT1n2]
  -- first interior entry into the fresh root
  have hfso_new : (Page.new (T.next_page_id + 1) PageType.InteriorTable).free_space_offset
      = PAGE_SIZE := rfl
  have hslots_new : (Page.new (T.next_page_id + 1) PageType.InteriorTable).slots
      = ([] : List SlotEntry) := rfl
  have hfr := hfitRoot
  have hcf1 : (Page.new (T.next_page_id + 1) PageType.InteriorTable).can_fit
      (create_interior_entry sep.1 p.page_id).length = true := by
    rw [can_fit_spec _ _ (le_of_eq hfso_new)]
    rw [hslots_new, hfso_new]
    rw [hph, hsd, hps]
    rw [hps] at hfr
    simp only [List.length_nil, Nat.zero_mul, Nat.zero_add]
    omega
  have hins1 := insert_cell_ok (Page.new (T.next_page_id + 1) PageType.InteriorTable)
    zeroBuf (create_interior_entry sep.1 p.page_id) none rfl (le_of_eq hfso_new) hcf1
  rcases h1 : (Page.new (T.next_page_id + 1) PageType.InteriorTable).insert_cell
      (create_interior_entry sep.1 p.page_id) none with ⟨res1, r1⟩
  rw [h1] at hins1
  injection hins1 with hres1 hr1
  subst hres1
  dsimp only
  have hr1shape : PageShape r1 := by
    have h := PageShape_insert_cell (Page.new (T.next_page_id + 1) PageType.InteriorTable)
      zeroBuf (create_interior_entry sep.1 p.page_id) none rfl
      (PageShape_new _ _) hcf1
    rw [h1] at h
    exact h
  have hg1 : r1.get_cell 0 = some (create_interior_entry sep.1 p.page_id) := by
    have h := get_cell_insert_new (Page.new (T.next_page_id + 1) PageType.InteriorTable)
      zeroBuf (create_interior_entry sep.1 p.page_id) none rfl
      (PageShape_new _ _) hcf1
      (by intro hc; exact create_interior_entry_ne_nil _ _ hc.1)
    rw [h1] at h
    exact h
  have hr1data : r1.data = some (writeBytes zeroBuf
      ((Page.new (T.next_page_id + 1) PageType.InteriorTable).free_space_offset
        - (create_interior_entry sep.1 p.page_id).length)
      (create_interior_entry sep.1 p.page_id)) := by
    rw [hr1]
    rfl
  have hr1fso : r1.free_space_offset
      = PAGE_SIZE - (create_interior_entry sep.1 p.page_id).length := by
    rw [hr1]
    rfl
  have hr1slen : r1.slots.length = 1 := by
    rw [hr1]
    rfl
  -- second interior entry
  have hcf2 : r1.can_fit (create_interior_entry Value.Null T.next_page_id).length
      = true := by
    rw [can_fit_spec _ _ (by rw [hr1fso]; exact Nat.sub_le _ _)]
    rw [hr1slen, hr1fso]
    rw [hph, hsd, hps]
    rw [hps] at hfr
    omega
  have hins2 := insert_cell_ok r1 _ (create_interior_entry Value.Null T.next_page_id)
    none hr1data (by rw [hr1fso]; exact Nat.sub_le _ _) hcf2
  rcases h2 : r1.insert_cell (create_interior_entry Value.Null T.next_page_id) none
    with ⟨res2, r2⟩
  rw [h2] at hins2
  injection hins2 with hres2 hr2
  subst hres2
  dsimp only
  have hg2A : r2.get_cell 0 = some (create_interior_entry sep.1 p.page_id) := by
    have h := get_cell_insert_old r1 _ (create_interior_entry Value.Null T.next_page_id)
      none hr1data hr1shape hcf2 0 (by rw [hr1slen]; omega)
    rw [h2] at h
    dsimp only at h
    exact h.trans hg1
  have hg2B : r2.get_cell 1 = some (create_interior_entry Value.Null T.next_page_id) := by
    have h := get_cell_insert_new r1 _ (create_interior_entry Value.Null T.next_page_id)
      none hr1data hr1shape hcf2
      (by intro hc; exact create_interior_entry_ne_nil _ _ hc.1)
    rw [h2] at h
    dsimp only at h
    rw [hr1slen] at h
    exact h
  have hr2pt : r2.page_type = PageType.InteriorTable := by
    rw [hr2, hr1]
    rfl
  have hr2slen : r2.slots.length = 2 := by
    rw [hr2, hr1]
    rfl
  have hr2data : r2.data = some (writeBytes (writeBytes zeroBuf
      ((Page.new (T.next_page_id + 1) PageType.InteriorTable).free_space_offset
        - (create_interior_entry sep.1 p.page_id).length)
      (create_interior_entry sep.1 p.page_id))
      (r1.free_space_offset - (create_interior_entry Value.Null T.next_page_id).length)
      (create_interior_entry Value.Null T.next_page_id)) := by
    rw [hr2]
    rfl
  -- write out the three pages
  rw [write_pages_batch_cons]
  obtain ⟨T3a, hw1, hc1, hn1, hro1⟩ := write_page_ok T2a (T.next_page_id + 1) r2
    _ (by omega) hr2data
  rw [hw1]
  dsimp only
  rw [write_pages_batch_cons]
  obtain ⟨T4a, hw2, hc2, hn2, hro2⟩ := write_page_ok
    { T3a with page_cache := cacheInsert T3a.page_cache (T.next_page_id + 1) r2 }
    p.page_id ({ left1 with page_id := p.page_id, next_leaf_page_id := some T.next_page_id } : Page)
    bufL (by rw [hpid]; exact hroot0) L3
  rw [hw2]
  dsimp only
  rw [write_pages_batch_cons]
  obtain ⟨T5a, hw3, hc3, hn3, hro3⟩ := write_page_ok
    { T4a with page_cache := cacheInsert T4a.page_cache p.page_id ({ left1 with page_id := p.page_id, next_leaf_page_id := some T.next_page_id } : Page) }
    T.next_page_id ({ right1 with page_id := T.next_page_id, next_leaf_page_id := p.next_leaf_page_id } : Page)
    bufR hnext0 R3
  rw [hw3]
  dsimp only
  rw [write_pages_batch_nil]
  dsimp only
  refine ⟨_, rfl, ?_, ?_, ?_, ?_, ?_⟩
  · rfl
  · have h3 : T5a.next_page_id = T4a.next_page_id := hn3
    have h4 : T4a.next_page_id = T3a.next_page_id := hn2
    have h5 : T3a.next_page_id = T2a.next_page_id := hn1
    have h6 : T2a.next_page_id = T1.next_page_id + 1 := hT2an
    show T5a.next_page_id = T.next_page_id + 2
    rw [h3, h4, h5, h6, hT1n2]
  · refine ⟨({ left1 with page_id := p.page_id, next_leaf_page_id := some T.next_page_id } : Page), ?_, ?_, rfl, ?_, ?_⟩
    · dsimp only
      unfold cacheGet cacheInsert
      rw [List.find?_cons_of_neg _ (by simp only [beq_iff_eq]; omega)]
      rw [List.find?_cons_of_pos _ (by simp only [beq_iff_eq])]
      rfl
    · exact L10.trans hpt
    · have h := L4
      simp only [List.length_nil, Nat.zero_add, List.length_map, List.length_take] at h
      show left1.slots.length = sp
      omega
    · intro j hj
      have h := L7 j (by simp only [List.length_map, List.length_take]; omega)
      simp only [List.length_nil, Nat.zero_add] at h
      exact h
  · refine ⟨({ right1 with page_id := T.next_page_id, next_leaf_page_id := p.next_leaf_page_id } : Page), ?_, ?_, rfl, ?_, ?_⟩
    · dsimp only
      unfold cacheGet cacheInsert
      rw [List.find?_cons_of_pos _ (by simp only [beq_iff_eq])]
      rfl
    · exact R10
    · have h := R4
      simp only [List.length_map, List.length_drop] at h
      have hz : (Page.new T.next_page_id PageType.LeafTable).slots.length = 0 := rfl
      rw [hz, Nat.zero_add] at h
      exact h
    · intro j hj
      have h := R7 j (by simp only [List.length_map, List.length_drop]; omega)
      have hz : (Page.new T.next_page_id PageType.LeafTable).slots.length = 0 := rfl
      rw [hz, Nat.zero_add] at h
      exact h
  · refine ⟨r2, ?_, hr2pt, hr2slen, hg2A, hg2B⟩
    dsimp only
    unfold cacheGet cacheInsert
    rw [List.find?_cons_of_neg _ (by simp only [beq_iff_eq]; omega)]
    rw [List.find?_cons_of_neg _ (by simp only [beq_iff_eq]; omega)]
    rw [List.find?_cons_of_pos _ (by simp only [beq_iff_eq])]
    rfl

theorem C7_leaf_split_root_witness :
    ∃ T2, treeInsert C7tree C7row 1
        = some (.ok (some (C7tree.next_page_id + 1), T2)) ∧
      T2.root_page_id = C7tree.next_page_id + 1 ∧
      T2.next_page_id = C7tree.next_page_id + 2 ∧
      (∃ pL, cacheGet T2.page_cache C7page.page_id = some pL ∧
        pL.page_type = .LeafTable ∧
        pL.next_leaf_page_id = some C7tree.next_page_id ∧
        pL.slots.length = 1 ∧
        (∀ j, j < 1 →
          pL.get_cell j = ((C7sorted.take 1).map (fun c => c.2)).get? j)) ∧
      (∃ pR, cacheGet T2.page_cache C7tree.next_page_id = some pR ∧
        pR.page_type = .LeafTable ∧
        pR.next_leaf_page_id = C7page.next_leaf_page_id ∧
        pR.slots.length = C7sorted.length - 1 ∧
        (∀ j, j < C7sorted.length - 1 →
          pR.get_cell j = ((C7sorted.drop 1).map (fun c => c.2)).get? j)) ∧
      (∃ pRoot, cacheGet T2.page_cache (C7tree.next_page_id + 1) = some pRoot ∧
        pRoot.page_type = .InteriorTable ∧
        pRoot.slots.length = 2 ∧
        pRoot.get_cell 0 = some (create_interior_entry C7sep.1 C7page.page_id) ∧
        pRoot.get_cell 1 = some (create_interior_entry .Null C7tree.next_page_id)) :=
  C7_leaf_split_root C7tree C7page C7buf C7row (Value.Integer 3) [] C7collected
    C7sorted 1 C7sep 1 rfl rfl (by decide) rfl rfl (by decide) (by decide) rfl
    (by decide) (by decide) (by decide) (by decide)
    ((List.mergeSort_of_sorted (by decide)).symm) (by decide) (by decide)
    (by decide) (by decide) (by decide) (by decide) (by decide)

set_option maxHeartbeats 2000000 in
/-- C8 counterexample: two successful inserts into a fresh single-leaf
table, key 2 then key 1, produce a table whose full scan returns the two
rows in insertion order — key 2 before key 1 — although the first key
compares strictly greater than the second, refuting ascending-key order. -/
theorem C8_counterexample :
    (match treeInsert C8tree0 C8rowB 1 with
      | some (.ok (none, _)) => true
      | _ => false) = true ∧
    (match treeInsert C8tree1 C8rowA 1 with
      | some (.ok (none, _)) => true
      | _ => false) = true ∧
    scanRows C8tree2.file (ScanState.new C8tree2.root_page_id) 8
      = some (.ok [C8rowB, C8rowA]) ∧
    Value.partial_cmp (C8rowB.values.getD 0 .Null) (C8rowA.values.getD 0 .Null)
      = some .gt := by
  exact ⟨by decide, by decide, rfl, by decide⟩


theorem scanRows_succ (file : List Buf) (s : ScanState) (fuel : Nat) :
    scanRows file s (fuel + 1) =
      match scannerScan file s (fuel + 1) with
      | none => none
      | some (.error e) => some (.error e)
      | some (.ok (none, _)) => some (.ok [])
      | some (.ok (some row, s1)) =>
        match scanRows file s1 fuel with
        | none => none
        | some (.error e) => some (.error e)
        | some (.ok rest) => some (.ok (row :: rest)) := rfl

theorem scanLoop_succ (file : List Buf) (s : ScanState) (fuel : Nat) :
    scanLoop file s (fuel + 1) =
      match s.current_page_id with
      | none => some (.ok (none, { s with is_exhausted := true }))
      | some page_id =>
        match load_page_metadata file page_id with
        | .error e => some (.error e)
        | .ok page =>
          if s.current_slot_index < page.slots.length then
            match page.slots.get? s.current_slot_index with
            | none => none
            | some slot =>
              if slot.is_deleted then
                scanLoop file
                  { s with current_slot_index := s.current_slot_index + 1 } fuel
              else
                match read_row_from_slot file page_id slot with
                | .error e => some (.error e)
                | .ok row =>
                  let s1 := { s with current_slot_index := s.current_slot_index + 1 }
                  let s2 := if page.slots.length - 2 ≤ s1.current_slot_index
                    then prefetch_next_page file s1 page else s1
                  some (.ok (some row, s2))
          else
            match get_next_page file s with
            | (.error e, _) => some (.error e)
            | (.ok none, s1) =>
              some (.ok (none, { s1 with is_exhausted := true }))
            | (.ok (some (next_page_id, _)), s1) =>
              scanLoop file { s1 with current_page_id := some next_page_id, current_slot_index := 0 } fuel := rfl

/-- On a single leaf whose next pointer is empty, the scan loop from slot
index `i` returns the remaining rows in slot order. -/
theorem C8loopAux (file : List Buf) (pid : Nat) (page : Page)
    (hload : load_page_metadata file pid = .ok page)
    (hnext : page.next_leaf_page_id = none) :
    ∀ (fuel i : Nat) (rows : List Row),
    page.slots.length - i + 1 ≤ fuel →
    (∀ slot ∈ page.slots.drop i, slot.is_deleted = false) →
    List.Forall₂ (fun slot row => read_row_from_slot file pid slot = .ok row)
      (page.slots.drop i) rows →
    scanRows file ⟨pid, some pid, i, [], false⟩ fuel = some (.ok rows) := by
  intro fuel
  induction fuel with
  | zero =>
    intro i rows hfuel hnd hrows
    exact absurd hfuel (by omega)
  | succ f ih =>
    intro i rows hfuel hnd hrows
    rw [scanRows_succ]
    rw [show scannerScan file (⟨pid, some pid, i, [], false⟩ : ScanState) (f + 1)
      = scanLoop file ⟨pid, some pid, i, [], false⟩ (f + 1) from rfl]
    rw [scanLoop_succ]
    dsimp only
    rw [hload]
    dsimp only
    by_cases hlt : i < page.slots.length
    · have hdropi : page.slots.drop i = page.slots[i] :: page.slots.drop (i + 1) :=
        List.drop_eq_getElem_cons hlt
      rw [hdropi] at hnd hrows
      rcases hrows with _ | ⟨hr0, hrest⟩
      rename_i row0 rows2
      rw [if_pos hlt]
      have hget : page.slots.get? i = some page.slots[i] := by
        rw [List.get?_eq_getElem?, List.getElem?_eq_getElem hlt]
      rw [hget]
      dsimp only
      have hnd0 : page.slots[i].is_deleted = false :=
        hnd _ (List.mem_cons_self _ _)
      rw [if_neg (by rw [hnd0]; exact Bool.false_ne_true)]
      rw [hr0]
      dsimp only
      have hpre : ∀ s' : ScanState, prefetch_next_page file s' page = s' := by
        intro s'
        unfold prefetch_next_page
        rw [hnext]
      rw [hpre]
      rw [ite_self]
      have ih' := ih (i + 1) rows2 (by omega)
        (fun s hs => hnd s (List.mem_cons_of_mem _ hs)) hrest
      rw [ih']
    · have hdropi : page.slots.drop i = [] := List.drop_eq_nil_of_le (by omega)
      rw [hdropi] at hrows
      cases hrows
      rw [if_neg hlt]
      have hgn : get_next_page file (⟨pid, some pid, i, [], false⟩ : ScanState)
          = (.ok none, ⟨pid, some pid, i, [], false⟩) := by
        unfold get_next_page get_next_page_direct
        dsimp only
        rw [hload]
        dsimp only
        rw [hnext]
      rw [hgn]

/-- C8 (corrected form): a scan over a table whose tree is a single leaf
page returns exactly the rows of its slots in slot order — the physical
insertion order, not ascending key order. -/
theorem C8_scan_slot_order (file : List Buf) (pid : Nat) (page : Page)
    (rows : List Row) (fuel : Nat)
    (hload : load_page_metadata file pid = .ok page)
    (hpt : page.page_type = .LeafTable)
    (hnext : page.next_leaf_page_id = none)
    (hnd : ∀ slot ∈ page.slots, slot.is_deleted = false)
    (hrows : List.Forall₂
      (fun slot row => read_row_from_slot file pid slot = .ok row)
      page.slots rows)
    (hfuel : page.slots.length + 1 ≤ fuel) :
    scanRows file (ScanState.new pid) fuel = some (.ok rows) := by
  obtain ⟨f, rfl⟩ : ∃ f, fuel = f + 1 := ⟨fuel - 1, by omega⟩
  have h := C8loopAux file pid page hload hnext (f + 1) 0 rows
    (by omega) (by simpa using hnd) (by simpa using hrows)
  rw [scanRows_succ] at h
  rw [show scannerScan file (⟨pid, some pid, 0, [], false⟩ : ScanState) (f + 1)
    = scanLoop file ⟨pid, some pid, 0, [], false⟩ (f + 1) from rfl] at h
  rw [scanRows_succ]
  have hss : scannerScan file (ScanState.new pid) (f + 1)
      = scanLoop file ⟨pid, some pid, 0, [], false⟩ (f + 1) := by
    unfold scannerScan ScanState.new
    dsimp only
    rw [show find_first_leaf file pid (f + 1) =
      match load_page_metadata file pid with
      | .error e => some (.error e)
      | .ok page =>
        match page.page_type with
        | .LeafTable => some (.ok pid)
        | .InteriorTable =>
          match page.slots.head? with
          | some first_slot =>
            match read_child_page_id_from_slot file pid first_slot with
            | .error e => some (.error e)
            | .ok child_page_id => find_first_leaf file child_page_id f
          | none => some (.error (.CorruptedPage pid
              "Interior page has no children"))
        | _ => some (.error (.CorruptedPage pid
            "Invalid page type in B+ tree")) from rfl]
    rw [hload]
    dsimp only
    rw [hpt]
    rfl
  rw [hss]
  exact h

theorem C8_scan_slot_order_witness :
    scanRows [C8frameW] (ScanState.new 1) 3
      = some (.ok [C8rowX, C8rowY]) :=
  C8_scan_slot_order [C8frameW] 1 C8pageMetaW [C8rowX, C8rowY] 3 rfl rfl rfl
    (by decide) (List.Forall₂.cons rfl (List.Forall₂.cons rfl List.Forall₂.nil))
    (by decide)

/-- C1: the complete effect of `insert_into_table` is the tree insert's
own page writes plus — when the tree reports a changed root — the purely
in-memory `table_roots` update of `update_table_root`; no catalog row in
page 1 is rewritten, so the file keeps the old root for the table. -/
theorem C1_insert_into_table_no_catalog_write (sm : StorageManager)
    (table_name : List Nat) (row : Row) (fuel : Nat) :
    insert_into_table sm table_name row fuel =
      match mapGet sm.table_roots table_name with
      | none => some (.error (.TableNotFound table_name))
      | some root_page_id =>
        match inserter_insert sm.file root_page_id row fuel with
        | none => none
        | some (.error e) => some (.error e)
        | some (.ok (new_root, file1)) =>
          some (.ok { sm with file := file1, table_roots := if root_page_id = new_root then sm.table_roots else mapInsert sm.table_roots table_name new_root }) := by
  unfold insert_into_table
  rcases hroot : mapGet sm.table_roots table_name with - | root
  · rfl
  · dsimp only
    rcases hins : inserter_insert sm.file root row fuel with - | res
    · rfl
    · rcases res with e | ⟨nr, f1⟩
      · rfl
      · dsimp only
        rw [show mapGet ({ sm with file := f1 } : StorageManager).table_roots
          table_name = mapGet sm.table_roots table_name from rfl, hroot]
        dsimp only
        by_cases h : root = nr
        · rw [if_neg (show ¬ root ≠ nr from fun hc => hc h), if_pos h]
        · rw [if_pos h, if_neg h]
          rfl

/-- C2: `create_table` never consults the table-roots map — its outcome
(error, or the returned root page id) is identical whatever bindings the
map holds, so a name that is already known is never rejected; the
duplicate call allocates a fresh page and overwrites the binding. -/
theorem C2_create_table_ignores_roots (sm : StorageManager)
    (roots2 : List (List Nat × Nat)) (table_name sql : List Nat)
    (fuel : Nat) :
    (create_table { sm with table_roots := roots2 } table_name sql fuel).map
        (fun r => r.map (fun p => p.1))
      = (create_table sm table_name sql fuel).map
        (fun r => r.map (fun p => p.1)) := by
  unfold create_table StorageManager.allocate_new_page StorageManager.write_page
  dsimp only
  rcases hb : (Page.new (sm.page_count + 1) .LeafTable).to_bytes with e | bytes
  · rfl
  · dsimp only
    split
    · rfl
    · rfl
    · rename_i opt_root T1
      rcases opt_root with - | nr
      · rfl
      · rfl
